import Mathlib

/-!
# coreMQTT lightweight serializer (`mqtt_lightweight.c`)

A shallow embedding of the MQTT 3.1.1 wire codec and the properties proved
about it.

Conventions of the embedding.

* A byte (`uint8_t`) is a `Nat` below 256; a `uint16_t` is a `Nat` below
  65536; a `size_t` is a `Nat` below `SIZE_MOD`.  Every C operation that can
  leave the range of its type is followed by the explicit reduction.
* A pointer to bytes is the list of the bytes that can be read through it
  (`none` is `NULL`).  `p + k` is `List.drop k`, `memcpy (dst, p, n)` stores
  `List.take n`.
* Every serializer stores its bytes through a pointer that starts at
  `pBuffer->pBuffer` and only moves forward, one store per position.  The
  embedding keeps the list of the bytes stored so far: the pointer is at
  offset `length` of that list.
* `assert (c)` does not change the value a function computes; the embedding
  records whether every assertion on the path taken held (`assertsHold`).
* Reading a byte outside the list a pointer stands for has no defined value:
  the deserializers return `none` there.
* Output parameters are passed in with the value they hold before the call
  and returned with the value they hold after it.
-/

namespace CoreMQTT

/-! ## Declarations of `mqtt_lightweight.h` -/

/-- Modelled from the spec: the return codes `MQTTStatus_t` of the header
`mqtt_lightweight.h`, which is not part of the sources (spec section 3,
entity Status). -/
inductive MQTTStatus where
  | MQTTSuccess
  | MQTTBadParameter
  | MQTTNoMemory
  | MQTTBadResponse
  | MQTTServerRefused
  | MQTTNoDataAvailable
  deriving DecidableEq, Repr

/-- Modelled from the spec: the quality-of-service levels `MQTTQoS_t` of the
header `mqtt_lightweight.h` (spec section 3: QoS 0/1/2). -/
inductive MQTTQoS where
  | MQTTQoS0
  | MQTTQoS1
  | MQTTQoS2
  deriving DecidableEq, Repr

/-- Numeric value of a QoS level, as used by the comparisons `qos > MQTTQoS0`
and by the cast `( uint8_t ) qos`. -/
def MQTTQoS.toNat : MQTTQoS → Nat
  | .MQTTQoS0 => 0
  | .MQTTQoS1 => 1
  | .MQTTQoS2 => 2

/-- Modelled from the spec: `MQTTPublishInfo_t` of the header (spec section
3, entity PublishInfo).  The source uses `topicNameLength` as a `uint16_t`
and `payloadLength` as a `size_t`. -/
structure MQTTPublishInfo where
  qos : MQTTQoS
  retain : Bool
  dup : Bool
  pTopicName : Option (List Nat)
  topicNameLength : Nat
  pPayload : Option (List Nat)
  payloadLength : Nat
  deriving DecidableEq, Repr

/-- Modelled from the spec: `MQTTConnectInfo_t` of the header (spec section
3, entity ConnectInfo).  All lengths are `uint16_t`. -/
structure MQTTConnectInfo where
  cleanSession : Bool
  keepAliveSeconds : Nat
  pClientIdentifier : Option (List Nat)
  clientIdentifierLength : Nat
  pUserName : Option (List Nat)
  userNameLength : Nat
  pPassword : Option (List Nat)
  passwordLength : Nat
  deriving DecidableEq, Repr

/-- Modelled from the spec: `MQTTFixedBuffer_t` of the header (spec section
3, entity FixedBuffer): the bytes the region holds and its capacity. -/
structure MQTTFixedBuffer where
  pBuffer : List Nat
  size : Nat
  deriving DecidableEq, Repr

/-- Modelled from the spec: `MQTTPacketInfo_t` of the header (spec section
3, entity PacketInfo). -/
structure MQTTPacketInfo where
  type : Nat
  pRemainingData : Option (List Nat)
  remainingLength : Nat
  deriving DecidableEq, Repr

/-- Modelled from the spec: `MQTTSubscribeInfo_t` of the header (spec section
3, entity SubscribeInfo): the requested QoS and the topic filter.  The source
uses `topicFilterLength` as a `uint16_t`. -/
structure MQTTSubscribeInfo where
  qos : MQTTQoS
  pTopicFilter : Option (List Nat)
  topicFilterLength : Nat
  deriving DecidableEq, Repr

/-- Modelled from the spec: packet type byte of CONNECT (spec section 8,
scenario 3: packet type 0x10). -/
def MQTT_PACKET_TYPE_CONNECT : Nat := 0x10
/-- Modelled from the spec: packet type byte of CONNACK (section 4.5). -/
def MQTT_PACKET_TYPE_CONNACK : Nat := 0x20
/-- Modelled from the spec: packet type byte of PUBLISH (section 4.3). -/
def MQTT_PACKET_TYPE_PUBLISH : Nat := 0x30
/-- Modelled from the spec: packet type byte of PUBACK (section 4.5). -/
def MQTT_PACKET_TYPE_PUBACK : Nat := 0x40
/-- Modelled from the spec: packet type byte of PUBREC (section 4.5). -/
def MQTT_PACKET_TYPE_PUBREC : Nat := 0x50
/-- Modelled from the spec: packet type byte of PUBREL (section 4.3: 0x62). -/
def MQTT_PACKET_TYPE_PUBREL : Nat := 0x62
/-- Modelled from the spec: packet type byte of PUBCOMP (section 4.5). -/
def MQTT_PACKET_TYPE_PUBCOMP : Nat := 0x70
/-- Modelled from the spec: packet type byte of SUBSCRIBE (section 4.3). -/
def MQTT_PACKET_TYPE_SUBSCRIBE : Nat := 0x82
/-- Modelled from the spec: packet type byte of SUBACK (section 4.5). -/
def MQTT_PACKET_TYPE_SUBACK : Nat := 0x90
/-- Modelled from the spec: packet type byte of UNSUBSCRIBE (section 4.3). -/
def MQTT_PACKET_TYPE_UNSUBSCRIBE : Nat := 0xA2
/-- Modelled from the spec: packet type byte of UNSUBACK (section 4.5). -/
def MQTT_PACKET_TYPE_UNSUBACK : Nat := 0xB0
/-- Modelled from the spec: packet type byte of PINGREQ (section 4.3). -/
def MQTT_PACKET_TYPE_PINGREQ : Nat := 0xC0
/-- Modelled from the spec: packet type byte of PINGRESP (section 4.5). -/
def MQTT_PACKET_TYPE_PINGRESP : Nat := 0xD0
/-- Modelled from the spec: packet type byte of DISCONNECT (section 4.3). -/
def MQTT_PACKET_TYPE_DISCONNECT : Nat := 0xE0

/-- Modelled from the spec: `MQTT_PACKET_PINGREQ_SIZE` of the header, the
size of a PINGREQ packet (spec section 4.2: DISCONNECT / PINGREQ, constant 2
bytes). -/
def MQTT_PACKET_PINGREQ_SIZE : Nat := 2

/-- Modelled from the spec: the transport receive callback
`MQTTTransportRecvFunc_t` of the header (spec section 4.5:
`read(ctx, dst, n) → int32`).  The state of the network context is `σ`.  The
arguments are the context, the byte the destination holds before the call and
the number of bytes requested; the results are the return value, the byte the
destination holds after the call and the new context. -/
abbrev MQTTTransportRecvFunc (σ : Type) := σ → Nat → Nat → Int × Nat × σ

/-! ## Constants and macros of `mqtt_lightweight.c` -/

/-- Number of values of `size_t` (a 64-bit `size_t`). -/
def SIZE_MOD : Nat := 18446744073709551616

/-- Addition of two `size_t` values. -/
def addSize (a b : Nat) : Nat := (a + b) % SIZE_MOD

/-- Subtraction of two `size_t` values (wraps below zero). -/
def subSize (a b : Nat) : Nat := (a + SIZE_MOD - b % SIZE_MOD) % SIZE_MOD

/-- Product of two `size_t` values. -/
def mulSize (a b : Nat) : Nat := (a * b) % SIZE_MOD

def MQTT_VERSION_3_1_1 : Nat := 4
def MQTT_PACKET_CONNECT_HEADER_SIZE : Nat := 10
def MQTT_PACKET_CONNECT_MAX_SIZE : Nat := 327700
def MQTT_CONNECT_FLAG_CLEAN : Nat := 1
def MQTT_CONNECT_FLAG_WILL : Nat := 2
def MQTT_CONNECT_FLAG_WILL_QOS1 : Nat := 3
def MQTT_CONNECT_FLAG_WILL_QOS2 : Nat := 4
def MQTT_CONNECT_FLAG_WILL_RETAIN : Nat := 5
def MQTT_CONNECT_FLAG_PASSWORD : Nat := 6
def MQTT_CONNECT_FLAG_USERNAME : Nat := 7
def MQTT_PUBLISH_FLAG_RETAIN : Nat := 0
def MQTT_PUBLISH_FLAG_QOS1 : Nat := 1
def MQTT_PUBLISH_FLAG_QOS2 : Nat := 2
def MQTT_PUBLISH_FLAG_DUP : Nat := 3
def MQTT_PACKET_CONNACK_REMAINING_LENGTH : Nat := 2
def MQTT_PACKET_CONNACK_SESSION_PRESENT_MASK : Nat := 0x01
def MQTT_PACKET_SIMPLE_ACK_REMAINING_LENGTH : Nat := 2
def MQTT_PACKET_PINGRESP_REMAINING_LENGTH : Nat := 0
def MQTT_MAX_REMAINING_LENGTH : Nat := 268435455
def MQTT_REMAINING_LENGTH_INVALID : Nat := 268435456
def MQTT_MIN_PUBLISH_REMAINING_LENGTH_QOS0 : Nat := 3
def MQTT_PUBLISH_ACK_PACKET_SIZE : Nat := 4
def MQTT_DISCONNECT_PACKET_SIZE : Nat := 2
def MQTT_DISCONNECT_REMAINING_LENGTH : Nat := 0

/-- The enumeration `MQTTSubscriptionType_t` of the source. -/
inductive MQTTSubscriptionType where
  | MQTT_SUBSCRIBE
  | MQTT_UNSUBSCRIBE
  deriving DecidableEq, Repr

/-- Macro `UINT8_SET_BIT( x, position )`: the new value of `x`. -/
def UINT8_SET_BIT (x position : Nat) : Nat := (x ||| (0x01 <<< position)) % 256

/-- Macro `UINT8_CHECK_BIT( x, position )`. -/
def UINT8_CHECK_BIT (x position : Nat) : Bool :=
  decide ((x &&& (0x01 <<< position)) = (0x01 <<< position))

/-- Macro `UINT16_HIGH_BYTE( x )`. -/
def UINT16_HIGH_BYTE (x : Nat) : Nat := (x >>> 8) % 256

/-- Macro `UINT16_LOW_BYTE( x )`. -/
def UINT16_LOW_BYTE (x : Nat) : Nat := (x &&& 0x00ff) % 256

/-- Macro `UINT16_DECODE( ptr )` on the two bytes `*ptr` and `*(ptr + 1)`. -/
def UINT16_DECODE (hi lo : Nat) : Nat := (((hi % 65536) <<< 8) ||| (lo % 65536)) % 65536

/-- The bytes `memcpy` reads: the first `n` bytes behind `source`. -/
def memcpyBytes (source : Option (List Nat)) (n : Nat) : List Nat :=
  (source.getD []).take n

/-- The byte `p[ i ]`, `none` when it lies outside what `p` points to. -/
def readByte (p : Option (List Nat)) (i : Nat) : Option Nat :=
  match p with
  | none => none
  | some bytes => bytes.get? i

/-! ## Primitive codec helpers -/

def remainingLengthEncodedSize (length : Nat) : Nat :=
  if length < 128 then 1
  else if length < 16384 then 2
  else if length < 2097152 then 3
  else 4

/-- The `do ... while` loop of the source: `pDestination` holds the bytes
stored so far, the result holds the bytes stored when the loop ends (the
returned pointer `pLengthEnd` is its end). -/
def encodeRemainingLength (pDestination : List Nat) (length : Nat) : List Nat :=
  let lengthByte := (length % 128) % 256
  let remainingLength := length / 128
  if remainingLength > 0 then
    encodeRemainingLength (pDestination ++ [UINT8_SET_BIT lengthByte 7]) remainingLength
  else
    pDestination ++ [lengthByte]
termination_by length
decreasing_by
  rename_i h
  simp only [remainingLength] at h ⊢
  omega

/-- The parameter `sourceLength` is a `uint16_t`. -/
def encodeString (pDestination : List Nat) (source : Option (List Nat))
    (sourceLength : Nat) : List Nat :=
  pDestination ++ [UINT16_HIGH_BYTE sourceLength] ++ [UINT16_LOW_BYTE sourceLength]
    ++ memcpyBytes source sourceLength

/-! ## Sizing and serialization of PUBLISH -/

/-- Bytes stored by a serializer together with the outcome of the assertions
on the path taken. -/
structure Stored where
  bytes : List Nat
  assertsHold : Bool
  deriving DecidableEq, Repr

/-- Result of a public serializer: the status, the bytes stored from offset 0
of `pBuffer->pBuffer` (none when the status is not `MQTTSuccess`) and the
outcome of the assertions. -/
structure SerializeOutcome where
  status : MQTTStatus
  written : List Nat
  assertsHold : Bool
  deriving DecidableEq, Repr

/-- Contents of the buffer region after `written` was stored from offset 0. -/
def bufferAfter (pBuffer : MQTTFixedBuffer) (written : List Nat) : List Nat :=
  written ++ pBuffer.pBuffer.drop written.length

/-- Returns the status and the values of `*pRemainingLength` and
`*pPacketSize` after the call. -/
def calculatePublishPacketSize (pPublishInfo : MQTTPublishInfo)
    (pRemainingLength pPacketSize : Nat) : Bool × Nat × Nat :=
  let packetSize := 0
  let packetSize := addSize packetSize (addSize pPublishInfo.topicNameLength 2)
  let packetSize :=
    if pPublishInfo.qos.toNat > MQTTQoS.MQTTQoS0.toNat then addSize packetSize 2
    else packetSize
  let payloadLimit := subSize (subSize MQTT_MAX_REMAINING_LENGTH packetSize) 1
  if pPublishInfo.payloadLength > payloadLimit then
    (false, pRemainingLength, pPacketSize)
  else
    let packetSize := addSize packetSize pPublishInfo.payloadLength
    let payloadLimit := subSize payloadLimit (remainingLengthEncodedSize packetSize)
    if pPublishInfo.payloadLength > payloadLimit then
      (false, pRemainingLength, pPacketSize)
    else
      let remainingLength := packetSize
      let packetSize := addSize packetSize (addSize 1 (remainingLengthEncodedSize packetSize))
      (true, remainingLength, packetSize)

def serializePublishCommon (pPublishInfo : MQTTPublishInfo) (remainingLength : Nat)
    (packetIdentifier : Nat) (pFixedBuffer : MQTTFixedBuffer) (serializePayload : Bool) :
    Stored :=
  let publishFlags := MQTT_PACKET_TYPE_PUBLISH
  let assertPacketId :=
    decide (pPublishInfo.qos = MQTTQoS.MQTTQoS0 ∨ packetIdentifier ≠ 0)
  let assertDup :=
    decide (pPublishInfo.dup = false ∨ pPublishInfo.qos.toNat > MQTTQoS.MQTTQoS0.toNat)
  let pIndex : List Nat := []
  let publishFlags :=
    if pPublishInfo.qos = MQTTQoS.MQTTQoS1 then
      UINT8_SET_BIT publishFlags MQTT_PUBLISH_FLAG_QOS1
    else if pPublishInfo.qos = MQTTQoS.MQTTQoS2 then
      UINT8_SET_BIT publishFlags MQTT_PUBLISH_FLAG_QOS2
    else publishFlags
  let publishFlags :=
    if pPublishInfo.retain then UINT8_SET_BIT publishFlags MQTT_PUBLISH_FLAG_RETAIN
    else publishFlags
  let publishFlags :=
    if pPublishInfo.dup then UINT8_SET_BIT publishFlags MQTT_PUBLISH_FLAG_DUP
    else publishFlags
  let pIndex := pIndex ++ [publishFlags]
  let pIndex := encodeRemainingLength pIndex remainingLength
  let pIndex := encodeString pIndex pPublishInfo.pTopicName pPublishInfo.topicNameLength
  let pIndex :=
    if pPublishInfo.qos.toNat > MQTTQoS.MQTTQoS0.toNat then
      pIndex ++ [UINT16_HIGH_BYTE packetIdentifier] ++ [UINT16_LOW_BYTE packetIdentifier]
    else pIndex
  let pIndex :=
    if pPublishInfo.payloadLength > 0 ∧ serializePayload = true then
      pIndex ++ memcpyBytes pPublishInfo.pPayload pPublishInfo.payloadLength
    else pIndex
  let assertEnd := decide (pIndex.length ≤ pFixedBuffer.size)
  { bytes := pIndex, assertsHold := assertPacketId && assertDup && assertEnd }

/-- Returns the status and the values of `*pRemainingLength` and
`*pPacketSize` after the call (`none` for a `NULL` pointer). -/
def MQTT_GetPublishPacketSize (pPublishInfo : Option MQTTPublishInfo)
    (pRemainingLength pPacketSize : Option Nat) : MQTTStatus × Option Nat × Option Nat :=
  match pPublishInfo, pRemainingLength, pPacketSize with
  | some info, some remainingLength, some packetSize =>
    if info.pTopicName = none ∨ info.topicNameLength = 0 then
      (MQTTStatus.MQTTBadParameter, some remainingLength, some packetSize)
    else
      let r := calculatePublishPacketSize info remainingLength packetSize
      if r.1 = false then
        (MQTTStatus.MQTTBadParameter, some r.2.1, some r.2.2)
      else
        (MQTTStatus.MQTTSuccess, some r.2.1, some r.2.2)
  | _, _, _ => (MQTTStatus.MQTTBadParameter, pRemainingLength, pPacketSize)

def MQTT_SerializePublish (pPublishInfo : Option MQTTPublishInfo) (packetId : Nat)
    (remainingLength : Nat) (pBuffer : Option MQTTFixedBuffer) : SerializeOutcome :=
  let packetSize :=
    addSize (addSize 1 (remainingLengthEncodedSize remainingLength)) remainingLength
  match pBuffer, pPublishInfo with
  | some buffer, some info =>
    if info.pTopicName = none ∨ info.topicNameLength = 0 then
      { status := MQTTStatus.MQTTBadParameter, written := [], assertsHold := true }
    else if info.qos ≠ MQTTQoS.MQTTQoS0 ∧ packetId = 0 then
      { status := MQTTStatus.MQTTBadParameter, written := [], assertsHold := true }
    else if packetSize > buffer.size then
      { status := MQTTStatus.MQTTNoMemory, written := [], assertsHold := true }
    else
      let s := serializePublishCommon info remainingLength packetId buffer true
      { status := MQTTStatus.MQTTSuccess, written := s.bytes, assertsHold := s.assertsHold }
  | _, _ => { status := MQTTStatus.MQTTBadParameter, written := [], assertsHold := true }

/-! ## Stream framer -/

/-- The network: the context of the transport and, for the record, the
number of bytes requested by each call of the receive function so far. -/
structure Network (σ : Type) where
  context : σ
  requests : List Nat

/-- One call `recvFunc( networkContext, &dest, bytesToRecv )` where `dest` is a
`uint8_t`: the return value, the new value of `dest` and the network after
the call. -/
def recvCall {σ : Type} (recvFunc : MQTTTransportRecvFunc σ) (net : Network σ)
    (dest bytesToRecv : Nat) : Int × Nat × Network σ :=
  let r := recvFunc net.context dest bytesToRecv
  (r.1, r.2.1 % 256, { context := r.2.2, requests := net.requests ++ [bytesToRecv] })

/-- The `do ... while` loop of `getRemainingLength`, entered with the current
values of the locals; `multiplier` is never 0 (it starts at 1 and is only
multiplied by 128).  Returns `remainingLength` and `bytesDecoded` at the exit
of the loop, and the network. -/
def getRemainingLengthLoop {σ : Type} (recvFunc : MQTTTransportRecvFunc σ)
    (remainingLength multiplier bytesDecoded encodedByte : Nat) (hm : 0 < multiplier)
    (net : Network σ) : Nat × Nat × Network σ :=
  if hmul : multiplier > 2097152 then
    (MQTT_REMAINING_LENGTH_INVALID, bytesDecoded, net)
  else
    let r := recvCall recvFunc net encodedByte 1
    let bytesReceived := r.1
    let encodedByte := r.2.1
    if bytesReceived = 1 then
      let remainingLength :=
        addSize remainingLength (mulSize (encodedByte &&& 0x7F) multiplier)
      let multiplier' := mulSize multiplier 128
      let bytesDecoded := addSize bytesDecoded 1
      if remainingLength = MQTT_REMAINING_LENGTH_INVALID then
        (remainingLength, bytesDecoded, r.2.2)
      else if (encodedByte &&& 0x80) ≠ 0 then
        getRemainingLengthLoop recvFunc remainingLength multiplier' bytesDecoded encodedByte
          (by simp only [multiplier', mulSize, SIZE_MOD]; omega) r.2.2
      else
        (remainingLength, bytesDecoded, r.2.2)
    else
      (MQTT_REMAINING_LENGTH_INVALID, bytesDecoded, r.2.2)
termination_by 2097153 - multiplier
decreasing_by
  simp only [mulSize, SIZE_MOD]
  omega

/-- Returns the remaining length (or `MQTT_REMAINING_LENGTH_INVALID`) and the
network after the reads. -/
def getRemainingLength {σ : Type} (recvFunc : MQTTTransportRecvFunc σ)
    (net : Network σ) : Nat × Network σ :=
  let r := getRemainingLengthLoop recvFunc 0 1 0 0 (by decide) net
  let remainingLength := r.1
  let bytesDecoded := r.2.1
  if remainingLength ≠ MQTT_REMAINING_LENGTH_INVALID then
    let expectedSize := remainingLengthEncodedSize remainingLength
    if bytesDecoded ≠ expectedSize then
      (MQTT_REMAINING_LENGTH_INVALID, r.2.2)
    else
      (remainingLength, r.2.2)
  else
    (remainingLength, r.2.2)

def incomingPacketValid (packetType : Nat) : Bool :=
  let selector := packetType &&& 0xF0
  if selector = MQTT_PACKET_TYPE_CONNACK ∨ selector = MQTT_PACKET_TYPE_PUBLISH ∨
      selector = MQTT_PACKET_TYPE_PUBACK ∨ selector = MQTT_PACKET_TYPE_PUBREC ∨
      selector = MQTT_PACKET_TYPE_PUBCOMP ∨ selector = MQTT_PACKET_TYPE_SUBACK ∨
      selector = MQTT_PACKET_TYPE_UNSUBACK ∨ selector = MQTT_PACKET_TYPE_PINGRESP then
    true
  else if selector = (MQTT_PACKET_TYPE_PUBREL &&& 0xF0) then
    if (packetType &&& 0x02) > 0 then true else false
  else
    false

/-- Returns the status, the record `*pIncomingPacket` after the call and the
network after the reads. -/
def MQTT_GetIncomingPacketTypeAndLength {σ : Type} (readFunc : MQTTTransportRecvFunc σ)
    (net : Network σ) (pIncomingPacket : MQTTPacketInfo) :
    MQTTStatus × MQTTPacketInfo × Network σ :=
  let r := recvCall readFunc net pIncomingPacket.type 1
  let bytesReceived := r.1
  let packet := { pIncomingPacket with type := r.2.1 }
  if bytesReceived = 1 then
    if incomingPacketValid packet.type = true then
      let g := getRemainingLength readFunc r.2.2
      let packet := { packet with remainingLength := g.1 }
      if packet.remainingLength = MQTT_REMAINING_LENGTH_INVALID then
        (MQTTStatus.MQTTBadResponse, packet, g.2)
      else
        (MQTTStatus.MQTTSuccess, packet, g.2)
    else
      (MQTTStatus.MQTTBadResponse, packet, r.2.2)
  else
    (MQTTStatus.MQTTNoDataAvailable, packet, r.2.2)

/-- A transport that delivers a fixed script, one entry per call: the entry
gives the return value of the call and the byte it leaves in the destination.
When the script is exhausted the call returns 0 and leaves the destination
as it was. -/
def scriptedRecv : MQTTTransportRecvFunc (List (Int × Nat)) :=
  fun context dest _ =>
    match context with
    | [] => (0, dest, [])
    | entry :: rest => (entry.1, entry.2, rest)

/-- The script of a transport that delivers the given bytes one per call. -/
def deliver (bytes : List Nat) : List (Int × Nat) := bytes.map (fun b => ((1 : Int), b))

/-! ## Deserializers -/

def checkPublishRemainingLength (remainingLength : Nat) (qos : MQTTQoS)
    (qos0Minimum : Nat) : MQTTStatus :=
  if qos = MQTTQoS.MQTTQoS0 then
    if remainingLength < qos0Minimum then MQTTStatus.MQTTBadResponse
    else MQTTStatus.MQTTSuccess
  else
    if remainingLength < addSize qos0Minimum 2 then MQTTStatus.MQTTBadResponse
    else MQTTStatus.MQTTSuccess

/-- Returns the status and the record `*pPublishInfo` after the call.  The
DUP bit is only logged by the source. -/
def processPublishFlags (publishFlags : Nat) (pPublishInfo : MQTTPublishInfo) :
    MQTTStatus × MQTTPublishInfo :=
  let r : MQTTStatus × MQTTPublishInfo :=
    if UINT8_CHECK_BIT publishFlags MQTT_PUBLISH_FLAG_QOS2 then
      if UINT8_CHECK_BIT publishFlags MQTT_PUBLISH_FLAG_QOS1 then
        (MQTTStatus.MQTTBadResponse, pPublishInfo)
      else
        (MQTTStatus.MQTTSuccess, { pPublishInfo with qos := MQTTQoS.MQTTQoS2 })
    else if UINT8_CHECK_BIT publishFlags MQTT_PUBLISH_FLAG_QOS1 then
      (MQTTStatus.MQTTSuccess, { pPublishInfo with qos := MQTTQoS.MQTTQoS1 })
    else
      (MQTTStatus.MQTTSuccess, { pPublishInfo with qos := MQTTQoS.MQTTQoS0 })
  if r.1 = MQTTStatus.MQTTSuccess then
    (r.1, { r.2 with retain := UINT8_CHECK_BIT publishFlags MQTT_PUBLISH_FLAG_RETAIN })
  else
    r

/-- Returns the status and the value of `*pSessionPresent` after the call.
The assertion of `logConnackResponse` (response code at most 5) holds by the
test that guards the call. -/
def deserializeConnack (pConnack : MQTTPacketInfo) (pSessionPresent : Bool) :
    Option (MQTTStatus × Bool) :=
  let pRemainingData := pConnack.pRemainingData
  let first : Option (MQTTStatus × Bool) :=
    if pConnack.remainingLength ≠ MQTT_PACKET_CONNACK_REMAINING_LENGTH then
      some (MQTTStatus.MQTTBadResponse, pSessionPresent)
    else
      match readByte pRemainingData 0 with
      | none => none
      | some byte0 =>
        if (byte0 ||| 0x01) ≠ 0x01 then
          some (MQTTStatus.MQTTBadResponse, pSessionPresent)
        else if (byte0 &&& MQTT_PACKET_CONNACK_SESSION_PRESENT_MASK)
            = MQTT_PACKET_CONNACK_SESSION_PRESENT_MASK then
          match readByte pRemainingData 1 with
          | none => none
          | some byte1 =>
            if byte1 ≠ 0 then some (MQTTStatus.MQTTBadResponse, true)
            else some (MQTTStatus.MQTTSuccess, true)
        else
          some (MQTTStatus.MQTTSuccess, pSessionPresent)
  match first with
  | none => none
  | some (status, sessionPresent) =>
    if status = MQTTStatus.MQTTSuccess then
      match readByte pRemainingData 1 with
      | none => none
      | some byte1 =>
        if byte1 > 5 then some (MQTTStatus.MQTTBadResponse, sessionPresent)
        else if byte1 > 0 then some (MQTTStatus.MQTTServerRefused, sessionPresent)
        else some (MQTTStatus.MQTTSuccess, sessionPresent)
    else
      some (status, sessionPresent)

/-- The `for` loop of `readSubackStatus`, entered with the current values of
`i` and `status`. -/
def readSubackStatusLoop (statusCount : Nat) (pStatusStart : Option (List Nat))
    (i : Nat) (status : MQTTStatus) : Option MQTTStatus :=
  if i < statusCount then
    match readByte pStatusStart i with
    | none => none
    | some subscriptionStatus =>
      let status :=
        if subscriptionStatus = 0x00 ∨ subscriptionStatus = 0x01 ∨ subscriptionStatus = 0x02
        then status
        else if subscriptionStatus = 0x80 then MQTTStatus.MQTTServerRefused
        else MQTTStatus.MQTTBadResponse
      if status = MQTTStatus.MQTTBadResponse then some status
      else readSubackStatusLoop statusCount pStatusStart (i + 1) status
  else
    some status
termination_by statusCount - i

def readSubackStatus (statusCount : Nat) (pStatusStart : Option (List Nat)) :
    Option MQTTStatus :=
  readSubackStatusLoop statusCount pStatusStart 0 MQTTStatus.MQTTSuccess

/-- Returns the status and the value of `*pPacketIdentifier` after the call. -/
def deserializeSuback (pSuback : MQTTPacketInfo) (pPacketIdentifier : Nat) :
    Option (MQTTStatus × Nat) :=
  let remainingLength := pSuback.remainingLength
  let pVariableHeader := pSuback.pRemainingData
  if remainingLength < 3 then
    some (MQTTStatus.MQTTBadResponse, pPacketIdentifier)
  else
    match readByte pVariableHeader 0, readByte pVariableHeader 1 with
    | some high, some low =>
      match readSubackStatus (subSize remainingLength 2)
          (pVariableHeader.map (fun p => p.drop 2)) with
      | none => none
      | some status => some (status, UINT16_DECODE high low)
    | _, _ => none

/-- Returns the status, the value of `*pPacketId` and the record
`*pPublishInfo` after the call. -/
def deserializePublish (pIncomingPacket : MQTTPacketInfo) (pPacketId : Nat)
    (pPublishInfo : MQTTPublishInfo) : Option (MQTTStatus × Nat × MQTTPublishInfo) :=
  let pVariableHeader := pIncomingPacket.pRemainingData
  let flags := processPublishFlags (pIncomingPacket.type &&& 0x0F) pPublishInfo
  let info := flags.2
  if flags.1 ≠ MQTTStatus.MQTTSuccess then some (flags.1, pPacketId, info)
  else
    let status := checkPublishRemainingLength pIncomingPacket.remainingLength info.qos
      MQTT_MIN_PUBLISH_REMAINING_LENGTH_QOS0
    if status ≠ MQTTStatus.MQTTSuccess then some (status, pPacketId, info)
    else
      match readByte pVariableHeader 0, readByte pVariableHeader 1 with
      | some high, some low =>
        let info := { info with topicNameLength := UINT16_DECODE high low }
        let status := checkPublishRemainingLength pIncomingPacket.remainingLength info.qos
          (addSize info.topicNameLength 2)
        if status ≠ MQTTStatus.MQTTSuccess then some (status, pPacketId, info)
        else
          let info := { info with pTopicName := pVariableHeader.map (fun p => p.drop 2) }
          let pPacketIdentifierHigh :=
            info.pTopicName.map (fun p => p.drop info.topicNameLength)
          let identifier : Option (MQTTStatus × Nat) :=
            if info.qos.toNat > MQTTQoS.MQTTQoS0.toNat then
              match readByte pPacketIdentifierHigh 0, readByte pPacketIdentifierHigh 1 with
              | some idHigh, some idLow =>
                if UINT16_DECODE idHigh idLow = 0 then
                  some (MQTTStatus.MQTTBadResponse, UINT16_DECODE idHigh idLow)
                else
                  some (MQTTStatus.MQTTSuccess, UINT16_DECODE idHigh idLow)
              | _, _ => none
            else
              some (MQTTStatus.MQTTSuccess, pPacketId)
          match identifier with
          | none => none
          | some (status, packetId) =>
            if status ≠ MQTTStatus.MQTTSuccess then some (status, packetId, info)
            else if info.qos = MQTTQoS.MQTTQoS0 then
              some (MQTTStatus.MQTTSuccess, packetId,
                { info with
                  payloadLength :=
                    subSize (subSize pIncomingPacket.remainingLength info.topicNameLength) 2
                  pPayload := pPacketIdentifierHigh })
            else
              some (MQTTStatus.MQTTSuccess, packetId,
                { info with
                  payloadLength :=
                    subSize (subSize pIncomingPacket.remainingLength info.topicNameLength)
                      (mulSize 2 2)
                  pPayload := pPacketIdentifierHigh.map (fun p => p.drop 2) })
      | _, _ => none

/-- Returns the status and the value of `*pPacketIdentifier` after the call. -/
def deserializeSimpleAck (pAck : MQTTPacketInfo) (pPacketIdentifier : Nat) :
    Option (MQTTStatus × Nat) :=
  if pAck.remainingLength ≠ MQTT_PACKET_SIMPLE_ACK_REMAINING_LENGTH then
    some (MQTTStatus.MQTTBadResponse, pPacketIdentifier)
  else
    match readByte pAck.pRemainingData 0, readByte pAck.pRemainingData 1 with
    | some high, some low =>
      if UINT16_DECODE high low = 0 then
        some (MQTTStatus.MQTTBadResponse, UINT16_DECODE high low)
      else
        some (MQTTStatus.MQTTSuccess, UINT16_DECODE high low)
    | _, _ => none

def deserializePingresp (pPingresp : MQTTPacketInfo) : MQTTStatus :=
  if pPingresp.remainingLength ≠ MQTT_PACKET_PINGRESP_REMAINING_LENGTH then
    MQTTStatus.MQTTBadResponse
  else
    MQTTStatus.MQTTSuccess

/-- Returns the status and the values of `*pPacketId` and `*pPublishInfo`
after the call (`none` inside the result for a `NULL` pointer). -/
def MQTT_DeserializePublish (pIncomingPacket : Option MQTTPacketInfo)
    (pPacketId : Option Nat) (pPublishInfo : Option MQTTPublishInfo) :
    Option (MQTTStatus × Option Nat × Option MQTTPublishInfo) :=
  match pIncomingPacket, pPacketId, pPublishInfo with
  | some packet, some packetId, some info =>
    if (packet.type &&& 0xF0) ≠ MQTT_PACKET_TYPE_PUBLISH then
      some (MQTTStatus.MQTTBadParameter, some packetId, some info)
    else
      match deserializePublish packet packetId info with
      | none => none
      | some r => some (r.1, some r.2.1, some r.2.2)
  | _, _, _ => some (MQTTStatus.MQTTBadParameter, pPacketId, pPublishInfo)

/-- Returns the status and the values of `*pPacketId` and `*pSessionPresent`
after the call (`none` inside the result for a `NULL` pointer). -/
def MQTT_DeserializeAck (pIncomingPacket : Option MQTTPacketInfo)
    (pPacketId : Option Nat) (pSessionPresent : Option Bool) :
    Option (MQTTStatus × Option Nat × Option Bool) :=
  match pIncomingPacket, pPacketId, pSessionPresent with
  | some packet, some packetId, some sessionPresent =>
    if packet.pRemainingData = none then
      some (MQTTStatus.MQTTBadParameter, some packetId, some sessionPresent)
    else if packet.type = MQTT_PACKET_TYPE_CONNACK then
      match deserializeConnack packet sessionPresent with
      | none => none
      | some r => some (r.1, some packetId, some r.2)
    else if packet.type = MQTT_PACKET_TYPE_SUBACK then
      match deserializeSuback packet packetId with
      | none => none
      | some r => some (r.1, some r.2, some sessionPresent)
    else if packet.type = MQTT_PACKET_TYPE_PINGRESP then
      some (deserializePingresp packet, some packetId, some sessionPresent)
    else if packet.type = MQTT_PACKET_TYPE_UNSUBACK ∨ packet.type = MQTT_PACKET_TYPE_PUBACK ∨
        packet.type = MQTT_PACKET_TYPE_PUBREC ∨ packet.type = MQTT_PACKET_TYPE_PUBREL ∨
        packet.type = MQTT_PACKET_TYPE_PUBCOMP then
      match deserializeSimpleAck packet packetId with
      | none => none
      | some r => some (r.1, some r.2, some sessionPresent)
    else
      some (MQTTStatus.MQTTBadResponse, some packetId, some sessionPresent)
  | _, _, _ => some (MQTTStatus.MQTTBadParameter, pPacketId, pSessionPresent)

/-! ## Sizing and serialization of CONNECT -/

def serializeConnectPacket (pConnectInfo : MQTTConnectInfo)
    (pWillInfo : Option MQTTPublishInfo) (remainingLength : Nat)
    (pBuffer : MQTTFixedBuffer) : Stored :=
  let connectFlags := 0
  let pIndex : List Nat := []
  let pIndex := pIndex ++ [MQTT_PACKET_TYPE_CONNECT]
  let pIndex := encodeRemainingLength pIndex remainingLength
  let pIndex := encodeString pIndex (some [77, 81, 84, 84]) 4
  let pIndex := pIndex ++ [MQTT_VERSION_3_1_1]
  let connectFlags :=
    if pConnectInfo.cleanSession = true then UINT8_SET_BIT connectFlags MQTT_CONNECT_FLAG_CLEAN
    else connectFlags
  let connectFlags :=
    if pConnectInfo.pUserName ≠ none then UINT8_SET_BIT connectFlags MQTT_CONNECT_FLAG_USERNAME
    else connectFlags
  let connectFlags :=
    if pConnectInfo.pPassword ≠ none then UINT8_SET_BIT connectFlags MQTT_CONNECT_FLAG_PASSWORD
    else connectFlags
  let connectFlags :=
    match pWillInfo with
    | none => connectFlags
    | some will =>
      let connectFlags := UINT8_SET_BIT connectFlags MQTT_CONNECT_FLAG_WILL
      let connectFlags :=
        if will.qos = MQTTQoS.MQTTQoS1 then
          UINT8_SET_BIT connectFlags MQTT_CONNECT_FLAG_WILL_QOS1
        else if will.qos = MQTTQoS.MQTTQoS2 then
          UINT8_SET_BIT connectFlags MQTT_CONNECT_FLAG_WILL_QOS2
        else connectFlags
      if will.retain = true then UINT8_SET_BIT connectFlags MQTT_CONNECT_FLAG_WILL_RETAIN
      else connectFlags
  let pIndex := pIndex ++ [connectFlags]
  let pIndex := pIndex ++ [UINT16_HIGH_BYTE pConnectInfo.keepAliveSeconds]
    ++ [UINT16_LOW_BYTE pConnectInfo.keepAliveSeconds]
  let pIndex := encodeString pIndex pConnectInfo.pClientIdentifier
    pConnectInfo.clientIdentifierLength
  let pIndex :=
    match pWillInfo with
    | none => pIndex
    | some will =>
      let pIndex := encodeString pIndex will.pTopicName will.topicNameLength
      encodeString pIndex will.pPayload (will.payloadLength % 65536)
  let pIndex :=
    if pConnectInfo.pUserName ≠ none then
      encodeString pIndex pConnectInfo.pUserName pConnectInfo.userNameLength
    else pIndex
  let pIndex :=
    if pConnectInfo.pPassword ≠ none then
      encodeString pIndex pConnectInfo.pPassword pConnectInfo.passwordLength
    else pIndex
  { bytes := pIndex, assertsHold := decide (pIndex.length ≤ pBuffer.size) }

/-- Returns the status and the values of `*pRemainingLength` and
`*pPacketSize` after the call (`none` for a `NULL` pointer). -/
def MQTT_GetConnectPacketSize (pConnectInfo : Option MQTTConnectInfo)
    (pWillInfo : Option MQTTPublishInfo) (pRemainingLength pPacketSize : Option Nat) :
    MQTTStatus × Option Nat × Option Nat :=
  let connectPacketSize := MQTT_PACKET_CONNECT_HEADER_SIZE
  match pConnectInfo, pRemainingLength, pPacketSize with
  | some info, some oldRemainingLength, some oldPacketSize =>
    let connectPacketSize :=
      addSize connectPacketSize (addSize info.clientIdentifierLength 2)
    let connectPacketSize :=
      match pWillInfo with
      | none => connectPacketSize
      | some will =>
        addSize connectPacketSize
          (addSize (addSize (addSize will.topicNameLength 2) will.payloadLength) 2)
    let connectPacketSize :=
      if info.pUserName ≠ none then addSize connectPacketSize (addSize info.userNameLength 2)
      else connectPacketSize
    let connectPacketSize :=
      if info.pPassword ≠ none then addSize connectPacketSize (addSize info.passwordLength 2)
      else connectPacketSize
    let remainingLength := connectPacketSize
    let connectPacketSize :=
      addSize connectPacketSize (addSize 1 (remainingLengthEncodedSize connectPacketSize))
    if connectPacketSize > MQTT_PACKET_CONNECT_MAX_SIZE then
      (MQTTStatus.MQTTBadParameter, some oldRemainingLength, some oldPacketSize)
    else
      (MQTTStatus.MQTTSuccess, some remainingLength, some connectPacketSize)
  | _, _, _ => (MQTTStatus.MQTTBadParameter, pRemainingLength, pPacketSize)

def MQTT_SerializeConnect (pConnectInfo : Option MQTTConnectInfo)
    (pWillInfo : Option MQTTPublishInfo) (remainingLength : Nat)
    (pBuffer : Option MQTTFixedBuffer) : SerializeOutcome :=
  let connectPacketSize :=
    addSize (addSize remainingLength (remainingLengthEncodedSize remainingLength)) 1
  match pConnectInfo, pBuffer with
  | some info, some buffer =>
    if connectPacketSize > buffer.size then
      { status := MQTTStatus.MQTTNoMemory, written := [], assertsHold := true }
    else
      let s := serializeConnectPacket info pWillInfo remainingLength buffer
      { status := MQTTStatus.MQTTSuccess, written := s.bytes, assertsHold := s.assertsHold }
  | _, _ => { status := MQTTStatus.MQTTBadParameter, written := [], assertsHold := true }

/-! ## Header-only PUBLISH and the publish acknowledgements -/

/-- Returns the outcome of the serialization and the value of `*pHeaderSize`
after the call (`none` for a `NULL` pointer). -/
def MQTT_SerializePublishHeader (pPublishInfo : Option MQTTPublishInfo) (packetId : Nat)
    (remainingLength : Nat) (pBuffer : Option MQTTFixedBuffer) (pHeaderSize : Option Nat) :
    SerializeOutcome × Option Nat :=
  let packetSize :=
    addSize (addSize 1 (remainingLengthEncodedSize remainingLength)) remainingLength
  match pBuffer, pPublishInfo, pHeaderSize with
  | some buffer, some info, some headerSize =>
    if info.pTopicName = none ∨ info.topicNameLength = 0 then
      ({ status := MQTTStatus.MQTTBadParameter, written := [], assertsHold := true },
        some headerSize)
    else if info.qos ≠ MQTTQoS.MQTTQoS0 ∧ packetId = 0 then
      ({ status := MQTTStatus.MQTTBadParameter, written := [], assertsHold := true },
        some headerSize)
    else if subSize packetSize info.payloadLength > buffer.size then
      ({ status := MQTTStatus.MQTTNoMemory, written := [], assertsHold := true },
        some headerSize)
    else
      let s := serializePublishCommon info remainingLength packetId buffer false
      ({ status := MQTTStatus.MQTTSuccess, written := s.bytes, assertsHold := s.assertsHold },
        some (subSize packetSize info.payloadLength))
  | _, _, _ =>
    ({ status := MQTTStatus.MQTTBadParameter, written := [], assertsHold := true },
      pHeaderSize)

/-- The parameter `packetType` is a `uint8_t`, `packetId` a `uint16_t`.  The
four stores go to `pBuffer->pBuffer[ 0 ]` .. `pBuffer->pBuffer[ 3 ]`. -/
def MQTT_SerializeAck (pBuffer : Option MQTTFixedBuffer) (packetType packetId : Nat) :
    SerializeOutcome :=
  match pBuffer with
  | none => { status := MQTTStatus.MQTTBadParameter, written := [], assertsHold := true }
  | some buffer =>
    if buffer.size < MQTT_PUBLISH_ACK_PACKET_SIZE then
      { status := MQTTStatus.MQTTNoMemory, written := [], assertsHold := true }
    else if packetType = MQTT_PACKET_TYPE_PUBACK ∨ packetType = MQTT_PACKET_TYPE_PUBREC ∨
        packetType = MQTT_PACKET_TYPE_PUBREL ∨ packetType = MQTT_PACKET_TYPE_PUBCOMP then
      { status := MQTTStatus.MQTTSuccess,
        written := [packetType, MQTT_PACKET_SIMPLE_ACK_REMAINING_LENGTH,
          UINT16_HIGH_BYTE packetId, UINT16_LOW_BYTE packetId],
        assertsHold := true }
    else
      { status := MQTTStatus.MQTTBadParameter, written := [], assertsHold := true }

/-! ## Sizing and serialization of SUBSCRIBE and UNSUBSCRIBE -/

/-- The `for` loop of `calculateSubscriptionPacketSize` with `n` iterations
left, at index `i`: the value of `packetSize` when the loop ends, `none` when
`pSubscriptionList[ i ]` lies outside the list. -/
def calculateSubscriptionPacketSizeLoop (pSubscriptionList : List MQTTSubscribeInfo)
    (subscriptionType : MQTTSubscriptionType) : Nat → Nat → Nat → Option Nat
  | 0, _, packetSize => some packetSize
  | n + 1, i, packetSize =>
    match pSubscriptionList.get? i with
    | none => none
    | some subscription =>
      let packetSize := addSize packetSize (addSize subscription.topicFilterLength 2)
      let packetSize :=
        if subscriptionType = MQTTSubscriptionType.MQTT_SUBSCRIBE then addSize packetSize 1
        else packetSize
      calculateSubscriptionPacketSizeLoop pSubscriptionList subscriptionType n (i + 1)
        packetSize

/-- Returns the status and the values of `*pRemainingLength` and
`*pPacketSize` after the call.  The assertions of the source (non-null
pointers, non-zero count) are the checks both callers make before the call. -/
def calculateSubscriptionPacketSize (pSubscriptionList : List MQTTSubscribeInfo)
    (subscriptionCount : Nat) (pRemainingLength pPacketSize : Nat)
    (subscriptionType : MQTTSubscriptionType) : Option (MQTTStatus × Nat × Nat) :=
  let packetSize := 0
  let packetSize := addSize packetSize 2
  match calculateSubscriptionPacketSizeLoop pSubscriptionList subscriptionType
      subscriptionCount 0 packetSize with
  | none => none
  | some packetSize =>
    if packetSize > MQTT_MAX_REMAINING_LENGTH then
      some (MQTTStatus.MQTTBadParameter, pRemainingLength, pPacketSize)
    else
      let remainingLength := packetSize
      let packetSize := addSize packetSize (addSize 1 (remainingLengthEncodedSize packetSize))
      some (MQTTStatus.MQTTSuccess, remainingLength, packetSize)

def validateSubscriptionSerializeParams (pSubscriptionList : Option (List MQTTSubscribeInfo))
    (subscriptionCount : Nat) (packetId : Nat) (remainingLength : Nat)
    (pBuffer : Option MQTTFixedBuffer) : MQTTStatus :=
  let packetSize :=
    addSize (addSize 1 (remainingLengthEncodedSize remainingLength)) remainingLength
  match pBuffer, pSubscriptionList with
  | some buffer, some _ =>
    if subscriptionCount = 0 then MQTTStatus.MQTTBadParameter
    else if packetId = 0 then MQTTStatus.MQTTBadParameter
    else if packetSize > buffer.size then MQTTStatus.MQTTNoMemory
    else MQTTStatus.MQTTSuccess
  | _, _ => MQTTStatus.MQTTBadParameter

/-- Returns the status and the values of `*pRemainingLength` and
`*pPacketSize` after the call (`none` inside the result for a `NULL`
pointer). -/
def MQTT_GetSubscribePacketSize (pSubscriptionList : Option (List MQTTSubscribeInfo))
    (subscriptionCount : Nat) (pRemainingLength pPacketSize : Option Nat) :
    Option (MQTTStatus × Option Nat × Option Nat) :=
  match pSubscriptionList, pRemainingLength, pPacketSize with
  | some list, some remainingLength, some packetSize =>
    if subscriptionCount = 0 then
      some (MQTTStatus.MQTTBadParameter, some remainingLength, some packetSize)
    else
      match calculateSubscriptionPacketSize list subscriptionCount remainingLength packetSize
          MQTTSubscriptionType.MQTT_SUBSCRIBE with
      | none => none
      | some r => some (r.1, some r.2.1, some r.2.2)
  | _, _, _ => some (MQTTStatus.MQTTBadParameter, pRemainingLength, pPacketSize)

/-- The `for` loop of `MQTT_SerializeSubscribe` with `n` iterations left, at
index `i`; `pIndex` holds the bytes stored so far. -/
def MQTT_SerializeSubscribeLoop (pSubscriptionList : List MQTTSubscribeInfo) :
    Nat → Nat → List Nat → Option (List Nat)
  | 0, _, pIndex => some pIndex
  | n + 1, i, pIndex =>
    match pSubscriptionList.get? i with
    | none => none
    | some subscription =>
      let pIndex :=
        encodeString pIndex subscription.pTopicFilter subscription.topicFilterLength
      let pIndex := pIndex ++ [subscription.qos.toNat % 256]
      MQTT_SerializeSubscribeLoop pSubscriptionList n (i + 1) pIndex

/-- The parameter `packetId` is a `uint16_t`.  `none` when the loop reads
outside the subscription list. -/
def MQTT_SerializeSubscribe (pSubscriptionList : Option (List MQTTSubscribeInfo))
    (subscriptionCount : Nat) (packetId : Nat) (remainingLength : Nat)
    (pBuffer : Option MQTTFixedBuffer) : Option SerializeOutcome :=
  let status := validateSubscriptionSerializeParams pSubscriptionList subscriptionCount
    packetId remainingLength pBuffer
  if status = MQTTStatus.MQTTSuccess then
    let pIndex : List Nat := []
    let pIndex := pIndex ++ [MQTT_PACKET_TYPE_SUBSCRIBE]
    let pIndex := encodeRemainingLength pIndex remainingLength
    let pIndex := pIndex ++ [UINT16_HIGH_BYTE packetId] ++ [UINT16_LOW_BYTE packetId]
    match MQTT_SerializeSubscribeLoop (pSubscriptionList.getD []) subscriptionCount 0
        pIndex with
    | none => none
    | some pIndex => some { status := status, written := pIndex, assertsHold := true }
  else
    some { status := status, written := [], assertsHold := true }

/-- The source passes `MQTT_SUBSCRIBE` to `calculateSubscriptionPacketSize`
here as well. -/
def MQTT_GetUnsubscribePacketSize (pSubscriptionList : Option (List MQTTSubscribeInfo))
    (subscriptionCount : Nat) (pRemainingLength pPacketSize : Option Nat) :
    Option (MQTTStatus × Option Nat × Option Nat) :=
  match pSubscriptionList, pRemainingLength, pPacketSize with
  | some list, some remainingLength, some packetSize =>
    if subscriptionCount = 0 then
      some (MQTTStatus.MQTTBadParameter, some remainingLength, some packetSize)
    else
      match calculateSubscriptionPacketSize list subscriptionCount remainingLength packetSize
          MQTTSubscriptionType.MQTT_SUBSCRIBE with
      | none => none
      | some r => some (r.1, some r.2.1, some r.2.2)
  | _, _, _ => some (MQTTStatus.MQTTBadParameter, pRemainingLength, pPacketSize)

/-- The `for` loop of `MQTT_SerializeUnsubscribe` with `n` iterations left,
at index `i`; `pIndex` holds the bytes stored so far. -/
def MQTT_SerializeUnsubscribeLoop (pSubscriptionList : List MQTTSubscribeInfo) :
    Nat → Nat → List Nat → Option (List Nat)
  | 0, _, pIndex => some pIndex
  | n + 1, i, pIndex =>
    match pSubscriptionList.get? i with
    | none => none
    | some subscription =>
      let pIndex :=
        encodeString pIndex subscription.pTopicFilter subscription.topicFilterLength
      MQTT_SerializeUnsubscribeLoop pSubscriptionList n (i + 1) pIndex

/-- The parameter `packetId` is a `uint16_t`.  `none` when the loop reads
outside the subscription list. -/
def MQTT_SerializeUnsubscribe (pSubscriptionList : Option (List MQTTSubscribeInfo))
    (subscriptionCount : Nat) (packetId : Nat) (remainingLength : Nat)
    (pBuffer : Option MQTTFixedBuffer) : Option SerializeOutcome :=
  let status := validateSubscriptionSerializeParams pSubscriptionList subscriptionCount
    packetId remainingLength pBuffer
  if status = MQTTStatus.MQTTSuccess then
    let pIndex : List Nat := []
    let pIndex := pIndex ++ [MQTT_PACKET_TYPE_UNSUBSCRIBE]
    let pIndex := encodeRemainingLength pIndex remainingLength
    let pIndex := pIndex ++ [UINT16_HIGH_BYTE packetId] ++ [UINT16_LOW_BYTE packetId]
    match MQTT_SerializeUnsubscribeLoop (pSubscriptionList.getD []) subscriptionCount 0
        pIndex with
    | none => none
    | some pIndex => some { status := status, written := pIndex, assertsHold := true }
  else
    some { status := status, written := [], assertsHold := true }

/-! ## DISCONNECT and PINGREQ -/

/-- Returns the status and the value of `*pPacketSize` after the call.  The
source stores through `pPacketSize` without a check: `none` for a `NULL`
pointer. -/
def MQTT_GetDisconnectPacketSize (pPacketSize : Option Nat) : Option (MQTTStatus × Nat) :=
  match pPacketSize with
  | none => none
  | some _ => some (MQTTStatus.MQTTSuccess, MQTT_DISCONNECT_PACKET_SIZE)

/-- The local `disconnectPacketSize` has no initial value in the source; the
call of `MQTT_GetDisconnectPacketSize` overwrites whatever it holds (0
here). -/
def MQTT_SerializeDisconnect (pBuffer : Option MQTTFixedBuffer) : SerializeOutcome :=
  match pBuffer with
  | none => { status := MQTTStatus.MQTTBadParameter, written := [], assertsHold := true }
  | some buffer =>
    match MQTT_GetDisconnectPacketSize (some 0) with
    | none => { status := MQTTStatus.MQTTBadParameter, written := [], assertsHold := true }
    | some (status, disconnectPacketSize) =>
      if status = MQTTStatus.MQTTSuccess then
        if buffer.size < disconnectPacketSize then
          { status := MQTTStatus.MQTTNoMemory, written := [], assertsHold := true }
        else
          { status := MQTTStatus.MQTTSuccess,
            written := [MQTT_PACKET_TYPE_DISCONNECT, MQTT_DISCONNECT_REMAINING_LENGTH],
            assertsHold := true }
      else
        { status := status, written := [], assertsHold := true }

def MQTT_SerializePingreq (pBuffer : Option MQTTFixedBuffer) : SerializeOutcome :=
  match pBuffer with
  | none => { status := MQTTStatus.MQTTBadParameter, written := [], assertsHold := true }
  | some buffer =>
    if buffer.size < MQTT_PACKET_PINGREQ_SIZE then
      { status := MQTTStatus.MQTTNoMemory, written := [], assertsHold := true }
    else
      { status := MQTTStatus.MQTTSuccess, written := [MQTT_PACKET_TYPE_PINGREQ, 0x00],
        assertsHold := true }

/-! ## Bit-level facts -/

theorem setBit7_of_lt : ∀ x, x < 128 → UINT8_SET_BIT x 7 = x + 128 := by
  unfold UINT8_SET_BIT; decide

set_option maxRecDepth 100000 in
theorem and7F_of_lt : ∀ x, x < 256 → x &&& 0x7F = x % 128 := by decide

set_option maxRecDepth 100000 in
theorem and80_ne_zero_iff : ∀ x, x < 256 → ((x &&& 0x80) ≠ 0 ↔ 128 ≤ x) := by decide

theorem encodeRemainingLength_one (pre : List Nat) (R : Nat) (h : R < 128) :
    encodeRemainingLength pre R = pre ++ [R] := by
  rw [encodeRemainingLength]
  have h1 : R / 128 = 0 := by omega
  have h2 : R % 128 % 256 = R := by omega
  simp [h1, h2]

theorem encodeRemainingLength_step (pre : List Nat) (R : Nat) (h : 128 ≤ R) :
    encodeRemainingLength pre R
      = encodeRemainingLength (pre ++ [R % 128 + 128]) (R / 128) := by
  rw [encodeRemainingLength]
  have h1 : R / 128 > 0 := by omega
  have h2 : R % 128 % 256 = R % 128 := by omega
  simp only [h1, h2, if_true]
  rw [setBit7_of_lt _ (by omega)]


theorem loop_overflow {σ : Type} (recvFunc : MQTTTransportRecvFunc σ)
    (rl m bd eb : Nat) (hm : 0 < m) (net : Network σ) (h : 2097152 < m) :
    getRemainingLengthLoop recvFunc rl m bd eb hm net
      = (MQTT_REMAINING_LENGTH_INVALID, bd, net) := by
  rw [getRemainingLengthLoop]
  simp [h]

theorem loop_fail {σ : Type} (recvFunc : MQTTTransportRecvFunc σ)
    (rl m bd eb : Nat) (hm : 0 < m) (net : Network σ) (h : m ≤ 2097152)
    (hr : (recvCall recvFunc net eb 1).1 ≠ 1) :
    getRemainingLengthLoop recvFunc rl m bd eb hm net
      = (MQTT_REMAINING_LENGTH_INVALID, bd, (recvCall recvFunc net eb 1).2.2) := by
  rw [getRemainingLengthLoop]
  simp [Nat.not_lt.mpr h, hr]

theorem loop_last {σ : Type} (recvFunc : MQTTTransportRecvFunc σ)
    (rl m bd eb : Nat) (hm : 0 < m) (net : Network σ) (h : m ≤ 2097152)
    (hr : (recvCall recvFunc net eb 1).1 = 1)
    (hb : ((recvCall recvFunc net eb 1).2.1 &&& 0x80) = 0) :
    getRemainingLengthLoop recvFunc rl m bd eb hm net
      = (addSize rl (mulSize ((recvCall recvFunc net eb 1).2.1 &&& 0x7F) m), addSize bd 1,
          (recvCall recvFunc net eb 1).2.2) := by
  rw [getRemainingLengthLoop]
  simp [Nat.not_lt.mpr h, hr, hb]

theorem loop_more {σ : Type} (recvFunc : MQTTTransportRecvFunc σ)
    (rl m bd eb : Nat) (hm : 0 < m) (net : Network σ) (h : m ≤ 2097152)
    (hr : (recvCall recvFunc net eb 1).1 = 1)
    (hb : ((recvCall recvFunc net eb 1).2.1 &&& 0x80) ≠ 0)
    (hne : addSize rl (mulSize ((recvCall recvFunc net eb 1).2.1 &&& 0x7F) m)
      ≠ MQTT_REMAINING_LENGTH_INVALID)
    (hm' : 0 < mulSize m 128) :
    getRemainingLengthLoop recvFunc rl m bd eb hm net
      = getRemainingLengthLoop recvFunc
          (addSize rl (mulSize ((recvCall recvFunc net eb 1).2.1 &&& 0x7F) m))
          (mulSize m 128) (addSize bd 1) (recvCall recvFunc net eb 1).2.1 hm'
          (recvCall recvFunc net eb 1).2.2 := by
  rw [getRemainingLengthLoop]
  simp [Nat.not_lt.mpr h, hr, hb, hne]


theorem recvCall_scripted (r : Int) (b : Nat) (rest : List (Int × Nat)) (reqs : List Nat)
    (eb n : Nat) :
    recvCall scriptedRecv ⟨(r, b) :: rest, reqs⟩ eb n = (r, b % 256, ⟨rest, reqs ++ [n]⟩) := rfl

theorem loop_more_scripted (rl m bd eb b : Nat) (hm : 0 < m) (rest : List (Int × Nat))
    (reqs : List Nat) (h : m ≤ 2097152) (hb : b < 256) (hc : 128 ≤ b)
    (hrl : rl + (b % 128) * m < 268435456) (hbd : bd < 16) (hm' : 0 < m * 128) :
    getRemainingLengthLoop scriptedRecv rl m bd eb hm ⟨(1, b) :: rest, reqs⟩
      = getRemainingLengthLoop scriptedRecv (rl + (b % 128) * m) (m * 128) (bd + 1) b hm'
          ⟨rest, reqs ++ [1]⟩ := by
  have e1 : b % 256 = b := Nat.mod_eq_of_lt hb
  have e2 : addSize rl (mulSize (b % 128) m) = rl + (b % 128) * m := by
    simp only [addSize, mulSize, SIZE_MOD]
    rw [Nat.mod_eq_of_lt (a := b % 128 * m) (by omega)]
    omega
  have e3 : mulSize m 128 = m * 128 := by simp only [mulSize, SIZE_MOD]; omega
  have e4 : addSize bd 1 = bd + 1 := by simp only [addSize, SIZE_MOD]; omega
  rw [loop_more scriptedRecv rl m bd eb hm _ h (by simp [recvCall_scripted])
    (by simp only [recvCall_scripted, e1]; exact (and80_ne_zero_iff b hb).mpr hc)
    (by
      simp only [recvCall_scripted, e1, and7F_of_lt b hb, e2, MQTT_REMAINING_LENGTH_INVALID]
      omega)
    (by rw [e3]; exact hm')]
  simp only [recvCall_scripted, e1, and7F_of_lt b hb, e2, e3, e4]

theorem loop_last_scripted (rl m bd eb b : Nat) (hm : 0 < m) (rest : List (Int × Nat))
    (reqs : List Nat) (h : m ≤ 2097152) (hb : b < 128)
    (hrl : rl + b * m < 268435456) (hbd : bd < 16) :
    getRemainingLengthLoop scriptedRecv rl m bd eb hm ⟨(1, b) :: rest, reqs⟩
      = (rl + b * m, bd + 1, ⟨rest, reqs ++ [1]⟩) := by
  have e1 : b % 256 = b := Nat.mod_eq_of_lt (by omega)
  have e0 : b % 128 = b := Nat.mod_eq_of_lt hb
  have e2 : addSize rl (mulSize b m) = rl + b * m := by
    simp only [addSize, mulSize, SIZE_MOD]
    rw [Nat.mod_eq_of_lt (a := b * m) (by omega)]
    omega
  have e4 : addSize bd 1 = bd + 1 := by simp only [addSize, SIZE_MOD]; omega
  have hz : b &&& 0x80 = 0 := by
    have := (and80_ne_zero_iff b (by omega)).not
    simp only [not_not] at this
    exact this.mpr (by omega)
  rw [loop_last scriptedRecv rl m bd eb hm _ h (by simp [recvCall_scripted])
    (by simp only [recvCall_scripted, e1]; exact hz)]
  simp only [recvCall_scripted, e1, and7F_of_lt b (by omega), e0, e2, e4]


theorem encodeRemainingLength_closed (R : Nat) (hR : R ≤ 268435455) :
    encodeRemainingLength [] R =
      if R < 128 then [R]
      else if R < 16384 then [R % 128 + 128, R / 128]
      else if R < 2097152 then [R % 128 + 128, R / 128 % 128 + 128, R / 128 / 128]
      else [R % 128 + 128, R / 128 % 128 + 128, R / 128 / 128 % 128 + 128, R / 128 / 128 / 128] := by
  by_cases h1 : R < 128
  · rw [if_pos h1, encodeRemainingLength_one _ _ h1]; rfl
  rw [if_neg h1, encodeRemainingLength_step _ _ (by omega)]
  by_cases h2 : R < 16384
  · rw [if_pos h2, encodeRemainingLength_one _ _ (by omega)]; rfl
  rw [if_neg h2, encodeRemainingLength_step _ _ (by omega)]
  by_cases h3 : R < 2097152
  · rw [if_pos h3, encodeRemainingLength_one _ _ (by omega)]; rfl
  rw [if_neg h3, encodeRemainingLength_step _ _ (by omega),
    encodeRemainingLength_one _ _ (by omega)]
  rfl

/-- C1: for every remaining length R up to 268,435,455 the bytes written by
`encodeRemainingLength`, delivered one per read, are decoded by
`getRemainingLength` to exactly R (with exactly those bytes consumed and
one read per byte), and their number is `remainingLengthEncodedSize R`:
1, 2, 3 or 4 according to the range of R. -/
theorem remainingLength_roundtrip (R : Nat) (hR : R ≤ 268435455)
    (rest : List (Int × Nat)) (requests : List Nat) :
    getRemainingLength scriptedRecv
        ⟨deliver (encodeRemainingLength [] R) ++ rest, requests⟩
      = (R, ⟨rest, requests ++ List.replicate (remainingLengthEncodedSize R) 1⟩)
    ∧ (encodeRemainingLength [] R).length = remainingLengthEncodedSize R
    ∧ (R ≤ 127 → (encodeRemainingLength [] R).length = 1)
    ∧ (128 ≤ R → R ≤ 16383 → (encodeRemainingLength [] R).length = 2)
    ∧ (16384 ≤ R → R ≤ 2097151 → (encodeRemainingLength [] R).length = 3)
    ∧ (2097152 ≤ R → R ≤ 268435455 → (encodeRemainingLength [] R).length = 4) := by
  rw [encodeRemainingLength_closed R hR]
  unfold getRemainingLength
  by_cases h1 : R < 128
  · simp only [if_pos h1, deliver, List.map, List.cons_append, List.nil_append]
    rw [loop_last_scripted 0 1 0 0 R (by decide) _ _ (by decide) h1 (by omega) (by decide)]
    simp [remainingLengthEncodedSize, h1, MQTT_REMAINING_LENGTH_INVALID]
    omega
  by_cases h2 : R < 16384
  · simp only [if_neg h1, if_pos h2, deliver, List.map, List.cons_append, List.nil_append]
    rw [loop_more_scripted 0 1 0 0 _ (by decide) _ _ (by decide) (by omega) (by omega)
      (by omega) (by decide) (by decide)]
    rw [loop_last_scripted _ _ _ _ _ _ _ _ (by decide) (by omega) (by omega) (by decide)]
    have e : 0 + (R % 128 + 128) % 128 * 1 + R / 128 * (1 * 128) = R := by omega
    rw [e]
    simp [remainingLengthEncodedSize, h1, h2, MQTT_REMAINING_LENGTH_INVALID]
    omega
  by_cases h3 : R < 2097152
  · simp only [if_neg h1, if_neg h2, if_pos h3, deliver, List.map, List.cons_append,
      List.nil_append]
    rw [loop_more_scripted 0 1 0 0 _ (by decide) _ _ (by decide) (by omega) (by omega)
      (by omega) (by decide) (by decide)]
    rw [loop_more_scripted _ _ _ _ _ _ _ _ (by decide) (by omega) (by omega)
      (by omega) (by decide) (by decide)]
    rw [loop_last_scripted _ _ _ _ _ _ _ _ (by decide) (by omega) (by omega) (by decide)]
    have e : 0 + (R % 128 + 128) % 128 * 1 + (R / 128 % 128 + 128) % 128 * (1 * 128)
        + R / 128 / 128 * (1 * 128 * 128) = R := by omega
    rw [e]
    simp [remainingLengthEncodedSize, h1, h2, h3, MQTT_REMAINING_LENGTH_INVALID]
    omega
  · simp only [if_neg h1, if_neg h2, if_neg h3, deliver, List.map, List.cons_append,
      List.nil_append]
    rw [loop_more_scripted 0 1 0 0 _ (by decide) _ _ (by decide) (by omega) (by omega)
      (by omega) (by decide) (by decide)]
    rw [loop_more_scripted _ _ _ _ _ _ _ _ (by decide) (by omega) (by omega)
      (by omega) (by decide) (by decide)]
    rw [loop_more_scripted _ _ _ _ _ _ _ _ (by decide) (by omega) (by omega)
      (by omega) (by decide) (by decide)]
    rw [loop_last_scripted _ _ _ _ _ _ _ _ (by decide) (by omega) (by omega) (by decide)]
    have e : 0 + (R % 128 + 128) % 128 * 1 + (R / 128 % 128 + 128) % 128 * (1 * 128)
        + (R / 128 / 128 % 128 + 128) % 128 * (1 * 128 * 128)
        + R / 128 / 128 / 128 * (1 * 128 * 128 * 128) = R := by omega
    rw [e]
    simp [remainingLengthEncodedSize, h1, h2, h3, MQTT_REMAINING_LENGTH_INVALID]
    omega



theorem loop_stop {σ : Type} (recvFunc : MQTTTransportRecvFunc σ)
    (rl m bd eb : Nat) (hm : 0 < m) (net : Network σ) (h : m ≤ 2097152)
    (hr : (recvCall recvFunc net eb 1).1 = 1)
    (hb : addSize rl (mulSize ((recvCall recvFunc net eb 1).2.1 &&& 0x7F) m)
        = MQTT_REMAINING_LENGTH_INVALID
      ∨ ((recvCall recvFunc net eb 1).2.1 &&& 0x80) = 0) :
    getRemainingLengthLoop recvFunc rl m bd eb hm net
      = (addSize rl (mulSize ((recvCall recvFunc net eb 1).2.1 &&& 0x7F) m), addSize bd 1,
          (recvCall recvFunc net eb 1).2.2) := by
  rw [getRemainingLengthLoop]
  rcases hb with hb | hb
  · simp [Nat.not_lt.mpr h, hr, hb]
  · simp [Nat.not_lt.mpr h, hr, hb]

theorem recvCall_requests {σ : Type} (recvFunc : MQTTTransportRecvFunc σ)
    (net : Network σ) (eb n : Nat) :
    (recvCall recvFunc net eb n).2.2.requests = net.requests ++ [n] := rfl

/-- The loop of `getRemainingLength` entered with a multiplier `m` such that
`m * 128 ^ j` exceeds 128 ^ 3 makes at most `j` reads, each of one byte. -/
theorem loop_requests {σ : Type} (recvFunc : MQTTTransportRecvFunc σ) :
    ∀ (j rl m bd eb : Nat) (hm : 0 < m) (net : Network σ), 2097152 < m * 128 ^ j →
      ∃ k, k ≤ j ∧ (getRemainingLengthLoop recvFunc rl m bd eb hm net).2.2.requests
        = net.requests ++ List.replicate k 1 := by
  intro j
  induction j with
  | zero =>
    intro rl m bd eb hm net h
    refine ⟨0, le_refl _, ?_⟩
    rw [loop_overflow recvFunc rl m bd eb hm net (by simpa using h)]
    simp
  | succ j ih =>
    intro rl m bd eb hm net h
    by_cases hov : 2097152 < m
    · refine ⟨0, Nat.zero_le _, ?_⟩
      rw [loop_overflow recvFunc rl m bd eb hm net hov]
      simp
    have hle : m ≤ 2097152 := Nat.not_lt.mp hov
    by_cases hr : (recvCall recvFunc net eb 1).1 = 1
    · by_cases hb : addSize rl (mulSize ((recvCall recvFunc net eb 1).2.1 &&& 0x7F) m)
          = MQTT_REMAINING_LENGTH_INVALID
          ∨ ((recvCall recvFunc net eb 1).2.1 &&& 0x80) = 0
      · refine ⟨1, by omega, ?_⟩
        rw [loop_stop recvFunc rl m bd eb hm net hle hr hb]
        simp [recvCall_requests]
      · have hb1 := not_or.mp hb
        have hm3 : mulSize m 128 = m * 128 := by
          simp only [mulSize, SIZE_MOD]; omega
        have hm' : 0 < mulSize m 128 := by rw [hm3]; omega
        rw [loop_more recvFunc rl m bd eb hm net hle hr hb1.2 hb1.1 hm']
        have h' : 2097152 < mulSize m 128 * 128 ^ j := by
          rw [hm3]
          have : m * 128 ^ (j + 1) = m * 128 * 128 ^ j := by ring
          omega
        obtain ⟨k, hk, hreq⟩ := ih _ (mulSize m 128) (addSize bd 1)
          (recvCall recvFunc net eb 1).2.1 hm' (recvCall recvFunc net eb 1).2.2 h'
        refine ⟨k + 1, by omega, ?_⟩
        rw [hreq, recvCall_requests]
        simp [List.replicate_succ]
    · refine ⟨1, by omega, ?_⟩
      rw [loop_fail recvFunc rl m bd eb hm net hle hr]
      simp [recvCall_requests]

theorem getRemainingLength_requests {σ : Type} (recvFunc : MQTTTransportRecvFunc σ)
    (net : Network σ) :
    ∃ k, k ≤ 4 ∧ (getRemainingLength recvFunc net).2.requests
      = net.requests ++ List.replicate k 1 := by
  obtain ⟨k, hk, hreq⟩ := loop_requests recvFunc 4 0 1 0 0 (by decide) net (by norm_num)
  refine ⟨k, hk, ?_⟩
  unfold getRemainingLength
  simp only
  split
  · split <;> exact hreq
  · exact hreq


set_option maxRecDepth 100000 in
theorem incomingPacketValid_iff : ∀ t, t < 256 →
    (incomingPacketValid t = true ↔
      (t / 16 = 2 ∨ t / 16 = 3 ∨ t / 16 = 4 ∨ t / 16 = 5 ∨ t / 16 = 7 ∨ t / 16 = 9 ∨
        t / 16 = 11 ∨ t / 16 = 13 ∨ (t / 16 = 6 ∧ t.testBit 1 = true))) := by
  decide

/-- C8: when the first read (the type byte) returns anything other than 1,
`MQTT_GetIncomingPacketTypeAndLength` returns `MQTTNoDataAvailable` and that
read, of one byte, is the only one made. -/
theorem framer_type_read_not_one {σ : Type} (readFunc : MQTTTransportRecvFunc σ)
    (net : Network σ) (pIncomingPacket : MQTTPacketInfo)
    (h : (readFunc net.context pIncomingPacket.type 1).1 ≠ 1) :
    (MQTT_GetIncomingPacketTypeAndLength readFunc net pIncomingPacket).1
        = MQTTStatus.MQTTNoDataAvailable
    ∧ (MQTT_GetIncomingPacketTypeAndLength readFunc net pIncomingPacket).2.2.requests
        = net.requests ++ [1]
    ∧ (MQTT_GetIncomingPacketTypeAndLength readFunc net pIncomingPacket).2.2.context
        = (readFunc net.context pIncomingPacket.type 1).2.2 := by
  have h' : (recvCall readFunc net pIncomingPacket.type 1).1 ≠ 1 := h
  unfold MQTT_GetIncomingPacketTypeAndLength
  rw [if_neg h']
  exact ⟨rfl, rfl, rfl⟩

/-- C7: when the first read delivers the type byte, the framer goes on to
decode the Remaining Length exactly when the high nibble of the byte is 2, 3,
4, 5, 7, 9, 0xB or 0xD, or the high nibble is 6 and bit 1 is set; for any other
type byte it returns `MQTTBadResponse` and the type-byte read is the only read
made. -/
theorem framer_type_validation {σ : Type} (readFunc : MQTTTransportRecvFunc σ)
    (net : Network σ) (pIncomingPacket : MQTTPacketInfo)
    (h : (readFunc net.context pIncomingPacket.type 1).1 = 1) :
    let t := (readFunc net.context pIncomingPacket.type 1).2.1 % 256
    let net1 := (recvCall readFunc net pIncomingPacket.type 1).2.2
    let accepted := t / 16 = 2 ∨ t / 16 = 3 ∨ t / 16 = 4 ∨ t / 16 = 5 ∨ t / 16 = 7 ∨
      t / 16 = 9 ∨ t / 16 = 11 ∨ t / 16 = 13 ∨ (t / 16 = 6 ∧ t.testBit 1 = true)
    (incomingPacketValid t = true ↔ accepted)
    ∧ (accepted →
        MQTT_GetIncomingPacketTypeAndLength readFunc net pIncomingPacket
          = (if (getRemainingLength readFunc net1).1 = MQTT_REMAINING_LENGTH_INVALID
              then MQTTStatus.MQTTBadResponse else MQTTStatus.MQTTSuccess,
             { pIncomingPacket with
               type := t, remainingLength := (getRemainingLength readFunc net1).1 },
             (getRemainingLength readFunc net1).2))
    ∧ (¬ accepted →
        (MQTT_GetIncomingPacketTypeAndLength readFunc net pIncomingPacket).1
            = MQTTStatus.MQTTBadResponse
        ∧ (MQTT_GetIncomingPacketTypeAndLength readFunc net pIncomingPacket).2.2.requests
            = net.requests ++ [1]
        ∧ (MQTT_GetIncomingPacketTypeAndLength readFunc net pIncomingPacket).2.2.context
            = (readFunc net.context pIncomingPacket.type 1).2.2) := by
  intro t net1 accepted
  have hiff : incomingPacketValid t = true ↔ accepted :=
    incomingPacketValid_iff t (Nat.mod_lt _ (by decide))
  have h' : (recvCall readFunc net pIncomingPacket.type 1).1 = 1 := h
  have ht : (recvCall readFunc net pIncomingPacket.type 1).2.1 = t := rfl
  refine ⟨hiff, ?_, ?_⟩
  · intro hacc
    have hv := hiff.mpr hacc
    unfold MQTT_GetIncomingPacketTypeAndLength
    simp only [h', ht, hv, if_true]
    split <;> rfl
  · intro hacc
    have hv : ¬ incomingPacketValid t = true := fun hv => hacc (hiff.mp hv)
    unfold MQTT_GetIncomingPacketTypeAndLength
    simp only [h', ht, hv, if_true, if_false]
    exact ⟨rfl, rfl, rfl⟩


theorem getRemainingLength_one_byte (a : Nat) (ha : a < 128) (rest : List (Int × Nat))
    (reqs : List Nat) :
    getRemainingLength scriptedRecv ⟨(1, a) :: rest, reqs⟩ = (a, ⟨rest, reqs ++ [1]⟩) := by
  unfold getRemainingLength
  rw [loop_last_scripted 0 1 0 0 a (by decide) _ _ (by decide) ha (by omega) (by decide)]
  have e : 0 + a * 1 = a := by omega
  rw [e]
  simp [remainingLengthEncodedSize, ha, MQTT_REMAINING_LENGTH_INVALID]

theorem getRemainingLength_two_bytes (a b : Nat) (ha : 128 ≤ a) (ha' : a < 256) (hb : b < 128)
    (rest : List (Int × Nat)) (reqs : List Nat) :
    getRemainingLength scriptedRecv ⟨(1, a) :: (1, b) :: rest, reqs⟩
      = (if remainingLengthEncodedSize (a % 128 + 128 * b) = 2 then a % 128 + 128 * b
          else MQTT_REMAINING_LENGTH_INVALID, ⟨rest, reqs ++ [1, 1]⟩) := by
  unfold getRemainingLength
  rw [loop_more_scripted 0 1 0 0 _ (by decide) _ _ (by decide) ha' ha
    (by omega) (by decide) (by decide)]
  rw [loop_last_scripted _ _ _ _ _ _ _ _ (by decide) hb (by omega) (by decide)]
  have e : 0 + a % 128 * 1 + b * (1 * 128) = a % 128 + 128 * b := by omega
  rw [e]
  have hne : a % 128 + 128 * b ≠ MQTT_REMAINING_LENGTH_INVALID := by
    simp only [MQTT_REMAINING_LENGTH_INVALID]; omega
  simp only [hne, ne_eq, not_false_eq_true, if_true, List.append_assoc, List.singleton_append]
  by_cases hs : remainingLengthEncodedSize (a % 128 + 128 * b) = 2
  · simp [hs]
  · have hs' : ¬ (2 = remainingLengthEncodedSize (a % 128 + 128 * b)) := fun h => hs h.symm
    simp [hs, hs']

theorem getRemainingLength_three_bytes (a b c : Nat) (ha : 128 ≤ a) (ha' : a < 256)
    (hb : 128 ≤ b) (hb' : b < 256) (hc : c < 128)
    (rest : List (Int × Nat)) (reqs : List Nat) :
    getRemainingLength scriptedRecv ⟨(1, a) :: (1, b) :: (1, c) :: rest, reqs⟩
      = (if remainingLengthEncodedSize (a % 128 + 128 * (b % 128 + 128 * c)) = 3
          then a % 128 + 128 * (b % 128 + 128 * c)
          else MQTT_REMAINING_LENGTH_INVALID, ⟨rest, reqs ++ [1, 1, 1]⟩) := by
  unfold getRemainingLength
  rw [loop_more_scripted 0 1 0 0 _ (by decide) _ _ (by decide) ha' ha
    (by omega) (by decide) (by decide)]
  rw [loop_more_scripted _ _ _ _ _ _ _ _ (by decide) hb' hb
    (by omega) (by decide) (by decide)]
  rw [loop_last_scripted _ _ _ _ _ _ _ _ (by decide) hc (by omega) (by decide)]
  have e : 0 + a % 128 * 1 + b % 128 * (1 * 128) + c * (1 * 128 * 128)
      = a % 128 + 128 * (b % 128 + 128 * c) := by omega
  rw [e]
  have hne : a % 128 + 128 * (b % 128 + 128 * c) ≠ MQTT_REMAINING_LENGTH_INVALID := by
    simp only [MQTT_REMAINING_LENGTH_INVALID]; omega
  simp only [hne, ne_eq, not_false_eq_true, if_true, List.append_assoc, List.singleton_append]
  by_cases hs : remainingLengthEncodedSize (a % 128 + 128 * (b % 128 + 128 * c)) = 3
  · simp [hs]
  · have hs' : ¬ (3 = remainingLengthEncodedSize (a % 128 + 128 * (b % 128 + 128 * c))) :=
      fun h => hs h.symm
    simp [hs, hs']

theorem getRemainingLength_four_bytes (a b c d : Nat) (ha : 128 ≤ a) (ha' : a < 256)
    (hb : 128 ≤ b) (hb' : b < 256) (hc : 128 ≤ c) (hc' : c < 256) (hd : d < 128)
    (rest : List (Int × Nat)) (reqs : List Nat) :
    getRemainingLength scriptedRecv ⟨(1, a) :: (1, b) :: (1, c) :: (1, d) :: rest, reqs⟩
      = (if remainingLengthEncodedSize
              (a % 128 + 128 * (b % 128 + 128 * (c % 128 + 128 * d))) = 4
          then a % 128 + 128 * (b % 128 + 128 * (c % 128 + 128 * d))
          else MQTT_REMAINING_LENGTH_INVALID, ⟨rest, reqs ++ [1, 1, 1, 1]⟩) := by
  unfold getRemainingLength
  rw [loop_more_scripted 0 1 0 0 _ (by decide) _ _ (by decide) ha' ha
    (by omega) (by decide) (by decide)]
  rw [loop_more_scripted _ _ _ _ _ _ _ _ (by decide) hb' hb
    (by omega) (by decide) (by decide)]
  rw [loop_more_scripted _ _ _ _ _ _ _ _ (by decide) hc' hc
    (by omega) (by decide) (by decide)]
  rw [loop_last_scripted _ _ _ _ _ _ _ _ (by decide) hd (by omega) (by decide)]
  have e : 0 + a % 128 * 1 + b % 128 * (1 * 128) + c % 128 * (1 * 128 * 128)
      + d * (1 * 128 * 128 * 128)
      = a % 128 + 128 * (b % 128 + 128 * (c % 128 + 128 * d)) := by omega
  rw [e]
  have hne : a % 128 + 128 * (b % 128 + 128 * (c % 128 + 128 * d))
      ≠ MQTT_REMAINING_LENGTH_INVALID := by
    simp only [MQTT_REMAINING_LENGTH_INVALID]; omega
  simp only [hne, ne_eq, not_false_eq_true, if_true, List.append_assoc, List.singleton_append]
  by_cases hs : remainingLengthEncodedSize
      (a % 128 + 128 * (b % 128 + 128 * (c % 128 + 128 * d))) = 4
  · simp [hs]
  · have hs' : ¬ (4 = remainingLengthEncodedSize
        (a % 128 + 128 * (b % 128 + 128 * (c % 128 + 128 * d)))) := fun h => hs h.symm
    simp [hs, hs']

theorem getRemainingLength_four_continued (a b c d : Nat) (ha : 128 ≤ a) (ha' : a < 256)
    (hb : 128 ≤ b) (hb' : b < 256) (hc : 128 ≤ c) (hc' : c < 256) (hd : 128 ≤ d)
    (hd' : d < 256) (rest : List (Int × Nat)) (reqs : List Nat) :
    getRemainingLength scriptedRecv ⟨(1, a) :: (1, b) :: (1, c) :: (1, d) :: rest, reqs⟩
      = (MQTT_REMAINING_LENGTH_INVALID, ⟨rest, reqs ++ [1, 1, 1, 1]⟩) := by
  unfold getRemainingLength
  rw [loop_more_scripted 0 1 0 0 _ (by decide) _ _ (by decide) ha' ha
    (by omega) (by decide) (by decide)]
  rw [loop_more_scripted _ _ _ _ _ _ _ _ (by decide) hb' hb
    (by omega) (by decide) (by decide)]
  rw [loop_more_scripted _ _ _ _ _ _ _ _ (by decide) hc' hc
    (by omega) (by decide) (by decide)]
  rw [loop_more_scripted _ _ _ _ _ _ _ _ (by decide) hd' hd
    (by omega) (by decide) (by decide)]
  rw [loop_overflow _ _ _ _ _ _ _ (by decide)]
  simp

theorem framer_scripted (t : Nat) (ht : t < 256) (hv : incomingPacketValid t = true)
    (script : List (Int × Nat)) (reqs : List Nat) (pIncomingPacket : MQTTPacketInfo) :
    MQTT_GetIncomingPacketTypeAndLength scriptedRecv ⟨(1, t) :: script, reqs⟩ pIncomingPacket
      = (if (getRemainingLength scriptedRecv ⟨script, reqs ++ [1]⟩).1
              = MQTT_REMAINING_LENGTH_INVALID
          then MQTTStatus.MQTTBadResponse else MQTTStatus.MQTTSuccess,
         { pIncomingPacket with
           type := t
           remainingLength := (getRemainingLength scriptedRecv ⟨script, reqs ++ [1]⟩).1 },
         (getRemainingLength scriptedRecv ⟨script, reqs ++ [1]⟩).2) := by
  unfold MQTT_GetIncomingPacketTypeAndLength
  simp only [recvCall_scripted, Nat.mod_eq_of_lt ht, hv, if_true]
  split <;> rfl


theorem loop_fail_scripted (rl m bd eb x : Nat) (r : Int) (hm : 0 < m)
    (rest : List (Int × Nat)) (reqs : List Nat) (h : m ≤ 2097152) (hr : r ≠ 1) :
    getRemainingLengthLoop scriptedRecv rl m bd eb hm ⟨(r, x) :: rest, reqs⟩
      = (MQTT_REMAINING_LENGTH_INVALID, bd, ⟨rest, reqs ++ [1]⟩) := by
  rw [loop_fail scriptedRecv rl m bd eb hm _ h (by simpa [recvCall_scripted] using hr)]
  simp [recvCall_scripted]

/-- C5: after a valid type byte, whenever the reader delivers a sequence of
Remaining Length bytes (every byte but the last with the continuation bit, the
last without it) whose number differs from the minimal encoding size of the
value the sequence decodes to, `MQTT_GetIncomingPacketTypeAndLength` returns
`MQTTBadResponse`. -/
theorem framer_rejects_non_minimal (t : Nat) (ht : t < 256)
    (hv : incomingPacketValid t = true) (bs : List Nat)
    (hbytes : ∀ b ∈ bs, b < 256) (hcont : ∀ b ∈ bs.dropLast, 128 ≤ b)
    (hlast : ∃ l, bs.getLast? = some l ∧ l < 128)
    (hnm : bs.length
      ≠ remainingLengthEncodedSize (bs.foldr (fun b v => b % 128 + 128 * v) 0))
    (rest : List (Int × Nat)) (reqs : List Nat) (pIncomingPacket : MQTTPacketInfo) :
    (MQTT_GetIncomingPacketTypeAndLength scriptedRecv
        ⟨deliver (t :: bs) ++ rest, reqs⟩ pIncomingPacket).1
      = MQTTStatus.MQTTBadResponse := by
  simp only [deliver, List.map_cons, List.cons_append]
  rw [framer_scripted t ht hv]
  obtain ⟨l, hl, hl128⟩ := hlast
  rcases bs with _ | ⟨a, _ | ⟨b, _ | ⟨c, _ | ⟨d, _ | ⟨e, tl⟩⟩⟩⟩⟩
  · simp at hl
  · simp only [List.getLast?_singleton, Option.some.injEq] at hl
    subst hl
    exfalso
    apply hnm
    simp only [List.foldr_cons, List.foldr_nil, List.length_cons, List.length_nil]
    unfold remainingLengthEncodedSize
    rw [if_pos (by omega)]
  · have hb : b = l := by simpa using hl
    subst hb
    have ha : 128 ≤ a := hcont a (by simp)
    have ha' : a < 256 := hbytes a (by simp)
    have hnm' : ¬ remainingLengthEncodedSize (a % 128 + 128 * b) = 2 := by
      intro h
      apply hnm
      simp only [List.foldr_cons, List.foldr_nil, List.length_cons, List.length_nil]
      rw [show b % 128 + 128 * 0 = b by omega, h]
    simp [getRemainingLength_two_bytes a b ha ha' hl128, hnm']
  · have hc : c = l := by simpa using hl
    subst hc
    have ha : 128 ≤ a := hcont a (by simp)
    have ha' : a < 256 := hbytes a (by simp)
    have hb : 128 ≤ b := hcont b (by simp)
    have hb' : b < 256 := hbytes b (by simp)
    have hnm' : ¬ remainingLengthEncodedSize (a % 128 + 128 * (b % 128 + 128 * c)) = 3 := by
      intro h
      apply hnm
      simp only [List.foldr_cons, List.foldr_nil, List.length_cons, List.length_nil]
      rw [show c % 128 + 128 * 0 = c by omega, h]
    simp [getRemainingLength_three_bytes a b c ha ha' hb hb' hl128, hnm']
  · have hd : d = l := by simpa using hl
    subst hd
    have ha : 128 ≤ a := hcont a (by simp)
    have ha' : a < 256 := hbytes a (by simp)
    have hb : 128 ≤ b := hcont b (by simp)
    have hb' : b < 256 := hbytes b (by simp)
    have hc : 128 ≤ c := hcont c (by simp)
    have hc' : c < 256 := hbytes c (by simp)
    have hnm' : ¬ remainingLengthEncodedSize
        (a % 128 + 128 * (b % 128 + 128 * (c % 128 + 128 * d))) = 4 := by
      intro h
      apply hnm
      simp only [List.foldr_cons, List.foldr_nil, List.length_cons, List.length_nil]
      rw [show d % 128 + 128 * 0 = d by omega, h]
    simp [getRemainingLength_four_bytes a b c d ha ha' hb hb' hc hc' hl128, hnm']
  · have ha : 128 ≤ a := hcont a (by simp [List.dropLast])
    have ha' : a < 256 := hbytes a (by simp)
    have hb : 128 ≤ b := hcont b (by simp [List.dropLast])
    have hb' : b < 256 := hbytes b (by simp)
    have hc : 128 ≤ c := hcont c (by simp [List.dropLast])
    have hc' : c < 256 := hbytes c (by simp)
    have hd : 128 ≤ d := hcont d (by simp [List.dropLast])
    have hd' : d < 256 := hbytes d (by simp)
    simp [getRemainingLength_four_continued a b c d ha ha' hb hb' hc hc' hd hd']


/-- C6: after a valid type byte the length bytes FF FF FF 7F decode to
268,435,455 with `MQTTSuccess`; when the first four length bytes all carry the
continuation bit the result is `MQTTBadResponse` (so for FF FF FF FF 7F); and
for every reader the framer makes at most 5 reads, each requesting 1 byte. -/
theorem framer_four_byte_limit (t : Nat) (ht : t < 256) (hv : incomingPacketValid t = true)
    (a b c d : Nat) (ha : 128 ≤ a ∧ a < 256) (hb : 128 ≤ b ∧ b < 256)
    (hc : 128 ≤ c ∧ c < 256) (hd : 128 ≤ d ∧ d < 256)
    (rest : List (Int × Nat)) (reqs : List Nat) (pIncomingPacket : MQTTPacketInfo)
    {σ : Type} (readFunc : MQTTTransportRecvFunc σ) (net : Network σ) :
    MQTT_GetIncomingPacketTypeAndLength scriptedRecv
        ⟨deliver [t, 0xFF, 0xFF, 0xFF, 0x7F] ++ rest, reqs⟩ pIncomingPacket
      = (MQTTStatus.MQTTSuccess,
          { pIncomingPacket with type := t, remainingLength := 268435455 },
          ⟨rest, reqs ++ [1, 1, 1, 1, 1]⟩)
    ∧ (MQTT_GetIncomingPacketTypeAndLength scriptedRecv
        ⟨deliver [t, a, b, c, d] ++ rest, reqs⟩ pIncomingPacket).1
      = MQTTStatus.MQTTBadResponse
    ∧ (MQTT_GetIncomingPacketTypeAndLength scriptedRecv
        ⟨deliver [t, 0xFF, 0xFF, 0xFF, 0xFF, 0x7F] ++ rest, reqs⟩ pIncomingPacket).1
      = MQTTStatus.MQTTBadResponse
    ∧ ∃ k, k ≤ 5 ∧
        (MQTT_GetIncomingPacketTypeAndLength readFunc net pIncomingPacket).2.2.requests
          = net.requests ++ List.replicate k 1 := by
  refine ⟨?_, ?_, ?_, ?_⟩
  · simp only [deliver, List.map_cons, List.map_nil, List.cons_append, List.nil_append]
    rw [framer_scripted t ht hv]
    rw [getRemainingLength_four_bytes 0xFF 0xFF 0xFF 0x7F (by decide) (by decide) (by decide)
      (by decide) (by decide) (by decide) (by decide)]
    simp [remainingLengthEncodedSize, MQTT_REMAINING_LENGTH_INVALID]
  · simp only [deliver, List.map_cons, List.map_nil, List.cons_append, List.nil_append]
    rw [framer_scripted t ht hv]
    simp [getRemainingLength_four_continued a b c d ha.1 ha.2 hb.1 hb.2 hc.1 hc.2 hd.1 hd.2]
  · simp only [deliver, List.map_cons, List.map_nil, List.cons_append, List.nil_append]
    rw [framer_scripted t ht hv]
    simp [getRemainingLength_four_continued 0xFF 0xFF 0xFF 0xFF (by decide) (by decide)
      (by decide) (by decide) (by decide) (by decide) (by decide) (by decide)]
  · unfold MQTT_GetIncomingPacketTypeAndLength
    simp only
    split
    · split
      · obtain ⟨k, hk, hreq⟩ := getRemainingLength_requests readFunc
          (recvCall readFunc net pIncomingPacket.type 1).2.2
        refine ⟨k + 1, by omega, ?_⟩
        split
        · simp only [hreq, recvCall_requests, List.replicate_succ]
          simp
        · simp only [hreq, recvCall_requests, List.replicate_succ]
          simp
      · exact ⟨1, by decide, by simp [recvCall_requests]⟩
    · exact ⟨1, by decide, by simp [recvCall_requests]⟩

/-- C9 (as stated, refuted): the reader delivers the valid type byte 0x30 and
then returns 0 for the first Remaining Length read; the framer reports
`MQTTBadResponse`, not `MQTTNoDataAvailable`. -/
theorem framer_length_read_failure_counterexample :
    (MQTT_GetIncomingPacketTypeAndLength scriptedRecv ⟨[(1, 0x30), (0, 0)], []⟩
        ⟨0, none, 0⟩).1 = MQTTStatus.MQTTBadResponse
    ∧ (MQTT_GetIncomingPacketTypeAndLength scriptedRecv ⟨[(1, 0x30), (0, 0)], []⟩
        ⟨0, none, 0⟩).1 ≠ MQTTStatus.MQTTNoDataAvailable := by
  have h : (MQTT_GetIncomingPacketTypeAndLength scriptedRecv ⟨[(1, 0x30), (0, 0)], []⟩
      ⟨0, none, 0⟩).1 = MQTTStatus.MQTTBadResponse := by
    rw [framer_scripted 0x30 (by decide) (by decide)]
    unfold getRemainingLength
    rw [loop_fail_scripted 0 1 0 0 0 0 (by decide) _ _ (by decide) (by decide)]
    simp
  exact ⟨h, by rw [h]; decide⟩

/-- C9 (amended): when the read of the type byte returns anything other than
1 the framer reports `MQTTNoDataAvailable`; when the type byte is valid and a
read of a Remaining Length byte (the first, or one that follows up to three
bytes with the continuation bit) returns anything other than 1, the framer
reports `MQTTBadResponse`. -/
theorem framer_read_failure (r : Int) (x : Nat) (hr : r ≠ 1)
    (t : Nat) (ht : t < 256) (hv : incomingPacketValid t = true)
    (bs : List Nat) (hbs : ∀ b ∈ bs, 128 ≤ b ∧ b < 256) (hlen : bs.length ≤ 3)
    (rest : List (Int × Nat)) (reqs : List Nat) (pIncomingPacket : MQTTPacketInfo) :
    (MQTT_GetIncomingPacketTypeAndLength scriptedRecv
        ⟨(r, x) :: rest, reqs⟩ pIncomingPacket).1 = MQTTStatus.MQTTNoDataAvailable
    ∧ (MQTT_GetIncomingPacketTypeAndLength scriptedRecv
        ⟨deliver (t :: bs) ++ (r, x) :: rest, reqs⟩ pIncomingPacket).1
      = MQTTStatus.MQTTBadResponse := by
  constructor
  · exact (framer_type_read_not_one scriptedRecv ⟨(r, x) :: rest, reqs⟩ pIncomingPacket hr).1
  · simp only [deliver, List.map_cons, List.cons_append]
    rw [framer_scripted t ht hv]
    have key : (getRemainingLength scriptedRecv
        ⟨List.map (fun b => ((1 : Int), b)) bs ++ (r, x) :: rest, reqs ++ [1]⟩).1
        = MQTT_REMAINING_LENGTH_INVALID := by
      unfold getRemainingLength
      rcases bs with _ | ⟨a, _ | ⟨b, _ | ⟨c, _ | ⟨d, tl⟩⟩⟩⟩
      · simp only [List.map_nil, List.nil_append]
        rw [loop_fail_scripted 0 1 0 0 x r (by decide) _ _ (by decide) hr]
        simp
      · have ha := hbs a (by simp)
        simp only [List.map_cons, List.map_nil, List.cons_append, List.nil_append]
        rw [loop_more_scripted 0 1 0 0 _ (by decide) _ _ (by decide) ha.2 ha.1
          (by omega) (by decide) (by decide)]
        rw [loop_fail_scripted _ _ _ _ x r _ _ _ (by decide) hr]
        simp
      · have ha := hbs a (by simp)
        have hb := hbs b (by simp)
        simp only [List.map_cons, List.map_nil, List.cons_append, List.nil_append]
        rw [loop_more_scripted 0 1 0 0 _ (by decide) _ _ (by decide) ha.2 ha.1
          (by omega) (by decide) (by decide)]
        rw [loop_more_scripted _ _ _ _ _ _ _ _ (by decide) hb.2 hb.1
          (by omega) (by decide) (by decide)]
        rw [loop_fail_scripted _ _ _ _ x r _ _ _ (by decide) hr]
        simp
      · have ha := hbs a (by simp)
        have hb := hbs b (by simp)
        have hc := hbs c (by simp)
        simp only [List.map_cons, List.map_nil, List.cons_append, List.nil_append]
        rw [loop_more_scripted 0 1 0 0 _ (by decide) _ _ (by decide) ha.2 ha.1
          (by omega) (by decide) (by decide)]
        rw [loop_more_scripted _ _ _ _ _ _ _ _ (by decide) hb.2 hb.1
          (by omega) (by decide) (by decide)]
        rw [loop_more_scripted _ _ _ _ _ _ _ _ (by decide) hc.2 hc.1
          (by omega) (by decide) (by decide)]
        rw [loop_fail_scripted _ _ _ _ x r _ _ _ (by decide) hr]
        simp
      · simp at hlen
    simp [key]


/-! ## Instances of the theorems above at concrete inputs -/

theorem remainingLength_roundtrip_witness :
    (300 : Nat) ≤ 268435455
    ∧ getRemainingLength scriptedRecv ⟨deliver (encodeRemainingLength [] 300) ++ [], []⟩
        = (300, ⟨[], [] ++ List.replicate (remainingLengthEncodedSize 300) 1⟩)
    ∧ (encodeRemainingLength [] 300).length = remainingLengthEncodedSize 300 :=
  ⟨by decide, (remainingLength_roundtrip 300 (by decide) [] []).1,
    (remainingLength_roundtrip 300 (by decide) [] []).2.1⟩

theorem framer_rejects_non_minimal_witness :
    (MQTT_GetIncomingPacketTypeAndLength scriptedRecv
        ⟨deliver (0x30 :: [0x80, 0x00]) ++ [], []⟩ ⟨0, none, 0⟩).1
      = MQTTStatus.MQTTBadResponse :=
  framer_rejects_non_minimal 0x30 (by decide) (by decide) [0x80, 0x00] (by decide)
    (by decide) ⟨0, rfl, by decide⟩ (by decide) [] [] ⟨0, none, 0⟩

theorem framer_four_byte_limit_witness :
    (MQTT_GetIncomingPacketTypeAndLength scriptedRecv
        ⟨deliver [0x30, 0x80, 0x80, 0x80, 0x80] ++ [], []⟩ ⟨0, none, 0⟩).1
      = MQTTStatus.MQTTBadResponse :=
  (framer_four_byte_limit 0x30 (by decide) (by decide) 0x80 0x80 0x80 0x80
    (by decide) (by decide) (by decide) (by decide) [] [] ⟨0, none, 0⟩
    scriptedRecv ⟨[], []⟩).2.1

theorem framer_type_validation_witness :
    (scriptedRecv [(1, 0x10)] 0 1).1 = 1
    ∧ (MQTT_GetIncomingPacketTypeAndLength scriptedRecv ⟨[(1, 0x10)], []⟩ ⟨0, none, 0⟩).1
        = MQTTStatus.MQTTBadResponse
    ∧ (MQTT_GetIncomingPacketTypeAndLength scriptedRecv
        ⟨[(1, 0x10)], []⟩ ⟨0, none, 0⟩).2.2.requests = [] ++ [1] :=
  ⟨rfl,
    ((framer_type_validation scriptedRecv ⟨[(1, 0x10)], []⟩ ⟨0, none, 0⟩ rfl).2.2
      (by decide)).1,
    ((framer_type_validation scriptedRecv ⟨[(1, 0x10)], []⟩ ⟨0, none, 0⟩ rfl).2.2
      (by decide)).2.1⟩

theorem framer_type_read_not_one_witness :
    (scriptedRecv [] 0 1).1 ≠ 1
    ∧ (MQTT_GetIncomingPacketTypeAndLength scriptedRecv ⟨[], []⟩ ⟨0, none, 0⟩).1
        = MQTTStatus.MQTTNoDataAvailable :=
  ⟨by decide, (framer_type_read_not_one scriptedRecv ⟨[], []⟩ ⟨0, none, 0⟩ (by decide)).1⟩

theorem framer_read_failure_witness :
    (MQTT_GetIncomingPacketTypeAndLength scriptedRecv
        ⟨deliver (0x30 :: [0x80]) ++ (0, 0) :: [], []⟩ ⟨0, none, 0⟩).1
      = MQTTStatus.MQTTBadResponse :=
  (framer_read_failure 0 0 (by decide) 0x30 (by decide) (by decide) [0x80] (by decide)
    (by decide) [] [] ⟨0, none, 0⟩).2


set_option maxRecDepth 100000 in
theorem connack_flag_bits : ∀ b, b < 256 →
    ((b ||| 0x01) ≠ 0x01 ↔ (b &&& 0xFE) ≠ 0) ∧
    ((b ||| 0x01) = 0x01 → (b = 0 ∨ b = 1)) := by
  decide

/-- C10: for a CONNACK packet (type 0x20) with non-null remaining data,
`MQTT_DeserializeAck` returns `MQTTBadResponse` if the remaining length is not
2; otherwise `MQTTBadResponse` if one of the high 7 bits of data byte 0 is set;
otherwise `MQTTBadResponse` if data byte 1 exceeds 5; otherwise
`MQTTBadResponse` if bit 0 of byte 0 is set and byte 1 is not 0; otherwise
`MQTTServerRefused` if byte 1 is in 1..5; otherwise `MQTTSuccess`.  The packet
identifier output is left as it was. -/
theorem deserializeAck_connack (data : List Nat) (remainingLength packetId : Nat)
    (sessionPresent : Bool) (hbytes : ∀ b ∈ data, b < 256)
    (hlen : remainingLength = 2 → 2 ≤ data.length) :
    ∃ sessionPresent',
      MQTT_DeserializeAck (some ⟨0x20, some data, remainingLength⟩) (some packetId)
          (some sessionPresent)
        = some
          (if remainingLength ≠ 2 then MQTTStatus.MQTTBadResponse
            else if (data.getD 0 0 &&& 0xFE) ≠ 0 then MQTTStatus.MQTTBadResponse
            else if data.getD 1 0 > 5 then MQTTStatus.MQTTBadResponse
            else if (data.getD 0 0 &&& 0x01) = 0x01 ∧ data.getD 1 0 ≠ 0 then
              MQTTStatus.MQTTBadResponse
            else if 1 ≤ data.getD 1 0 ∧ data.getD 1 0 ≤ 5 then MQTTStatus.MQTTServerRefused
            else MQTTStatus.MQTTSuccess,
           some packetId, some sessionPresent') := by
  by_cases hR : remainingLength = 2
  · subst hR
    obtain ⟨b0, b1, tl, rfl⟩ : ∃ b0 b1 tl, data = b0 :: b1 :: tl := by
      rcases data with _ | ⟨b0, _ | ⟨b1, tl⟩⟩
      · simp at hlen
      · simp at hlen
      · exact ⟨b0, b1, tl, rfl⟩
    have hb0 : b0 < 256 := hbytes b0 (by simp)
    obtain ⟨hres, hval⟩ := connack_flag_bits b0 hb0
    by_cases hflag : (b0 ||| 0x01) ≠ 0x01
    · have h2 := hres.mp hflag
      refine ⟨sessionPresent, ?_⟩
      simp [MQTT_DeserializeAck, MQTT_PACKET_TYPE_CONNACK, deserializeConnack, readByte,
        MQTT_PACKET_CONNACK_REMAINING_LENGTH, hflag, h2]
    · have h1 : (b0 ||| 0x01) = 0x01 := not_not.mp hflag
      rcases hval h1 with rfl | rfl
      · refine ⟨sessionPresent, ?_⟩
        simp only [MQTT_DeserializeAck, MQTT_PACKET_TYPE_CONNACK, deserializeConnack, readByte,
          MQTT_PACKET_CONNACK_REMAINING_LENGTH, MQTT_PACKET_CONNACK_SESSION_PRESENT_MASK]
        by_cases h5 : b1 > 5
        · simp [h5]
        · by_cases h0 : b1 > 0
          · have : 1 ≤ b1 ∧ b1 ≤ 5 := by omega
            simp [h5, h0, this]
          · have : ¬ (1 ≤ b1 ∧ b1 ≤ 5) := by omega
            simp [h5, h0, this]
      · refine ⟨true, ?_⟩
        simp only [MQTT_DeserializeAck, MQTT_PACKET_TYPE_CONNACK, deserializeConnack, readByte,
          MQTT_PACKET_CONNACK_REMAINING_LENGTH, MQTT_PACKET_CONNACK_SESSION_PRESENT_MASK]
        by_cases h0 : b1 = 0
        · subst h0
          simp
        · by_cases h5 : b1 > 5
          · simp [h0, h5]
          · simp [h0, h5]
  · refine ⟨sessionPresent, ?_⟩
    simp [MQTT_DeserializeAck, MQTT_PACKET_TYPE_CONNACK, deserializeConnack,
      MQTT_PACKET_CONNACK_REMAINING_LENGTH, hR]


theorem addSize_eq (a b : Nat) (h : a + b < SIZE_MOD) : addSize a b = a + b := by
  unfold addSize
  exact Nat.mod_eq_of_lt h

theorem subSize_eq (a b : Nat) (hb : b ≤ a) (ha : a < SIZE_MOD) : subSize a b = a - b := by
  unfold subSize
  have hb' : b % SIZE_MOD = b := Nat.mod_eq_of_lt (by omega)
  rw [hb']
  simp only [SIZE_MOD] at ha ⊢
  omega

theorem remainingLengthEncodedSize_bounds (n : Nat) :
    1 ≤ remainingLengthEncodedSize n ∧ remainingLengthEncodedSize n ≤ 4 := by
  unfold remainingLengthEncodedSize
  split_ifs <;> omega

/-- Closed form of `calculatePublishPacketSize`: with `H` the size of the
variable header and `R = H + payloadLength`, the call succeeds exactly when
`R + 1 + remainingLengthEncodedSize R` is at most 268,435,455. -/
theorem calculatePublishPacketSize_closed (info : MQTTPublishInfo) (r0 p0 : Nat)
    (htl : info.topicNameLength < 65536) (hpl : info.payloadLength < SIZE_MOD) :
    calculatePublishPacketSize info r0 p0
      = if info.topicNameLength + 2 + (if info.qos = MQTTQoS.MQTTQoS0 then 0 else 2)
            + info.payloadLength + 1
            + remainingLengthEncodedSize (info.topicNameLength + 2
                + (if info.qos = MQTTQoS.MQTTQoS0 then 0 else 2) + info.payloadLength)
            ≤ 268435455
        then (true,
          info.topicNameLength + 2 + (if info.qos = MQTTQoS.MQTTQoS0 then 0 else 2)
            + info.payloadLength,
          info.topicNameLength + 2 + (if info.qos = MQTTQoS.MQTTQoS0 then 0 else 2)
            + info.payloadLength + 1
            + remainingLengthEncodedSize (info.topicNameLength + 2
                + (if info.qos = MQTTQoS.MQTTQoS0 then 0 else 2) + info.payloadLength))
        else (false, r0, p0) := by
  obtain ⟨qos, retain, dup, topic, tl, payload, pl⟩ := info
  simp only at htl hpl ⊢
  generalize hH : tl + 2 + (if qos = MQTTQoS.MQTTQoS0 then 0 else 2) = H
  have hHb : H ≤ 65539 := by
    subst hH; split_ifs <;> omega
  have hpl' : pl < 18446744073709551616 := hpl
  have e1 : (if qos.toNat > MQTTQoS.MQTTQoS0.toNat
      then addSize (addSize 0 (addSize tl 2)) 2 else addSize 0 (addSize tl 2)) = H := by
    subst hH
    rw [addSize_eq tl 2 (by simp only [SIZE_MOD]; omega),
      addSize_eq 0 _ (by simp only [SIZE_MOD]; omega),
      addSize_eq _ 2 (by simp only [SIZE_MOD]; omega)]
    cases qos <;> simp [MQTTQoS.toNat]
  have e2 : subSize (subSize MQTT_MAX_REMAINING_LENGTH H) 1 = 268435454 - H := by
    rw [subSize_eq _ H (by simp only [MQTT_MAX_REMAINING_LENGTH]; omega)
      (by simp only [MQTT_MAX_REMAINING_LENGTH, SIZE_MOD]; omega),
      subSize_eq _ 1 (by simp only [MQTT_MAX_REMAINING_LENGTH]; omega)
      (by simp only [MQTT_MAX_REMAINING_LENGTH, SIZE_MOD]; omega)]
    simp only [MQTT_MAX_REMAINING_LENGTH]
    omega
  unfold calculatePublishPacketSize
  simp only [e1, e2]
  have hb := remainingLengthEncodedSize_bounds (H + pl)
  by_cases h1 : pl > 268435454 - H
  · rw [if_pos h1, if_neg (by omega)]
  · rw [if_neg h1]
    have e3 : addSize H pl = H + pl := addSize_eq _ _ (by simp only [SIZE_MOD]; omega)
    have e4 : subSize (268435454 - H) (remainingLengthEncodedSize (H + pl))
        = 268435454 - H - remainingLengthEncodedSize (H + pl) :=
      subSize_eq _ _ (by omega) (by simp only [SIZE_MOD]; omega)
    have e5 : addSize (H + pl) (addSize 1 (remainingLengthEncodedSize (H + pl)))
        = H + pl + 1 + remainingLengthEncodedSize (H + pl) := by
      rw [addSize_eq 1 _ (by simp only [SIZE_MOD]; omega),
        addSize_eq _ _ (by simp only [SIZE_MOD]; omega)]
      omega
    simp only [e3, e4, e5]
    by_cases h2 : pl > 268435454 - H - remainingLengthEncodedSize (H + pl)
    · rw [if_pos h2, if_neg (by omega)]
    · rw [if_neg h2, if_pos (by omega)]


theorem uint16_high_byte (x : Nat) (h : x < 65536) : UINT16_HIGH_BYTE x = x / 256 := by
  unfold UINT16_HIGH_BYTE
  rw [Nat.shiftRight_eq_div_pow]
  omega

theorem uint16_low_byte (x : Nat) : UINT16_LOW_BYTE x = x % 256 := by
  unfold UINT16_LOW_BYTE
  have h := Nat.and_pow_two_sub_one_eq_mod x 8
  have e : (2 : Nat) ^ 8 - 1 = 0x00ff := by norm_num
  rw [e] at h
  rw [h]
  omega

theorem uint16_decode_bytes (hi lo : Nat) (hhi : hi < 256) (hlo : lo < 256) :
    UINT16_DECODE hi lo = hi * 256 + lo := by
  unfold UINT16_DECODE
  rw [Nat.mod_eq_of_lt (show hi < 65536 by omega), Nat.mod_eq_of_lt (show lo < 65536 by omega),
    Nat.shiftLeft_eq]
  have h := Nat.mul_add_lt_is_or (i := 8) (b := lo) (by omega) hi
  have e : hi * 2 ^ 8 = 2 ^ 8 * hi := Nat.mul_comm _ _
  rw [e, ← h]
  omega

theorem uint16_decode_encode (x : Nat) (h : x < 65536) :
    UINT16_DECODE (UINT16_HIGH_BYTE x) (UINT16_LOW_BYTE x) = x := by
  rw [uint16_high_byte x h, uint16_low_byte, uint16_decode_bytes _ _ (by omega) (by omega)]
  omega

theorem encodeRemainingLength_append (R : Nat) :
    ∀ pre : List Nat, encodeRemainingLength pre R = pre ++ encodeRemainingLength [] R := by
  induction R using Nat.strong_induction_on with
  | _ R ih =>
    intro pre
    by_cases h : R < 128
    · rw [encodeRemainingLength_one pre R h, encodeRemainingLength_one [] R h]
      rfl
    · rw [encodeRemainingLength_step pre R (by omega),
        encodeRemainingLength_step [] R (by omega),
        ih (R / 128) (by omega) (pre ++ [R % 128 + 128]),
        ih (R / 128) (by omega) ([] ++ [R % 128 + 128])]
      simp

theorem encodeRemainingLength_length (R : Nat) (hR : R ≤ 268435455) :
    (encodeRemainingLength [] R).length = remainingLengthEncodedSize R := by
  rw [encodeRemainingLength_closed R hR]
  unfold remainingLengthEncodedSize
  split_ifs <;> rfl

theorem memcpyBytes_length (p : List Nat) (n : Nat) (h : n ≤ p.length) :
    (memcpyBytes (some p) n).length = n := by
  simp [memcpyBytes, h]

theorem memcpyBytes_zero (p : Option (List Nat)) : memcpyBytes p 0 = [] := by
  simp [memcpyBytes]

/-- The bytes stored by `serializePublishCommon`, field by field. -/
theorem serializePublishCommon_bytes (info : MQTTPublishInfo) (R packetId : Nat)
    (buffer : MQTTFixedBuffer) (serializePayload : Bool) :
    (serializePublishCommon info R packetId buffer serializePayload).bytes
      = [0x30 + (if info.dup then 8 else 0) + 2 * info.qos.toNat
            + (if info.retain then 1 else 0)]
        ++ encodeRemainingLength [] R
        ++ [UINT16_HIGH_BYTE info.topicNameLength, UINT16_LOW_BYTE info.topicNameLength]
        ++ memcpyBytes info.pTopicName info.topicNameLength
        ++ (if info.qos = MQTTQoS.MQTTQoS0 then []
            else [UINT16_HIGH_BYTE packetId, UINT16_LOW_BYTE packetId])
        ++ (if info.payloadLength > 0 ∧ serializePayload = true
            then memcpyBytes info.pPayload info.payloadLength else []) := by
  obtain ⟨qos, retain, dup, topic, tl, payload, pl⟩ := info
  unfold serializePublishCommon
  simp only [encodeString]
  cases qos <;> cases retain <;> cases dup <;>
    (simp only [MQTTQoS.toNat, MQTT_PACKET_TYPE_PUBLISH, MQTT_PUBLISH_FLAG_QOS1,
      MQTT_PUBLISH_FLAG_QOS2, MQTT_PUBLISH_FLAG_RETAIN, MQTT_PUBLISH_FLAG_DUP]
     rw [encodeRemainingLength_append R]
     simp +decide [UINT8_SET_BIT]
     split_ifs <;> simp)


/-- What a successful call of `MQTT_GetPublishPacketSize` tells. -/
theorem getPublishPacketSize_success (info : MQTTPublishInfo) (r0 p0 R P : Nat)
    (htl : info.topicNameLength < 65536) (hpl : info.payloadLength < SIZE_MOD)
    (hsize : MQTT_GetPublishPacketSize (some info) (some r0) (some p0)
      = (MQTTStatus.MQTTSuccess, some R, some P)) :
    (∃ t, info.pTopicName = some t) ∧ info.topicNameLength ≠ 0
    ∧ R = info.topicNameLength + 2 + (if info.qos = MQTTQoS.MQTTQoS0 then 0 else 2)
        + info.payloadLength
    ∧ P = R + 1 + remainingLengthEncodedSize R ∧ P ≤ 268435455 := by
  unfold MQTT_GetPublishPacketSize at hsize
  simp only at hsize
  by_cases hbad : info.pTopicName = none ∨ info.topicNameLength = 0
  · rw [if_pos hbad] at hsize
    simp at hsize
  · rw [if_neg hbad, calculatePublishPacketSize_closed info r0 p0 htl hpl] at hsize
    have hbad' := not_or.mp hbad
    have ht : ∃ t, info.pTopicName = some t := by
      cases h : info.pTopicName with
      | none => exact absurd h hbad'.1
      | some t => exact ⟨t, rfl⟩
    by_cases hle : info.topicNameLength + 2 + (if info.qos = MQTTQoS.MQTTQoS0 then 0 else 2)
        + info.payloadLength + 1
        + remainingLengthEncodedSize (info.topicNameLength + 2
            + (if info.qos = MQTTQoS.MQTTQoS0 then 0 else 2) + info.payloadLength)
        ≤ 268435455
    · rw [if_pos hle] at hsize
      simp only [Bool.true_eq_false, if_false, Prod.mk.injEq, Option.some.injEq, true_and]
        at hsize
      obtain ⟨hR, hP⟩ := hsize
      subst hR
      exact ⟨ht, hbad'.2, rfl, hP.symm, by omega⟩
    · rw [if_neg hle] at hsize
      simp at hsize

/-- The outcome computed by `MQTT_SerializePublish` for the (R, P) of
`MQTT_GetPublishPacketSize` and a buffer of capacity at least P: P bytes, and
the assertions of `serializePublishCommon` hold on that call exactly when DUP
is clear or QoS > 0 (with DUP set at QoS 0 the assertion on the DUP flag fails
before any byte is stored). -/
theorem serializePublish_sized (info : MQTTPublishInfo) (packetId R P r0 p0 : Nat)
    (buffer : MQTTFixedBuffer)
    (htl : info.topicNameLength < 65536) (hpl : info.payloadLength < SIZE_MOD)
    (htopic : ∀ t, info.pTopicName = some t → info.topicNameLength ≤ t.length)
    (hpayload : 0 < info.payloadLength →
      ∃ p, info.pPayload = some p ∧ info.payloadLength ≤ p.length)
    (hsize : MQTT_GetPublishPacketSize (some info) (some r0) (some p0)
      = (MQTTStatus.MQTTSuccess, some R, some P))
    (hid : info.qos ≠ MQTTQoS.MQTTQoS0 → packetId ≠ 0)
    (hcap : P ≤ buffer.size) :
    P = 1 + remainingLengthEncodedSize R + R
    ∧ (MQTT_SerializePublish (some info) packetId R (some buffer)).status
        = MQTTStatus.MQTTSuccess
    ∧ (MQTT_SerializePublish (some info) packetId R (some buffer)).written.length = P
    ∧ (bufferAfter buffer (MQTT_SerializePublish (some info) packetId R (some buffer)).written)
        = (MQTT_SerializePublish (some info) packetId R (some buffer)).written
          ++ buffer.pBuffer.drop P
    ∧ ((MQTT_SerializePublish (some info) packetId R (some buffer)).assertsHold = true
        ↔ (info.dup = false ∨ info.qos ≠ MQTTQoS.MQTTQoS0)) := by
  obtain ⟨⟨t, ht⟩, htl0, hR, hP, hPmax⟩ :=
    getPublishPacketSize_success info r0 p0 R P htl hpl hsize
  have hb := remainingLengthEncodedSize_bounds R
  have hsz : addSize (addSize 1 (remainingLengthEncodedSize R)) R = P := by
    rw [addSize_eq 1 _ (by simp only [SIZE_MOD]; omega),
      addSize_eq _ _ (by simp only [SIZE_MOD]; omega)]
    omega
  have hser : MQTT_SerializePublish (some info) packetId R (some buffer)
      = { status := MQTTStatus.MQTTSuccess,
          written := (serializePublishCommon info R packetId buffer true).bytes,
          assertsHold := (serializePublishCommon info R packetId buffer true).assertsHold } := by
    unfold MQTT_SerializePublish
    simp only [hsz]
    rw [if_neg (by simp [ht, htl0]), if_neg (by
      intro h
      exact hid h.1 h.2), if_neg (by omega)]
  have hlen : (serializePublishCommon info R packetId buffer true).bytes.length = P := by
    rw [serializePublishCommon_bytes]
    simp only [List.length_append, List.length_cons, List.length_nil,
      encodeRemainingLength_length R (by omega), ht, memcpyBytes_length t _ (htopic t ht)]
    by_cases hq : info.qos = MQTTQoS.MQTTQoS0
    · by_cases hp0 : info.payloadLength > 0
      · obtain ⟨p, hp, hple⟩ := hpayload hp0
        simp [hq, hp0, hp, memcpyBytes_length p _ hple] at hR ⊢
        omega
      · simp [hq, hp0] at hR ⊢
        omega
    · by_cases hp0 : info.payloadLength > 0
      · obtain ⟨p, hp, hple⟩ := hpayload hp0
        simp [hq, hp0, hp, memcpyBytes_length p _ hple] at hR ⊢
        omega
      · simp [hq, hp0] at hR ⊢
        omega
  refine ⟨by omega, ?_, ?_, ?_, ?_⟩
  · rw [hser]
  · rw [hser]; exact hlen
  · rw [hser]
    simp only [bufferAfter, hlen]
  · rw [hser]
    simp only
    unfold serializePublishCommon
    simp only [Bool.and_eq_true, decide_eq_true_eq]
    have hlen' := hlen
    unfold serializePublishCommon at hlen'
    simp only at hlen'
    rw [hlen']
    constructor
    · intro h
      rcases h.1.2 with h | h
      · exact Or.inl h
      · right
        intro hq
        rw [hq] at h
        simp [MQTTQoS.toNat] at h
    · intro h
      refine ⟨⟨?_, ?_⟩, hcap⟩
      · by_cases hq : info.qos = MQTTQoS.MQTTQoS0
        · exact Or.inl hq
        · exact Or.inr (hid hq)
      · rcases h with h | h
        · exact Or.inl h
        · right
          cases hq : info.qos <;> simp_all [MQTTQoS.toNat]

/-- C3, amended: whenever `MQTT_GetPublishPacketSize` succeeds with (R, P), the
packet identifier is non-zero when QoS > 0 and DUP is set only when QoS > 0,
P = 1 + encoded size of R + R, and `MQTT_SerializePublish` called with R and a
buffer of capacity at least P passes every assertion of
`serializePublishCommon`, returns `MQTTSuccess` and stores exactly P bytes, at
offsets 0..P-1 (the buffer holds them followed by its old contents from offset
P on). -/
theorem publish_size_exact (info : MQTTPublishInfo) (packetId R P r0 p0 : Nat)
    (buffer : MQTTFixedBuffer)
    (htl : info.topicNameLength < 65536) (hpl : info.payloadLength < SIZE_MOD)
    (htopic : ∀ t, info.pTopicName = some t → info.topicNameLength ≤ t.length)
    (hpayload : 0 < info.payloadLength →
      ∃ p, info.pPayload = some p ∧ info.payloadLength ≤ p.length)
    (hsize : MQTT_GetPublishPacketSize (some info) (some r0) (some p0)
      = (MQTTStatus.MQTTSuccess, some R, some P))
    (hid : info.qos ≠ MQTTQoS.MQTTQoS0 → packetId ≠ 0)
    (hdup : info.dup = true → info.qos ≠ MQTTQoS.MQTTQoS0)
    (hcap : P ≤ buffer.size) :
    P = 1 + remainingLengthEncodedSize R + R
    ∧ (MQTT_SerializePublish (some info) packetId R (some buffer)).assertsHold = true
    ∧ (MQTT_SerializePublish (some info) packetId R (some buffer)).status
        = MQTTStatus.MQTTSuccess
    ∧ (MQTT_SerializePublish (some info) packetId R (some buffer)).written.length = P
    ∧ (bufferAfter buffer (MQTT_SerializePublish (some info) packetId R (some buffer)).written)
        = (MQTT_SerializePublish (some info) packetId R (some buffer)).written
          ++ buffer.pBuffer.drop P := by
  obtain ⟨hP, hstatus, hwlen, hafter, hassert⟩ :=
    serializePublish_sized info packetId R P r0 p0 buffer htl hpl htopic hpayload hsize hid hcap
  refine ⟨hP, hassert.mpr ?_, hstatus, hwlen, hafter⟩
  by_cases hd : info.dup = true
  · exact Or.inr (hdup hd)
  · exact Or.inl (by simpa using hd)


theorem publish_first_byte_flags (q : MQTTQoS) (ret dup : Bool) (out0 : MQTTPublishInfo) :
    ((0x30 + (if dup then 8 else 0) + 2 * q.toNat + (if ret then 1 else 0)) &&& 0xF0) = 0x30
    ∧ processPublishFlags
        ((0x30 + (if dup then 8 else 0) + 2 * q.toNat + (if ret then 1 else 0)) &&& 0x0F) out0
      = (MQTTStatus.MQTTSuccess, { out0 with qos := q, retain := ret }) := by
  cases q <;> cases ret <;> cases dup <;>
    simp +decide [processPublishFlags, UINT8_CHECK_BIT, MQTTQoS.toNat, MQTT_PUBLISH_FLAG_QOS1,
      MQTT_PUBLISH_FLAG_QOS2, MQTT_PUBLISH_FLAG_RETAIN]

theorem checkPublishRemainingLength_ok (R : Nat) (q : MQTTQoS) (m : Nat) (hm : m < 65540)
    (h : m + (if q = MQTTQoS.MQTTQoS0 then 0 else 2) ≤ R) :
    checkPublishRemainingLength R q m = MQTTStatus.MQTTSuccess := by
  unfold checkPublishRemainingLength
  by_cases hq : q = MQTTQoS.MQTTQoS0
  · simp only [hq, if_true] at h ⊢
    rw [if_neg (by omega)]
  · simp only [hq, if_false] at h ⊢
    rw [addSize_eq _ _ (by simp only [SIZE_MOD]; omega), if_neg (by omega)]

/-- Deserialization of a well-formed PUBLISH body: two length bytes, the
topic, the packet identifier when QoS > 0, the payload. -/
theorem deserializePublish_wellformed (type R pid0 : Nat) (out0 : MQTTPublishInfo)
    (q : MQTTQoS) (ret : Bool) (tl pid pl : Nat) (tb pb : List Nat)
    (hflags : processPublishFlags (type &&& 0x0F) out0
      = (MQTTStatus.MQTTSuccess, { out0 with qos := q, retain := ret }))
    (htl1 : 1 ≤ tl) (htl : tl < 65536) (htb : tb.length = tl)
    (hpid : pid < 65536) (hpid0 : q ≠ MQTTQoS.MQTTQoS0 → pid ≠ 0)
    (hR : R = tl + 2 + (if q = MQTTQoS.MQTTQoS0 then 0 else 2) + pl)
    (hRmax : R ≤ 268435455) :
    deserializePublish
        ⟨type, some ([UINT16_HIGH_BYTE tl, UINT16_LOW_BYTE tl] ++ tb
          ++ (if q = MQTTQoS.MQTTQoS0 then [] else [UINT16_HIGH_BYTE pid, UINT16_LOW_BYTE pid])
          ++ pb), R⟩ pid0 out0
      = some (MQTTStatus.MQTTSuccess, (if q = MQTTQoS.MQTTQoS0 then pid0 else pid),
          { out0 with
            qos := q, retain := ret, topicNameLength := tl,
            pTopicName := some (tb
              ++ (if q = MQTTQoS.MQTTQoS0 then []
                  else [UINT16_HIGH_BYTE pid, UINT16_LOW_BYTE pid]) ++ pb),
            payloadLength := pl, pPayload := some pb }) := by
  have hc1 : checkPublishRemainingLength R q MQTT_MIN_PUBLISH_REMAINING_LENGTH_QOS0
      = MQTTStatus.MQTTSuccess :=
    checkPublishRemainingLength_ok R q _ (by decide) (by
      simp only [MQTT_MIN_PUBLISH_REMAINING_LENGTH_QOS0]; split_ifs at hR ⊢ <;> omega)
  have hc2 : checkPublishRemainingLength R q (addSize tl 2) = MQTTStatus.MQTTSuccess := by
    rw [addSize_eq _ _ (by simp only [SIZE_MOD]; omega)]
    exact checkPublishRemainingLength_ok R q _ (by omega) (by split_ifs at hR ⊢ <;> omega)
  have hdec : UINT16_DECODE (UINT16_HIGH_BYTE tl) (UINT16_LOW_BYTE tl) = tl :=
    uint16_decode_encode tl htl
  have hdecp : UINT16_DECODE (UINT16_HIGH_BYTE pid) (UINT16_LOW_BYTE pid) = pid :=
    uint16_decode_encode pid hpid
  unfold deserializePublish
  simp only [hflags, ne_eq, not_true_eq_false, if_false, hc1, readByte, List.cons_append,
    List.nil_append, List.get?_cons_zero, List.get?_cons_succ, hdec, hc2, Option.map_some']
  by_cases hq : q = MQTTQoS.MQTTQoS0
  · subst hq
    have hd : List.drop tl (tb ++ pb) = pb := by
      rw [List.drop_left' htb]
    have e : subSize (subSize R tl) 2 = pl := by
      simp only [if_true] at hR
      rw [subSize_eq R tl (by omega) (by simp only [SIZE_MOD]; omega),
        subSize_eq _ 2 (by omega) (by simp only [SIZE_MOD]; omega)]
      omega
    simp [MQTTQoS.toNat, hd, e]
  · have hd : List.drop tl (tb ++ (UINT16_HIGH_BYTE pid :: UINT16_LOW_BYTE pid :: pb))
        = UINT16_HIGH_BYTE pid :: UINT16_LOW_BYTE pid :: pb := by
      rw [List.drop_left' htb]
    have e : subSize (subSize R tl) (mulSize 2 2) = pl := by
      simp only [hq, if_false] at hR
      have e4 : mulSize 2 2 = 4 := by decide
      rw [e4, subSize_eq R tl (by omega) (by simp only [SIZE_MOD]; omega),
        subSize_eq _ 4 (by omega) (by simp only [SIZE_MOD]; omega)]
      omega
    have hqn : q.toNat > MQTTQoS.MQTTQoS0.toNat := by
      cases q <;> simp_all [MQTTQoS.toNat]
    have hp0 := hpid0 hq
    simp [hq, hqn, hd, e, hdecp, hp0]


/-- C2: for every legal PUBLISH (non-null non-empty topic, packet identifier
non-zero when QoS > 0, DUP only when QoS > 0) with (R, P) from
`MQTT_GetPublishPacketSize` and a buffer of capacity at least P,
`MQTT_SerializePublish` returns `MQTTSuccess`, and `MQTT_DeserializePublish` on
the packet built from the stored bytes (type = byte 0, remaining length R,
remaining data = the last R bytes stored) returns `MQTTSuccess` with the same
QoS, retain flag, topic bytes and payload bytes and, when QoS > 0, the same
packet identifier. -/
theorem publish_roundtrip (info : MQTTPublishInfo) (packetId R P r0 p0 : Nat)
    (buffer : MQTTFixedBuffer) (pid0 : Nat) (out0 : MQTTPublishInfo)
    (htl : info.topicNameLength < 65536) (hpl : info.payloadLength < SIZE_MOD)
    (hpid : packetId < 65536)
    (htopic : ∀ t, info.pTopicName = some t → info.topicNameLength ≤ t.length)
    (hpayload : 0 < info.payloadLength →
      ∃ p, info.pPayload = some p ∧ info.payloadLength ≤ p.length)
    (hsize : MQTT_GetPublishPacketSize (some info) (some r0) (some p0)
      = (MQTTStatus.MQTTSuccess, some R, some P))
    (hid : info.qos ≠ MQTTQoS.MQTTQoS0 → packetId ≠ 0)
    (hdup : info.dup = true → info.qos ≠ MQTTQoS.MQTTQoS0)
    (hcap : P ≤ buffer.size) :
    (MQTT_SerializePublish (some info) packetId R (some buffer)).status
        = MQTTStatus.MQTTSuccess
    ∧ (MQTT_SerializePublish (some info) packetId R (some buffer)).assertsHold = true
    ∧ ∃ pid' out,
        MQTT_DeserializePublish
            (some
              ⟨(MQTT_SerializePublish (some info) packetId R (some buffer)).written.getD 0 0,
               some ((MQTT_SerializePublish (some info) packetId R (some buffer)).written.drop
                 ((MQTT_SerializePublish (some info) packetId R (some buffer)).written.length
                   - R)),
               R⟩)
            (some pid0) (some out0)
          = some (MQTTStatus.MQTTSuccess, some pid', some out)
        ∧ out.qos = info.qos ∧ out.retain = info.retain
        ∧ out.topicNameLength = info.topicNameLength
        ∧ memcpyBytes out.pTopicName out.topicNameLength
            = memcpyBytes info.pTopicName info.topicNameLength
        ∧ out.payloadLength = info.payloadLength
        ∧ memcpyBytes out.pPayload out.payloadLength
            = memcpyBytes info.pPayload info.payloadLength
        ∧ (info.qos ≠ MQTTQoS.MQTTQoS0 → pid' = packetId) := by
  obtain ⟨hP, hstatus, hwlen, -, hassert⟩ :=
    serializePublish_sized info packetId R P r0 p0 buffer htl hpl htopic hpayload hsize hid hcap
  obtain ⟨⟨t, ht⟩, htl0, hR, hP', hPmax⟩ :=
    getPublishPacketSize_success info r0 p0 R P htl hpl hsize
  have hb := remainingLengthEncodedSize_bounds R
  have hsz : addSize (addSize 1 (remainingLengthEncodedSize R)) R = P := by
    rw [addSize_eq 1 _ (by simp only [SIZE_MOD]; omega),
      addSize_eq _ _ (by simp only [SIZE_MOD]; omega)]
    omega
  have hwritten : (MQTT_SerializePublish (some info) packetId R (some buffer)).written
      = (serializePublishCommon info R packetId buffer true).bytes := by
    unfold MQTT_SerializePublish
    simp only [hsz]
    rw [if_neg (by simp [ht, htl0]), if_neg (by
      intro h
      exact hid h.1 h.2), if_neg (by omega)]
  refine ⟨hstatus, hassert.mpr ?_, ?_⟩
  · by_cases hd : info.dup = true
    · exact Or.inr (hdup hd)
    · exact Or.inl (by simpa using hd)
  rw [hwritten] at hwlen ⊢
  rw [hwlen]
  have hpb : (if info.payloadLength > 0 ∧ true = true
      then memcpyBytes info.pPayload info.payloadLength else [])
      = memcpyBytes info.pPayload info.payloadLength := by
    by_cases hp0 : info.payloadLength > 0
    · simp [hp0]
    · have : info.payloadLength = 0 := by omega
      simp [this, memcpyBytes_zero]
  have hbytes := serializePublishCommon_bytes info R packetId buffer true
  rw [hpb] at hbytes
  have htb : (memcpyBytes info.pTopicName info.topicNameLength).length
      = info.topicNameLength := by
    rw [ht]; exact memcpyBytes_length t _ (htopic t ht)
  have hpbl : (memcpyBytes info.pPayload info.payloadLength).length = info.payloadLength := by
    by_cases hp0 : info.payloadLength > 0
    · obtain ⟨p, hp, hple⟩ := hpayload hp0
      rw [hp]; exact memcpyBytes_length p _ hple
    · have : info.payloadLength = 0 := by omega
      simp [this, memcpyBytes_zero]
  have henc := encodeRemainingLength_length R (by omega)
  have hdrop : (serializePublishCommon info R packetId buffer true).bytes.drop (P - R)
      = [UINT16_HIGH_BYTE info.topicNameLength, UINT16_LOW_BYTE info.topicNameLength]
        ++ memcpyBytes info.pTopicName info.topicNameLength
        ++ (if info.qos = MQTTQoS.MQTTQoS0 then []
            else [UINT16_HIGH_BYTE packetId, UINT16_LOW_BYTE packetId])
        ++ memcpyBytes info.pPayload info.payloadLength := by
    rw [hbytes]
    simp only [List.append_assoc]
    rw [← List.append_assoc]
    exact List.drop_left' (by simp only [List.length_append, List.length_cons,
      List.length_nil, henc]; omega)
  have hhead : (serializePublishCommon info R packetId buffer true).bytes.getD 0 0
      = 0x30 + (if info.dup then 8 else 0) + 2 * info.qos.toNat
          + (if info.retain then 1 else 0) := by
    rw [hbytes]
    simp
  rw [hdrop, hhead]
  obtain ⟨hnib, hflags⟩ := publish_first_byte_flags info.qos info.retain info.dup out0
  have hdes := deserializePublish_wellformed
    (0x30 + (if info.dup then 8 else 0) + 2 * info.qos.toNat + (if info.retain then 1 else 0))
    R pid0 out0 info.qos info.retain info.topicNameLength packetId info.payloadLength
    (memcpyBytes info.pTopicName info.topicNameLength)
    (memcpyBytes info.pPayload info.payloadLength)
    hflags (by omega) htl htb hpid hid hR (by omega)
  refine ⟨(if info.qos = MQTTQoS.MQTTQoS0 then pid0 else packetId),
    { out0 with
      qos := info.qos, retain := info.retain, topicNameLength := info.topicNameLength,
      pTopicName := some (memcpyBytes info.pTopicName info.topicNameLength
        ++ (if info.qos = MQTTQoS.MQTTQoS0 then []
            else [UINT16_HIGH_BYTE packetId, UINT16_LOW_BYTE packetId])
        ++ memcpyBytes info.pPayload info.payloadLength),
      payloadLength := info.payloadLength,
      pPayload := some (memcpyBytes info.pPayload info.payloadLength) }, ?_, ?_⟩
  · unfold MQTT_DeserializePublish
    simp only [hnib, MQTT_PACKET_TYPE_PUBLISH, ne_eq, not_true_eq_false, if_false, hdes]
  · refine ⟨rfl, rfl, rfl, ?_, rfl, ?_, ?_⟩
    · show memcpyBytes (some (_ ++ _ ++ _)) info.topicNameLength = _
      generalize memcpyBytes info.pTopicName info.topicNameLength = tb at htb ⊢
      generalize memcpyBytes info.pPayload info.payloadLength = pb
      simp only [memcpyBytes, Option.getD_some]
      rw [List.append_assoc, List.take_left' htb]
    · show memcpyBytes (some _) info.payloadLength = _
      generalize memcpyBytes info.pPayload info.payloadLength = pb at hpbl ⊢
      simp only [memcpyBytes, Option.getD_some]
      exact List.take_of_length_le (by omega)
    · intro hq
      simp [hq]


/-- The bytes stored by `serializeConnectPacket`, field by field. -/
theorem serializeConnectPacket_bytes (info : MQTTConnectInfo) (will : Option MQTTPublishInfo)
    (R : Nat) (buffer : MQTTFixedBuffer) :
    (serializeConnectPacket info will R buffer).bytes
      = encodeRemainingLength [0x10] R
        ++ [0x00, 0x04, 77, 81, 84, 84, 4]
        ++ [(if info.cleanSession then 2 else 0)
            + (match will with
               | none => 0
               | some w => 4 + 8 * w.qos.toNat + (if w.retain then 32 else 0))
            + (if info.pPassword = none then 0 else 64)
            + (if info.pUserName = none then 0 else 128)]
        ++ [UINT16_HIGH_BYTE info.keepAliveSeconds, UINT16_LOW_BYTE info.keepAliveSeconds]
        ++ [UINT16_HIGH_BYTE info.clientIdentifierLength,
            UINT16_LOW_BYTE info.clientIdentifierLength]
        ++ memcpyBytes info.pClientIdentifier info.clientIdentifierLength
        ++ (match will with
            | none => []
            | some w =>
              [UINT16_HIGH_BYTE w.topicNameLength, UINT16_LOW_BYTE w.topicNameLength]
                ++ memcpyBytes w.pTopicName w.topicNameLength
                ++ [UINT16_HIGH_BYTE (w.payloadLength % 65536),
                    UINT16_LOW_BYTE (w.payloadLength % 65536)]
                ++ memcpyBytes w.pPayload (w.payloadLength % 65536))
        ++ (if info.pUserName = none then []
            else [UINT16_HIGH_BYTE info.userNameLength, UINT16_LOW_BYTE info.userNameLength]
              ++ memcpyBytes info.pUserName info.userNameLength)
        ++ (if info.pPassword = none then []
            else [UINT16_HIGH_BYTE info.passwordLength, UINT16_LOW_BYTE info.passwordLength]
              ++ memcpyBytes info.pPassword info.passwordLength) := by
  have h4 : UINT16_HIGH_BYTE 4 = 0 ∧ UINT16_LOW_BYTE 4 = 4 := by decide
  have hm : memcpyBytes (some [77, 81, 84, 84]) 4 = [77, 81, 84, 84] := by decide
  obtain ⟨clean, ka, cid, cil, user, ul, pass, pl⟩ := info
  cases clean <;> cases user <;> cases pass <;> cases will with
  | none =>
    unfold serializeConnectPacket
    simp -zeta only [↓reduceIte, ne_eq, reduceCtorEq, not_true_eq_false, not_false_eq_true,
      encodeString, Bool.false_eq_true]
    simp only [h4, hm]
    simp +decide [UINT8_SET_BIT, MQTT_PACKET_TYPE_CONNECT, MQTT_VERSION_3_1_1,
      MQTT_CONNECT_FLAG_CLEAN, MQTT_CONNECT_FLAG_USERNAME, MQTT_CONNECT_FLAG_PASSWORD]
  | some w =>
    obtain ⟨q, ret, dup, wt, wtl, wp, wpl⟩ := w
    cases q <;> cases ret <;>
      (unfold serializeConnectPacket
       simp -zeta only [↓reduceIte, ne_eq, reduceCtorEq, not_true_eq_false, not_false_eq_true,
         encodeString, Bool.false_eq_true]
       simp only [h4, hm]
       simp +decide [UINT8_SET_BIT, MQTT_PACKET_TYPE_CONNECT, MQTT_VERSION_3_1_1,
         MQTT_CONNECT_FLAG_CLEAN, MQTT_CONNECT_FLAG_USERNAME, MQTT_CONNECT_FLAG_PASSWORD,
         MQTT_CONNECT_FLAG_WILL, MQTT_CONNECT_FLAG_WILL_QOS1, MQTT_CONNECT_FLAG_WILL_QOS2,
         MQTT_CONNECT_FLAG_WILL_RETAIN, MQTTQoS.toNat])


/-- Closed form of `MQTT_GetConnectPacketSize` for non-null arguments: the
remaining length is the sum of the field sizes reduced to a `size_t`. -/
theorem getConnectPacketSize_closed (info : MQTTConnectInfo) (will : Option MQTTPublishInfo)
    (r0 p0 : Nat) :
    MQTT_GetConnectPacketSize (some info) will (some r0) (some p0)
      = if ((10 + (info.clientIdentifierLength + 2)
              + (match will with
                 | none => 0
                 | some w => w.topicNameLength + 2 + w.payloadLength + 2)
              + (if info.pUserName = none then 0 else info.userNameLength + 2)
              + (if info.pPassword = none then 0 else info.passwordLength + 2)) % SIZE_MOD
            + 1
            + remainingLengthEncodedSize
                ((10 + (info.clientIdentifierLength + 2)
                  + (match will with
                     | none => 0
                     | some w => w.topicNameLength + 2 + w.payloadLength + 2)
                  + (if info.pUserName = none then 0 else info.userNameLength + 2)
                  + (if info.pPassword = none then 0 else info.passwordLength + 2)) % SIZE_MOD))
            % SIZE_MOD > 327700
        then (MQTTStatus.MQTTBadParameter, some r0, some p0)
        else (MQTTStatus.MQTTSuccess,
          some ((10 + (info.clientIdentifierLength + 2)
              + (match will with
                 | none => 0
                 | some w => w.topicNameLength + 2 + w.payloadLength + 2)
              + (if info.pUserName = none then 0 else info.userNameLength + 2)
              + (if info.pPassword = none then 0 else info.passwordLength + 2)) % SIZE_MOD),
          some (((10 + (info.clientIdentifierLength + 2)
              + (match will with
                 | none => 0
                 | some w => w.topicNameLength + 2 + w.payloadLength + 2)
              + (if info.pUserName = none then 0 else info.userNameLength + 2)
              + (if info.pPassword = none then 0 else info.passwordLength + 2)) % SIZE_MOD
            + 1
            + remainingLengthEncodedSize
                ((10 + (info.clientIdentifierLength + 2)
                  + (match will with
                     | none => 0
                     | some w => w.topicNameLength + 2 + w.payloadLength + 2)
                  + (if info.pUserName = none then 0 else info.userNameLength + 2)
                  + (if info.pPassword = none then 0 else info.passwordLength + 2)) % SIZE_MOD))
            % SIZE_MOD)) := by
  obtain ⟨clean, ka, cid, cil, user, ul, pass, pl⟩ := info
  cases user <;> cases pass <;> cases will <;>
    (unfold MQTT_GetConnectPacketSize
     simp -zeta only [↓reduceIte, ne_eq, reduceCtorEq, not_true_eq_false, not_false_eq_true]
     simp only [addSize, MQTT_PACKET_CONNECT_HEADER_SIZE, MQTT_PACKET_CONNECT_MAX_SIZE,
       Nat.add_mod_mod, Nat.mod_add_mod, Nat.add_zero, Nat.add_assoc])


theorem serializeConnect_success (info : MQTTConnectInfo) (will : Option MQTTPublishInfo)
    (R : Nat) (buffer : MQTTFixedBuffer)
    (h : addSize (addSize R (remainingLengthEncodedSize R)) 1 ≤ buffer.size) :
    MQTT_SerializeConnect (some info) will R (some buffer)
      = { status := MQTTStatus.MQTTSuccess,
          written := (serializeConnectPacket info will R buffer).bytes,
          assertsHold := (serializeConnectPacket info will R buffer).assertsHold } := by
  unfold MQTT_SerializeConnect
  simp only []
  rw [if_neg (by omega)]

/-- A will payload of 65,536 bytes, whatever the bytes are: the sizing call
accepts it, the serializer stores 22 bytes. -/
theorem connect_will_payload_65536 (payload memory : List Nat) :
    MQTT_GetConnectPacketSize
        (some ⟨true, 60, some [97], 1, none, 0, none, 0⟩)
        (some ⟨MQTTQoS.MQTTQoS0, false, false, some [116], 1, some payload, 65536⟩)
        (some 0) (some 0)
      = (MQTTStatus.MQTTSuccess, some 65554, some 65558)
    ∧ (MQTT_SerializeConnect
        (some ⟨true, 60, some [97], 1, none, 0, none, 0⟩)
        (some ⟨MQTTQoS.MQTTQoS0, false, false, some [116], 1, some payload, 65536⟩)
        65554 (some ⟨memory, 65558⟩)).status = MQTTStatus.MQTTSuccess
    ∧ (MQTT_SerializeConnect
        (some ⟨true, 60, some [97], 1, none, 0, none, 0⟩)
        (some ⟨MQTTQoS.MQTTQoS0, false, false, some [116], 1, some payload, 65536⟩)
        65554 (some ⟨memory, 65558⟩)).written
      = [0x10, 0x92, 0x80, 0x04, 0x00, 0x04, 0x4D, 0x51, 0x54, 0x54, 0x04, 0x06,
          0x00, 0x3C, 0x00, 0x01, 0x61, 0x00, 0x01, 0x74, 0x00, 0x00]
    ∧ (MQTT_SerializeConnect
        (some ⟨true, 60, some [97], 1, none, 0, none, 0⟩)
        (some ⟨MQTTQoS.MQTTQoS0, false, false, some [116], 1, some payload, 65536⟩)
        65554 (some ⟨memory, 65558⟩)).written.length ≠ 65558 := by
  have henc : encodeRemainingLength [0x10] 65554 = [0x10, 0x92, 0x80, 0x04] := by
    rw [encodeRemainingLength_append, encodeRemainingLength_closed 65554 (by decide)]
    decide
  have hm : memcpyBytes (some payload) (65536 % 65536) = [] := by
    rw [show 65536 % 65536 = 0 by decide]
    exact memcpyBytes_zero _
  have hbytes : (serializeConnectPacket ⟨true, 60, some [97], 1, none, 0, none, 0⟩
      (some ⟨MQTTQoS.MQTTQoS0, false, false, some [116], 1, some payload, 65536⟩)
      65554 ⟨memory, 65558⟩).bytes
      = [0x10, 0x92, 0x80, 0x04, 0x00, 0x04, 0x4D, 0x51, 0x54, 0x54, 0x04, 0x06,
          0x00, 0x3C, 0x00, 0x01, 0x61, 0x00, 0x01, 0x74, 0x00, 0x00] := by
    rw [serializeConnectPacket_bytes]
    simp only [henc, hm]
    simp +decide [UINT16_HIGH_BYTE, UINT16_LOW_BYTE, memcpyBytes, MQTTQoS.toNat]
  have hser := serializeConnect_success ⟨true, 60, some [97], 1, none, 0, none, 0⟩
    (some ⟨MQTTQoS.MQTTQoS0, false, false, some [116], 1, some payload, 65536⟩)
    65554 ⟨memory, 65558⟩
    (by show addSize (addSize 65554 (remainingLengthEncodedSize 65554)) 1 ≤ 65558; decide)
  refine ⟨?_, ?_, ?_, ?_⟩
  · rw [getConnectPacketSize_closed]
    simp only []
    decide
  · rw [hser]
  · rw [hser]; exact hbytes
  · rw [hser]
    simp only [hbytes]
    decide

/-- C4 (the code at the failing input): client identifier "a", a will with
topic "t" and a payload of 65,536 zero bytes, no user name and no password.
`MQTT_GetConnectPacketSize` succeeds with R = 65,554 and P = 65,558;
`MQTT_SerializeConnect` with that R and a buffer of capacity P returns
`MQTTSuccess` but stores 22 bytes, not 65,558: the length prefix of the will
payload is 00 00 and no payload byte follows it. -/
theorem connect_will_payload_truncated :
    MQTT_GetConnectPacketSize
        (some ⟨true, 60, some [97], 1, none, 0, none, 0⟩)
        (some ⟨MQTTQoS.MQTTQoS0, false, false, some [116], 1,
          some (List.replicate 65536 0), 65536⟩)
        (some 0) (some 0)
      = (MQTTStatus.MQTTSuccess, some 65554, some 65558)
    ∧ (MQTT_SerializeConnect
        (some ⟨true, 60, some [97], 1, none, 0, none, 0⟩)
        (some ⟨MQTTQoS.MQTTQoS0, false, false, some [116], 1,
          some (List.replicate 65536 0), 65536⟩)
        65554 (some ⟨List.replicate 65558 0, 65558⟩)).status = MQTTStatus.MQTTSuccess
    ∧ (MQTT_SerializeConnect
        (some ⟨true, 60, some [97], 1, none, 0, none, 0⟩)
        (some ⟨MQTTQoS.MQTTQoS0, false, false, some [116], 1,
          some (List.replicate 65536 0), 65536⟩)
        65554 (some ⟨List.replicate 65558 0, 65558⟩)).written
      = [0x10, 0x92, 0x80, 0x04, 0x00, 0x04, 0x4D, 0x51, 0x54, 0x54, 0x04, 0x06,
          0x00, 0x3C, 0x00, 0x01, 0x61, 0x00, 0x01, 0x74, 0x00, 0x00]
    ∧ (MQTT_SerializeConnect
        (some ⟨true, 60, some [97], 1, none, 0, none, 0⟩)
        (some ⟨MQTTQoS.MQTTQoS0, false, false, some [116], 1,
          some (List.replicate 65536 0), 65536⟩)
        65554 (some ⟨List.replicate 65558 0, 65558⟩)).written.length ≠ 65558 :=
  connect_will_payload_65536 (List.replicate 65536 0) (List.replicate 65558 0)



theorem deserializeAck_connack_witness :
    (∀ b ∈ [0x00, 0x03], b < 256)
    ∧ ∃ sessionPresent',
        MQTT_DeserializeAck (some ⟨0x20, some [0x00, 0x03], 2⟩) (some 0) (some false)
          = some (MQTTStatus.MQTTServerRefused, some 0, some sessionPresent') :=
  ⟨by decide, by
    simpa using deserializeAck_connack [0x00, 0x03] 2 0 false (by decide) (by decide)⟩

theorem publish_size_exact_witness :
    MQTT_GetPublishPacketSize
        (some ⟨MQTTQoS.MQTTQoS1, false, true, some [97], 1, some [104, 105], 2⟩)
        (some 0) (some 0) = (MQTTStatus.MQTTSuccess, some 7, some 9)
    ∧ (MQTT_SerializePublish
        (some ⟨MQTTQoS.MQTTQoS1, false, true, some [97], 1, some [104, 105], 2⟩) 7 7
        (some ⟨List.replicate 9 0, 9⟩)).assertsHold = true
    ∧ (MQTT_SerializePublish
        (some ⟨MQTTQoS.MQTTQoS1, false, true, some [97], 1, some [104, 105], 2⟩) 7 7
        (some ⟨List.replicate 9 0, 9⟩)).status = MQTTStatus.MQTTSuccess
    ∧ (MQTT_SerializePublish
        (some ⟨MQTTQoS.MQTTQoS1, false, true, some [97], 1, some [104, 105], 2⟩) 7 7
        (some ⟨List.replicate 9 0, 9⟩)).written.length = 9 :=
  ⟨by decide,
    (publish_size_exact ⟨MQTTQoS.MQTTQoS1, false, true, some [97], 1, some [104, 105], 2⟩
      7 7 9 0 0 ⟨List.replicate 9 0, 9⟩ (by decide) (by decide)
      (by intro t h; cases h; decide) (fun _ => ⟨[104, 105], rfl, by decide⟩) (by decide)
      (fun _ => by decide) (fun _ => by decide) (by decide)).2.1,
    (publish_size_exact ⟨MQTTQoS.MQTTQoS1, false, true, some [97], 1, some [104, 105], 2⟩
      7 7 9 0 0 ⟨List.replicate 9 0, 9⟩ (by decide) (by decide)
      (by intro t h; cases h; decide) (fun _ => ⟨[104, 105], rfl, by decide⟩) (by decide)
      (fun _ => by decide) (fun _ => by decide) (by decide)).2.2.1,
    (publish_size_exact ⟨MQTTQoS.MQTTQoS1, false, true, some [97], 1, some [104, 105], 2⟩
      7 7 9 0 0 ⟨List.replicate 9 0, 9⟩ (by decide) (by decide)
      (by intro t h; cases h; decide) (fun _ => ⟨[104, 105], rfl, by decide⟩) (by decide)
      (fun _ => by decide) (fun _ => by decide) (by decide)).2.2.2.1⟩

/-- C3: a PUBLISH with DUP set at QoS 0 (topic "a", payload "hi") is sized by
`MQTT_GetPublishPacketSize` with `MQTTSuccess` and (R, P) = (5, 7), and on
`MQTT_SerializePublish` with that R and a buffer of capacity 7 the assertion
of `serializePublishCommon` on the DUP flag, which precedes every store,
fails: with assertions enabled the call does not return; the outcome shown is
the one computed when they are compiled out. -/
theorem publish_size_exact_counterexample :
    MQTT_GetPublishPacketSize
        (some ⟨MQTTQoS.MQTTQoS0, false, true, some [0x61], 1, some [0x68, 0x69], 2⟩)
        (some 0) (some 0) = (MQTTStatus.MQTTSuccess, some 5, some 7)
    ∧ MQTT_SerializePublish
        (some ⟨MQTTQoS.MQTTQoS0, false, true, some [0x61], 1, some [0x68, 0x69], 2⟩) 0 5
        (some ⟨List.replicate 7 0, 7⟩)
      = ⟨MQTTStatus.MQTTSuccess, [0x38, 0x05, 0x00, 0x01, 0x61, 0x68, 0x69], false⟩ := by
  refine ⟨by decide, ?_⟩
  simp +decide [MQTT_SerializePublish, serializePublishCommon, encodeString,
    encodeRemainingLength_one, addSize, remainingLengthEncodedSize, SIZE_MOD, UINT8_SET_BIT,
    UINT16_HIGH_BYTE, UINT16_LOW_BYTE, memcpyBytes, MQTTQoS.toNat, MQTT_PACKET_TYPE_PUBLISH,
    MQTT_PUBLISH_FLAG_QOS1, MQTT_PUBLISH_FLAG_QOS2, MQTT_PUBLISH_FLAG_RETAIN,
    MQTT_PUBLISH_FLAG_DUP]

theorem publish_roundtrip_witness :
    MQTT_GetPublishPacketSize
        (some ⟨MQTTQoS.MQTTQoS1, false, true, some [97], 1, some [104, 105], 2⟩)
        (some 0) (some 0) = (MQTTStatus.MQTTSuccess, some 7, some 9)
    ∧ (MQTT_SerializePublish
        (some ⟨MQTTQoS.MQTTQoS1, false, true, some [97], 1, some [104, 105], 2⟩) 7 7
        (some ⟨List.replicate 9 0, 9⟩)).status = MQTTStatus.MQTTSuccess
    ∧ (MQTT_SerializePublish
        (some ⟨MQTTQoS.MQTTQoS1, false, true, some [97], 1, some [104, 105], 2⟩) 7 7
        (some ⟨List.replicate 9 0, 9⟩)).assertsHold = true :=
  ⟨by decide,
    (publish_roundtrip ⟨MQTTQoS.MQTTQoS1, false, true, some [97], 1, some [104, 105], 2⟩
      7 7 9 0 0 ⟨List.replicate 9 0, 9⟩ 0 ⟨MQTTQoS.MQTTQoS0, false, false, none, 0, none, 0⟩
      (by decide) (by decide) (by decide)
      (by intro t h; cases h; decide) (fun _ => ⟨[104, 105], rfl, by decide⟩) (by decide)
      (fun _ => by decide) (fun _ => by decide) (by decide)).1,
    (publish_roundtrip ⟨MQTTQoS.MQTTQoS1, false, true, some [97], 1, some [104, 105], 2⟩
      7 7 9 0 0 ⟨List.replicate 9 0, 9⟩ 0 ⟨MQTTQoS.MQTTQoS0, false, false, none, 0, none, 0⟩
      (by decide) (by decide) (by decide)
      (by intro t h; cases h; decide) (fun _ => ⟨[104, 105], rfl, by decide⟩) (by decide)
      (fun _ => by decide) (fun _ => by decide) (by decide)).2.1⟩


/-! ## Deserialization of PUBLISH -/

theorem readByte_some (d : List Nat) (i : Nat) (h : i < d.length) :
    readByte (some d) i = some (d.getD i 0) := by
  simp [readByte, List.getD_eq_getElem?_getD, List.getElem?_eq_getElem h]

theorem readByte_drop (d : List Nat) (k i : Nat) :
    readByte (some (d.drop k)) i = readByte (some d) (k + i) := by
  simp only [readByte, List.get?_eq_getElem?, List.getElem?_drop]

theorem getD_lt_256 (d : List Nat) (hbytes : ∀ b ∈ d, b < 256) (i : Nat) : d.getD i 0 < 256 := by
  by_cases h : i < d.length
  · rw [List.getD_eq_getElem _ _ h]
    exact hbytes _ (List.getElem_mem h)
  · rw [List.getD_eq_default _ _ (by omega)]
    decide

/-- Closed form of `processPublishFlags`. -/
theorem processPublishFlags_closed (flags : Nat) (out0 : MQTTPublishInfo) :
    processPublishFlags flags out0
      = if UINT8_CHECK_BIT flags 2 = true ∧ UINT8_CHECK_BIT flags 1 = true then
          (MQTTStatus.MQTTBadResponse, out0)
        else
          (MQTTStatus.MQTTSuccess,
            { out0 with
              qos := if UINT8_CHECK_BIT flags 2 = true then MQTTQoS.MQTTQoS2
                else if UINT8_CHECK_BIT flags 1 = true then MQTTQoS.MQTTQoS1
                else MQTTQoS.MQTTQoS0
              retain := UINT8_CHECK_BIT flags 0 }) := by
  unfold processPublishFlags
  simp only [MQTT_PUBLISH_FLAG_QOS2, MQTT_PUBLISH_FLAG_QOS1, MQTT_PUBLISH_FLAG_RETAIN]
  by_cases h2 : UINT8_CHECK_BIT flags 2 = true <;>
    by_cases h1 : UINT8_CHECK_BIT flags 1 = true <;> simp [h1, h2]

/-- Closed form of `deserializePublish` on a packet whose remaining data has
the declared length: the status and every output, step by step. -/
theorem deserializePublish_closed (t pid0 : Nat) (out0 : MQTTPublishInfo) (d : List Nat)
    (hbytes : ∀ b ∈ d, b < 256) (hR : d.length < SIZE_MOD) :
    deserializePublish ⟨t, some d, d.length⟩ pid0 out0
      = if UINT8_CHECK_BIT (t &&& 0x0F) 2 = true ∧ UINT8_CHECK_BIT (t &&& 0x0F) 1 = true then
          some (MQTTStatus.MQTTBadResponse, pid0, out0)
        else if d.length <
            (if UINT8_CHECK_BIT (t &&& 0x0F) 2 = false ∧ UINT8_CHECK_BIT (t &&& 0x0F) 1 = false
              then 3 else 5) then
          some (MQTTStatus.MQTTBadResponse, pid0,
            { out0 with
              qos := if UINT8_CHECK_BIT (t &&& 0x0F) 2 = true then MQTTQoS.MQTTQoS2
                else if UINT8_CHECK_BIT (t &&& 0x0F) 1 = true then MQTTQoS.MQTTQoS1
                else MQTTQoS.MQTTQoS0
              retain := UINT8_CHECK_BIT (t &&& 0x0F) 0 })
        else if d.length < d.getD 0 0 * 256 + d.getD 1 0 +
            (if UINT8_CHECK_BIT (t &&& 0x0F) 2 = false ∧ UINT8_CHECK_BIT (t &&& 0x0F) 1 = false
              then 2 else 4) then
          some (MQTTStatus.MQTTBadResponse, pid0,
            { out0 with
              qos := if UINT8_CHECK_BIT (t &&& 0x0F) 2 = true then MQTTQoS.MQTTQoS2
                else if UINT8_CHECK_BIT (t &&& 0x0F) 1 = true then MQTTQoS.MQTTQoS1
                else MQTTQoS.MQTTQoS0
              retain := UINT8_CHECK_BIT (t &&& 0x0F) 0
              topicNameLength := d.getD 0 0 * 256 + d.getD 1 0 })
        else if UINT8_CHECK_BIT (t &&& 0x0F) 2 = false ∧ UINT8_CHECK_BIT (t &&& 0x0F) 1 = false
        then
          some (MQTTStatus.MQTTSuccess, pid0,
            { out0 with
              qos := MQTTQoS.MQTTQoS0
              retain := UINT8_CHECK_BIT (t &&& 0x0F) 0
              topicNameLength := d.getD 0 0 * 256 + d.getD 1 0
              pTopicName := some (d.drop 2)
              payloadLength := d.length - (d.getD 0 0 * 256 + d.getD 1 0) - 2
              pPayload := some ((d.drop 2).drop (d.getD 0 0 * 256 + d.getD 1 0)) })
        else if d.getD (2 + (d.getD 0 0 * 256 + d.getD 1 0)) 0 * 256
            + d.getD (3 + (d.getD 0 0 * 256 + d.getD 1 0)) 0 = 0 then
          some (MQTTStatus.MQTTBadResponse, 0,
            { out0 with
              qos := if UINT8_CHECK_BIT (t &&& 0x0F) 2 = true then MQTTQoS.MQTTQoS2
                else MQTTQoS.MQTTQoS1
              retain := UINT8_CHECK_BIT (t &&& 0x0F) 0
              topicNameLength := d.getD 0 0 * 256 + d.getD 1 0
              pTopicName := some (d.drop 2) })
        else
          some (MQTTStatus.MQTTSuccess,
            d.getD (2 + (d.getD 0 0 * 256 + d.getD 1 0)) 0 * 256
              + d.getD (3 + (d.getD 0 0 * 256 + d.getD 1 0)) 0,
            { out0 with
              qos := if UINT8_CHECK_BIT (t &&& 0x0F) 2 = true then MQTTQoS.MQTTQoS2
                else MQTTQoS.MQTTQoS1
              retain := UINT8_CHECK_BIT (t &&& 0x0F) 0
              topicNameLength := d.getD 0 0 * 256 + d.getD 1 0
              pTopicName := some (d.drop 2)
              payloadLength := d.length - (d.getD 0 0 * 256 + d.getD 1 0) - 4
              pPayload :=
                some (((d.drop 2).drop (d.getD 0 0 * 256 + d.getD 1 0)).drop 2) }) := by
  have hR' : d.length < 18446744073709551616 := hR
  unfold deserializePublish
  simp only [processPublishFlags_closed]
  generalize hq2 : UINT8_CHECK_BIT (t &&& 0x0F) 2 = q2
  generalize hq1 : UINT8_CHECK_BIT (t &&& 0x0F) 1 = q1
  generalize UINT8_CHECK_BIT (t &&& 0x0F) 0 = ret
  have hb0 := getD_lt_256 d hbytes 0
  have hb1 := getD_lt_256 d hbytes 1
  have hdec : UINT16_DECODE (d.getD 0 0) (d.getD 1 0) = d.getD 0 0 * 256 + d.getD 1 0 :=
    uint16_decode_bytes _ _ hb0 hb1
  generalize htl : d.getD 0 0 * 256 + d.getD 1 0 = tl at hdec ⊢
  have htlb : tl < 65536 := by omega
  have hi0 := getD_lt_256 d hbytes (2 + tl)
  have hi1 := getD_lt_256 d hbytes (3 + tl)
  have hdecp : UINT16_DECODE (d.getD (2 + tl) 0) (d.getD (3 + tl) 0)
      = d.getD (2 + tl) 0 * 256 + d.getD (3 + tl) 0 := uint16_decode_bytes _ _ hi0 hi1
  cases q2 <;> cases q1
  · -- QoS 0
    simp only [Bool.false_eq_true, false_and, and_self, if_false, if_true, ne_eq,
      not_true_eq_false, checkPublishRemainingLength, MQTT_MIN_PUBLISH_REMAINING_LENGTH_QOS0]
    by_cases h3 : d.length < 3
    · simp [h3]
    · simp only [h3, if_false, not_true_eq_false, not_false_eq_true, ne_eq, if_neg]
      rw [readByte_some d 0 (by omega), readByte_some d 1 (by omega)]
      simp only [hdec, addSize_eq tl 2 (by simp only [SIZE_MOD]; omega)]
      by_cases h4 : d.length < tl + 2
      · simp [h4]
      · have e : subSize (subSize d.length tl) 2 = d.length - tl - 2 := by
          rw [subSize_eq d.length tl (by omega) hR,
            subSize_eq _ 2 (by omega) (by simp only [SIZE_MOD]; omega)]
        simp [h4, MQTTQoS.toNat, e]
  · -- QoS 1
    simp only [Bool.false_eq_true, false_and, and_false, and_true, if_false, if_true, ne_eq,
      not_true_eq_false, checkPublishRemainingLength, MQTT_MIN_PUBLISH_REMAINING_LENGTH_QOS0,
      reduceCtorEq, addSize_eq 3 2 (by decide)]
    by_cases h3 : d.length < 5
    · simp [h3]
    · simp only [h3, if_false, not_true_eq_false, not_false_eq_true, ne_eq, if_neg]
      rw [readByte_some d 0 (by omega), readByte_some d 1 (by omega)]
      simp only [hdec, addSize_eq tl 2 (by simp only [SIZE_MOD]; omega),
        addSize_eq (tl + 2) 2 (by simp only [SIZE_MOD]; omega)]
      by_cases h4 : d.length < tl + 4
      · have h4' : d.length < tl + 2 + 2 := by omega
        simp [h4, h4']
      · have h4' : ¬ d.length < tl + 2 + 2 := by omega
        have e : subSize (subSize d.length tl) (mulSize 2 2) = d.length - tl - 4 := by
          rw [show mulSize 2 2 = 4 by decide, subSize_eq d.length tl (by omega) hR,
            subSize_eq _ 4 (by omega) (by simp only [SIZE_MOD]; omega)]
        simp only [h4, h4', if_false, not_true_eq_false, not_false_eq_true, ne_eq,
          Option.map_some', readByte_drop]
        rw [readByte_some d (2 + (tl + 0)) (by omega), readByte_some d (2 + (tl + 1)) (by omega)]
        rw [show 2 + (tl + 0) = 2 + tl by omega, show 2 + (tl + 1) = 3 + tl by omega]
        generalize d.getD (2 + tl) 0 = idHigh at hdecp ⊢
        generalize d.getD (3 + tl) 0 = idLow at hdecp ⊢
        by_cases hz : idHigh * 256 + idLow = 0
        · simp only [MQTTQoS.toNat, hdecp, hz, gt_iff_lt, Nat.lt_add_one, Nat.zero_lt_succ,
            if_true, ne_eq, reduceCtorEq, not_false_eq_true]
        · simp only [MQTTQoS.toNat, hdecp, hz, gt_iff_lt, Nat.lt_add_one, Nat.zero_lt_succ,
            if_true, if_false, ne_eq, reduceCtorEq, not_false_eq_true, not_true_eq_false, e]
  · -- QoS 2
    simp only [Bool.false_eq_true, false_and, and_false, and_true, if_false, if_true, ne_eq,
      not_true_eq_false, checkPublishRemainingLength, MQTT_MIN_PUBLISH_REMAINING_LENGTH_QOS0,
      reduceCtorEq, addSize_eq 3 2 (by decide)]
    by_cases h3 : d.length < 5
    · simp [h3]
    · simp only [h3, if_false, not_true_eq_false, not_false_eq_true, ne_eq, if_neg]
      rw [readByte_some d 0 (by omega), readByte_some d 1 (by omega)]
      simp only [hdec, addSize_eq tl 2 (by simp only [SIZE_MOD]; omega),
        addSize_eq (tl + 2) 2 (by simp only [SIZE_MOD]; omega)]
      by_cases h4 : d.length < tl + 4
      · have h4' : d.length < tl + 2 + 2 := by omega
        simp [h4, h4']
      · have h4' : ¬ d.length < tl + 2 + 2 := by omega
        have e : subSize (subSize d.length tl) (mulSize 2 2) = d.length - tl - 4 := by
          rw [show mulSize 2 2 = 4 by decide, subSize_eq d.length tl (by omega) hR,
            subSize_eq _ 4 (by omega) (by simp only [SIZE_MOD]; omega)]
        simp only [h4, h4', if_false, not_true_eq_false, not_false_eq_true, ne_eq,
          Option.map_some', readByte_drop]
        rw [readByte_some d (2 + (tl + 0)) (by omega), readByte_some d (2 + (tl + 1)) (by omega)]
        rw [show 2 + (tl + 0) = 2 + tl by omega, show 2 + (tl + 1) = 3 + tl by omega]
        generalize d.getD (2 + tl) 0 = idHigh at hdecp ⊢
        generalize d.getD (3 + tl) 0 = idLow at hdecp ⊢
        by_cases hz : idHigh * 256 + idLow = 0
        · simp only [MQTTQoS.toNat, hdecp, hz, gt_iff_lt, Nat.lt_add_one, Nat.zero_lt_succ,
            if_true, ne_eq, reduceCtorEq, not_false_eq_true]
        · simp only [MQTTQoS.toNat, hdecp, hz, gt_iff_lt, Nat.lt_add_one, Nat.zero_lt_succ,
            if_true, if_false, ne_eq, reduceCtorEq, not_false_eq_true, not_true_eq_false, e]
  · -- both QoS bits
    simp


set_option maxRecDepth 100000 in
theorem publish_type_bits : ∀ t, t < 256 →
    UINT8_CHECK_BIT (t &&& 0x0F) 2 = t.testBit 2
    ∧ UINT8_CHECK_BIT (t &&& 0x0F) 1 = t.testBit 1
    ∧ UINT8_CHECK_BIT (t &&& 0x0F) 0 = t.testBit 0
    ∧ ((t &&& 0xF0) = 0x30 ↔ t / 16 = 3) := by
  decide

/-- C12: for a packet whose remaining data has the declared length R,
`MQTT_DeserializePublish` returns `MQTTBadParameter` when the high nibble of
the type byte is not 3; otherwise `MQTTBadResponse` if both QoS bits are set;
otherwise `MQTTBadResponse` if R < 3 (QoS 0) or R < 5 (QoS 1, 2); otherwise,
with the topic length the big-endian value of data bytes 0..1,
`MQTTBadResponse` if R < topic length + 2 (QoS 0) or R < topic length + 4
(QoS 1, 2); otherwise `MQTTBadResponse` if QoS is 1 or 2 and the big-endian
packet identifier at offset 2 + topic length is zero; otherwise `MQTTSuccess`.
It holds for every type byte, DUP with QoS 0 included. -/
theorem deserializePublish_status (t pid0 : Nat) (out0 : MQTTPublishInfo) (d : List Nat)
    (ht : t < 256) (hbytes : ∀ b ∈ d, b < 256) (hR : d.length < SIZE_MOD) :
    ∃ pid' out,
      MQTT_DeserializePublish (some ⟨t, some d, d.length⟩) (some pid0) (some out0)
        = some
          (if t / 16 ≠ 3 then MQTTStatus.MQTTBadParameter
            else if t.testBit 1 = true ∧ t.testBit 2 = true then MQTTStatus.MQTTBadResponse
            else if d.length
                < (if t.testBit 1 = false ∧ t.testBit 2 = false then 3 else 5) then
              MQTTStatus.MQTTBadResponse
            else if d.length < d.getD 0 0 * 256 + d.getD 1 0
                + (if t.testBit 1 = false ∧ t.testBit 2 = false then 2 else 4) then
              MQTTStatus.MQTTBadResponse
            else if ¬ (t.testBit 1 = false ∧ t.testBit 2 = false)
                ∧ d.getD (2 + (d.getD 0 0 * 256 + d.getD 1 0)) 0 * 256
                  + d.getD (3 + (d.getD 0 0 * 256 + d.getD 1 0)) 0 = 0 then
              MQTTStatus.MQTTBadResponse
            else MQTTStatus.MQTTSuccess,
           some pid', some out) := by
  obtain ⟨hb2, hb1, -, hnib⟩ := publish_type_bits t ht
  unfold MQTT_DeserializePublish
  simp only [MQTT_PACKET_TYPE_PUBLISH]
  by_cases hn : t / 16 = 3
  · have hn' : (t &&& 0xF0) = 0x30 := hnib.mpr hn
    simp only [hn', ne_eq, not_true_eq_false, if_false, hn]
    rw [deserializePublish_closed t pid0 out0 d hbytes hR, hb2, hb1]
    generalize t.testBit 2 = q2
    generalize t.testBit 1 = q1
    generalize d.getD 0 0 * 256 + d.getD 1 0 = tl
    generalize d.getD (2 + tl) 0 * 256 + d.getD (3 + tl) 0 = pid
    cases q2 <;> cases q1 <;>
      simp only [Bool.false_eq_true, Bool.true_eq_false, eq_self_iff_true, and_self,
        and_false, false_and, and_true, if_true, if_false, not_true_eq_false,
        not_false_eq_true, true_and] <;>
      first
        | exact ⟨_, _, rfl⟩
        | (split_ifs <;> exact ⟨_, _, rfl⟩)
  · have hn' : ¬ (t &&& 0xF0) = 0x30 := fun h => hn (hnib.mp h)
    simp only [hn', ne_eq, not_false_eq_true, if_true, hn]
    exact ⟨_, _, rfl⟩


/-! ## Deserialization of acknowledgements -/

/-- The loop of `readSubackStatus` over return codes that all lie inside the
data: `MQTTBadResponse` if one of the codes still to read is not 0, 1, 2 or
0x80, else `MQTTServerRefused` if one of them is 0x80, else the status so
far. -/
theorem readSubackStatusLoop_closed (p : List Nat) :
    ∀ (n i : Nat) (status : MQTTStatus), i + n = p.length →
      status ≠ MQTTStatus.MQTTBadResponse →
      readSubackStatusLoop p.length (some p) i status
        = some
          (if ∃ b ∈ p.drop i, ¬ (b = 0x00 ∨ b = 0x01 ∨ b = 0x02 ∨ b = 0x80) then
              MQTTStatus.MQTTBadResponse
            else if 0x80 ∈ p.drop i then MQTTStatus.MQTTServerRefused
            else status) := by
  intro n
  induction n with
  | zero =>
    intro i status hi _
    rw [readSubackStatusLoop]
    have hi' : ¬ i < p.length := by omega
    have hd : p.drop i = [] := List.drop_eq_nil_of_le (by omega)
    simp [hi', hd]
  | succ n ih =>
    intro i status hi hs
    rw [readSubackStatusLoop]
    have hi' : i < p.length := by omega
    have hd : p.drop i = p.getD i 0 :: p.drop (i + 1) := by
      rw [List.getD_eq_getElem _ _ hi']
      exact List.drop_eq_getElem_cons hi'
    rw [if_pos hi', readByte_some p i hi', hd]
    generalize p.getD i 0 = b
    simp only
    by_cases hok : b = 0x00 ∨ b = 0x01 ∨ b = 0x02
    · have hne : b ≠ 0x80 := by omega
      rw [if_pos hok, if_neg hs, ih (i + 1) status (by omega) hs]
      have hok' : b = 0x00 ∨ b = 0x01 ∨ b = 0x02 ∨ b = 0x80 := by omega
      simp only [List.mem_cons, exists_eq_or_imp, hok', not_true_eq_false, false_or]
      have hne' : ¬ (0x80 = b) := fun h => hne h.symm
      simp only [hne', false_or]
    · rw [if_neg hok]
      by_cases h80 : b = 0x80
      · rw [if_pos h80, if_neg (by decide),
          ih (i + 1) MQTTStatus.MQTTServerRefused (by omega) (by decide)]
        subst h80
        simp only [List.mem_cons, exists_eq_or_imp, true_or, or_true, not_true_eq_false,
          false_or, if_true]
        split_ifs <;> rfl
      · rw [if_neg h80, if_pos rfl]
        have hok' : ¬ (b = 0x00 ∨ b = 0x01 ∨ b = 0x02 ∨ b = 0x80) := by omega
        simp only [List.mem_cons, exists_eq_or_imp, hok', not_false_eq_true, true_or, if_true]

/-- Closed form of `deserializeSuback` on a packet whose remaining data has
the declared length. -/
theorem deserializeSuback_closed (t pid0 : Nat) (d : List Nat) (hbytes : ∀ b ∈ d, b < 256)
    (hR : d.length < SIZE_MOD) :
    deserializeSuback ⟨t, some d, d.length⟩ pid0
      = some
        (if d.length < 3 then (MQTTStatus.MQTTBadResponse, pid0)
          else
            (if ∃ b ∈ d.drop 2, ¬ (b = 0x00 ∨ b = 0x01 ∨ b = 0x02 ∨ b = 0x80) then
                MQTTStatus.MQTTBadResponse
              else if 0x80 ∈ d.drop 2 then MQTTStatus.MQTTServerRefused
              else MQTTStatus.MQTTSuccess,
             d.getD 0 0 * 256 + d.getD 1 0)) := by
  unfold deserializeSuback
  conv => lhs; zeta
  by_cases h3 : d.length < 3
  · have h3' : (⟨t, some d, d.length⟩ : MQTTPacketInfo).remainingLength < 3 := h3
    rw [if_pos h3', if_pos h3]
  · have h3' : ¬ (⟨t, some d, d.length⟩ : MQTTPacketInfo).remainingLength < 3 := h3
    have e0 : readByte (⟨t, some d, d.length⟩ : MQTTPacketInfo).pRemainingData 0
        = some (d.getD 0 0) := readByte_some d 0 (by omega)
    have e1 : readByte (⟨t, some d, d.length⟩ : MQTTPacketInfo).pRemainingData 1
        = some (d.getD 1 0) := readByte_some d 1 (by omega)
    have e2 : subSize (⟨t, some d, d.length⟩ : MQTTPacketInfo).remainingLength 2
        = (d.drop 2).length := by
      show subSize d.length 2 = (d.drop 2).length
      rw [subSize_eq _ 2 (by omega) hR, List.length_drop]
    have e3 : Option.map (fun p => List.drop 2 p)
        (⟨t, some d, d.length⟩ : MQTTPacketInfo).pRemainingData = some (d.drop 2) := rfl
    rw [if_neg h3', if_neg h3, e0, e1, e2, e3, readSubackStatus,
      readSubackStatusLoop_closed (d.drop 2) (d.drop 2).length 0 MQTTStatus.MQTTSuccess
        (by omega) (by decide)]
    simp only [List.drop_zero]
    rw [uint16_decode_bytes _ _ (getD_lt_256 d hbytes 0) (getD_lt_256 d hbytes 1)]

theorem deserializePublish_status_witness :
    (0x36 < 256 ∧ (∀ b ∈ [0x00, 0x01, 0x61], b < 256))
    ∧ ∃ pid' out,
        MQTT_DeserializePublish (some ⟨0x36, some [0x00, 0x01, 0x61], 3⟩) (some 0)
            (some ⟨MQTTQoS.MQTTQoS0, false, false, none, 0, none, 0⟩)
          = some (MQTTStatus.MQTTBadResponse, some pid', some out) :=
  ⟨by decide, by
    simpa using deserializePublish_status 0x36 0
      ⟨MQTTQoS.MQTTQoS0, false, false, none, 0, none, 0⟩ [0x00, 0x01, 0x61]
      (by decide) (by decide) (by decide)⟩

/-- C11: `MQTT_DeserializeAck` on the CONNACK `20 02 00 03` and on the CONNACK
`20 02 00 00`, both with the session-present bit clear, when the output
variable held `true` before the call: the variable still holds `true`
afterwards, because `deserializeConnack` only ever stores `true`. With the
flags byte 0x01 and return code 0 the variable is set to `true`. -/
theorem connack_session_present_not_cleared :
    MQTT_DeserializeAck (some ⟨0x20, some [0x00, 0x03], 2⟩) (some 0) (some true)
      = some (MQTTStatus.MQTTServerRefused, some 0, some true)
    ∧ MQTT_DeserializeAck (some ⟨0x20, some [0x00, 0x00], 2⟩) (some 0) (some true)
      = some (MQTTStatus.MQTTSuccess, some 0, some true)
    ∧ MQTT_DeserializeAck (some ⟨0x20, some [0x01, 0x00], 2⟩) (some 0) (some false)
      = some (MQTTStatus.MQTTSuccess, some 0, some true) := by
  decide

/-- C13: a PUBLISH with type byte 0x38 (DUP set, QoS bits 00), topic "a" and
an empty payload is accepted: `MQTT_DeserializePublish` returns
`MQTTSuccess`. -/
theorem deserializePublish_dup_qos0_accepted :
    MQTT_DeserializePublish (some ⟨0x38, some [0x00, 0x01, 0x61], 3⟩) (some 0)
        (some ⟨MQTTQoS.MQTTQoS0, false, false, none, 0, none, 0⟩)
      = some (MQTTStatus.MQTTSuccess, some 0,
          some ⟨MQTTQoS.MQTTQoS0, false, false, some [0x61], 1, some [], 0⟩) := by
  decide

/-- The dispatch of `MQTT_DeserializePublish` for a type byte with high
nibble 3. -/
theorem deserializePublish_dispatch (t R pid0 : Nat) (out0 : MQTTPublishInfo)
    (d : Option (List Nat)) (hn : (t &&& 0xF0) = 0x30) :
    MQTT_DeserializePublish (some ⟨t, d, R⟩) (some pid0) (some out0)
      = match deserializePublish ⟨t, d, R⟩ pid0 out0 with
        | none => none
        | some r => some (r.1, some r.2.1, some r.2.2) := by
  simp [MQTT_DeserializePublish, MQTT_PACKET_TYPE_PUBLISH, hn]

/-- Result of `MQTT_DeserializePublish` for a type byte with high nibble 3
and both QoS bits clear: it depends on the type byte through the retain bit
only. -/
theorem deserializePublish_qos0_closed (t pid0 : Nat) (out0 : MQTTPublishInfo) (d : List Nat)
    (hn : (t &&& 0xF0) = 0x30) (h2 : UINT8_CHECK_BIT (t &&& 0x0F) 2 = false)
    (h1 : UINT8_CHECK_BIT (t &&& 0x0F) 1 = false)
    (hbytes : ∀ b ∈ d, b < 256) (hR : d.length < SIZE_MOD) :
    MQTT_DeserializePublish (some ⟨t, some d, d.length⟩) (some pid0) (some out0)
      = if d.length < 3 then
          some (MQTTStatus.MQTTBadResponse, some pid0,
            some { out0 with
              qos := MQTTQoS.MQTTQoS0
              retain := UINT8_CHECK_BIT (t &&& 0x0F) 0 })
        else if d.length < d.getD 0 0 * 256 + d.getD 1 0 + 2 then
          some (MQTTStatus.MQTTBadResponse, some pid0,
            some { out0 with
              qos := MQTTQoS.MQTTQoS0
              retain := UINT8_CHECK_BIT (t &&& 0x0F) 0
              topicNameLength := d.getD 0 0 * 256 + d.getD 1 0 })
        else
          some (MQTTStatus.MQTTSuccess, some pid0,
            some { out0 with
              qos := MQTTQoS.MQTTQoS0
              retain := UINT8_CHECK_BIT (t &&& 0x0F) 0
              topicNameLength := d.getD 0 0 * 256 + d.getD 1 0
              pTopicName := some (d.drop 2)
              payloadLength := d.length - (d.getD 0 0 * 256 + d.getD 1 0) - 2
              pPayload := some ((d.drop 2).drop (d.getD 0 0 * 256 + d.getD 1 0)) }) := by
  rw [deserializePublish_dispatch t d.length pid0 out0 (some d) hn,
    deserializePublish_closed t pid0 out0 d hbytes hR, h2, h1]
  generalize d.getD 0 0 * 256 + d.getD 1 0 = tl
  simp only [Bool.false_eq_true, and_self, if_false, if_true]
  by_cases h3 : d.length < 3
  · simp only [h3, if_true]
  · by_cases h4 : d.length < tl + 2
    · simp only [h3, h4, if_true, if_false]
    · simp only [h3, h4, if_false]

/-- C13, amended: `MQTT_DeserializePublish` does not examine the DUP bit. For
the type bytes 0x38 and 0x39 (DUP set, QoS bits 00) and remaining data of the
declared length R it returns exactly what it returns for 0x30 and 0x31 on the
same data: `MQTTBadResponse` if R < 3 or R < topic length + 2, and
`MQTTSuccess` otherwise. -/
theorem deserializePublish_dup_qos0 (t pid0 : Nat) (out0 : MQTTPublishInfo) (d : List Nat)
    (ht : t = 0x38 ∨ t = 0x39) (hbytes : ∀ b ∈ d, b < 256) (hR : d.length < SIZE_MOD) :
    MQTT_DeserializePublish (some ⟨t, some d, d.length⟩) (some pid0) (some out0)
      = MQTT_DeserializePublish (some ⟨t - 8, some d, d.length⟩) (some pid0) (some out0)
    ∧ ∃ out,
        MQTT_DeserializePublish (some ⟨t, some d, d.length⟩) (some pid0) (some out0)
          = some (if d.length < 3 ∨ d.length < d.getD 0 0 * 256 + d.getD 1 0 + 2 then
                MQTTStatus.MQTTBadResponse
              else MQTTStatus.MQTTSuccess, some pid0, some out) := by
  have key : ∀ a b : Nat, (a &&& 0xF0) = 0x30 → (b &&& 0xF0) = 0x30 →
      UINT8_CHECK_BIT (a &&& 0x0F) 2 = false → UINT8_CHECK_BIT (a &&& 0x0F) 1 = false →
      UINT8_CHECK_BIT (b &&& 0x0F) 2 = false → UINT8_CHECK_BIT (b &&& 0x0F) 1 = false →
      UINT8_CHECK_BIT (a &&& 0x0F) 0 = UINT8_CHECK_BIT (b &&& 0x0F) 0 →
      MQTT_DeserializePublish (some ⟨a, some d, d.length⟩) (some pid0) (some out0)
        = MQTT_DeserializePublish (some ⟨b, some d, d.length⟩) (some pid0) (some out0)
      ∧ ∃ out,
          MQTT_DeserializePublish (some ⟨a, some d, d.length⟩) (some pid0) (some out0)
            = some (if d.length < 3 ∨ d.length < d.getD 0 0 * 256 + d.getD 1 0 + 2 then
                  MQTTStatus.MQTTBadResponse
                else MQTTStatus.MQTTSuccess, some pid0, some out) := by
    intro a b ha hb a2 a1 b2 b1 e0
    rw [deserializePublish_qos0_closed a pid0 out0 d ha a2 a1 hbytes hR,
      deserializePublish_qos0_closed b pid0 out0 d hb b2 b1 hbytes hR, e0]
    refine ⟨rfl, ?_⟩
    generalize d.getD 0 0 * 256 + d.getD 1 0 = tl
    by_cases h3 : d.length < 3
    · simp only [h3, true_or, if_true]
      exact ⟨_, rfl⟩
    · by_cases h4 : d.length < tl + 2
      · simp only [h3, h4, or_true, if_true, if_false]
        exact ⟨_, rfl⟩
      · simp only [h3, h4, or_self, if_false]
        exact ⟨_, rfl⟩
  rcases ht with rfl | rfl
  · exact key 0x38 (0x38 - 8) (by decide) (by decide) (by decide) (by decide) (by decide)
      (by decide) (by decide)
  · exact key 0x39 (0x39 - 8) (by decide) (by decide) (by decide) (by decide) (by decide)
      (by decide) (by decide)

theorem deserializePublish_dup_qos0_witness :
    ((0x38 = 0x38 ∨ 0x38 = 0x39) ∧ (∀ b ∈ [0x00, 0x01, 0x61], b < 256))
    ∧ ∃ out,
        MQTT_DeserializePublish (some ⟨0x38, some [0x00, 0x01, 0x61], 3⟩) (some 0)
            (some ⟨MQTTQoS.MQTTQoS0, false, false, none, 0, none, 0⟩)
          = some (MQTTStatus.MQTTSuccess, some 0, some out) :=
  ⟨by decide, by
    simpa using (deserializePublish_dup_qos0 0x38 0
      ⟨MQTTQoS.MQTTQoS0, false, false, none, 0, none, 0⟩ [0x00, 0x01, 0x61]
      (by decide) (by decide) (by decide)).2⟩

/-- C14: a PUBLISH with QoS 1, DUP set, topic "a", packet identifier 7 and
payload "hi" is serialized by `MQTT_SerializePublish` to
`3A 07 00 01 61 00 07 68 69`; `MQTT_DeserializePublish` of this packet into a
record whose dup flag was `false` succeeds with the dup flag still `false`
(bit 3 of 0x3A is set), and into a record whose dup flag was `true` a packet
with DUP clear (0x32) succeeds with the dup flag still `true`:
`processPublishFlags` tests the DUP bit and stores nothing. -/
theorem deserializePublish_dup_not_stored :
    MQTT_SerializePublish
        (some ⟨MQTTQoS.MQTTQoS1, false, true, some [0x61], 1, some [0x68, 0x69], 2⟩) 7 7
        (some ⟨List.replicate 9 0, 9⟩)
      = ⟨MQTTStatus.MQTTSuccess, [0x3A, 0x07, 0x00, 0x01, 0x61, 0x00, 0x07, 0x68, 0x69], true⟩
    ∧ MQTT_DeserializePublish
        (some ⟨0x3A, some [0x00, 0x01, 0x61, 0x00, 0x07, 0x68, 0x69], 7⟩) (some 0)
        (some ⟨MQTTQoS.MQTTQoS0, false, false, none, 0, none, 0⟩)
      = some (MQTTStatus.MQTTSuccess, some 7,
          some ⟨MQTTQoS.MQTTQoS1, false, false, some [0x61, 0x00, 0x07, 0x68, 0x69], 1,
            some [0x68, 0x69], 2⟩)
    ∧ MQTT_DeserializePublish
        (some ⟨0x32, some [0x00, 0x01, 0x61, 0x00, 0x07, 0x68, 0x69], 7⟩) (some 0)
        (some ⟨MQTTQoS.MQTTQoS0, false, true, none, 0, none, 0⟩)
      = some (MQTTStatus.MQTTSuccess, some 7,
          some ⟨MQTTQoS.MQTTQoS1, false, true, some [0x61, 0x00, 0x07, 0x68, 0x69], 1,
            some [0x68, 0x69], 2⟩) := by
  refine ⟨?_, by decide, by decide⟩
  simp +decide [MQTT_SerializePublish, serializePublishCommon, encodeString,
    encodeRemainingLength_one, addSize, remainingLengthEncodedSize, SIZE_MOD, UINT8_SET_BIT,
    UINT16_HIGH_BYTE, UINT16_LOW_BYTE, memcpyBytes, MQTTQoS.toNat, MQTT_PACKET_TYPE_PUBLISH,
    MQTT_PUBLISH_FLAG_QOS1, MQTT_PUBLISH_FLAG_QOS2, MQTT_PUBLISH_FLAG_RETAIN,
    MQTT_PUBLISH_FLAG_DUP]

theorem deserializeAck_suback (d : List Nat) (R pid0 : Nat) (sp : Bool) :
    MQTT_DeserializeAck (some ⟨0x90, some d, R⟩) (some pid0) (some sp)
      = match deserializeSuback ⟨0x90, some d, R⟩ pid0 with
        | none => none
        | some r => some (r.1, some r.2, some sp) := by
  simp [MQTT_DeserializeAck, MQTT_PACKET_TYPE_CONNACK, MQTT_PACKET_TYPE_SUBACK]

/-- C15: for a SUBACK (type 0x90) whose non-null remaining data has the
declared length R, `MQTT_DeserializeAck` returns `MQTTBadResponse` (packet
identifier untouched) if R < 3; otherwise it outputs the big-endian value of
data bytes 0..1 as the packet identifier and returns `MQTTBadResponse` if one
of the R - 2 return codes is not 0x00, 0x01, 0x02 or 0x80, else
`MQTTServerRefused` if one of them is 0x80 (wherever it stands), else
`MQTTSuccess`. -/
theorem deserializeAck_suback_status (d : List Nat) (pid0 : Nat) (sp : Bool)
    (hbytes : ∀ b ∈ d, b < 256) (hR : d.length < SIZE_MOD) :
    MQTT_DeserializeAck (some ⟨0x90, some d, d.length⟩) (some pid0) (some sp)
      = if d.length < 3 then some (MQTTStatus.MQTTBadResponse, some pid0, some sp)
        else some
          (if ∃ b ∈ d.drop 2, ¬ (b = 0x00 ∨ b = 0x01 ∨ b = 0x02 ∨ b = 0x80) then
              MQTTStatus.MQTTBadResponse
            else if 0x80 ∈ d.drop 2 then MQTTStatus.MQTTServerRefused
            else MQTTStatus.MQTTSuccess,
           some (d.getD 0 0 * 256 + d.getD 1 0), some sp) := by
  rw [deserializeAck_suback, deserializeSuback_closed 0x90 pid0 d hbytes hR]
  by_cases h3 : d.length < 3
  · simp only [h3, if_true]
  · simp only [h3, if_false]

theorem deserializeAck_suback_status_witness :
    MQTT_DeserializeAck (some ⟨0x90, some [0x00, 0x07, 0x80, 0x01], 4⟩) (some 0) (some false)
      = some (MQTTStatus.MQTTServerRefused, some 7, some false) := by
  have h := deserializeAck_suback_status [0x00, 0x07, 0x80, 0x01] 0 false (by decide)
    (by decide)
  simpa using h

/-- C16: the SUBACK `90 03 00 00 01`, whose packet identifier bytes are
`00 00`, is accepted: `MQTT_DeserializeAck` returns `MQTTSuccess` and outputs
the packet identifier 0; with the return code 0x80 it returns
`MQTTServerRefused` and outputs 0 as well. The PUBACK `40 02 00 00` is
rejected with `MQTTBadResponse`: `deserializeSimpleAck` has the check for a
zero identifier that `deserializeSuback` lacks. -/
theorem suback_zero_packet_id_accepted :
    MQTT_DeserializeAck (some ⟨0x90, some [0x00, 0x00, 0x01], 3⟩) (some 5) (some false)
      = some (MQTTStatus.MQTTSuccess, some 0, some false)
    ∧ MQTT_DeserializeAck (some ⟨0x90, some [0x00, 0x00, 0x80], 3⟩) (some 5) (some false)
      = some (MQTTStatus.MQTTServerRefused, some 0, some false)
    ∧ MQTT_DeserializeAck (some ⟨0x40, some [0x00, 0x00], 2⟩) (some 5) (some false)
      = some (MQTTStatus.MQTTBadResponse, some 0, some false) := by
  refine ⟨?_, ?_, by decide⟩
  · rw [deserializeAck_suback,
      show deserializeSuback ⟨0x90, some [0x00, 0x00, 0x01], 3⟩ 5 = _ from
        deserializeSuback_closed 0x90 5 [0x00, 0x00, 0x01] (by decide) (by decide)]
    simp
  · rw [deserializeAck_suback,
      show deserializeSuback ⟨0x90, some [0x00, 0x00, 0x80], 3⟩ 5 = _ from
        deserializeSuback_closed 0x90 5 [0x00, 0x00, 0x80] (by decide) (by decide)]
    simp

/-- C17: for a PUBACK, PUBREC, PUBREL, PUBCOMP or UNSUBACK (type 0x40, 0x50,
0x62, 0x70, 0xB0) with non-null remaining data, `MQTT_DeserializeAck` returns
`MQTTSuccess` exactly when the remaining length is 2 and the big-endian value
of the two data bytes is non-zero, and then outputs that value as the packet
identifier; in every other case it returns `MQTTBadResponse`. -/
theorem deserializeAck_simple (t R pid0 : Nat) (sp : Bool) (d : List Nat)
    (ht : t = 0x40 ∨ t = 0x50 ∨ t = 0x62 ∨ t = 0x70 ∨ t = 0xB0)
    (hbytes : ∀ b ∈ d, b < 256) (hlen : R = 2 → 2 ≤ d.length) :
    MQTT_DeserializeAck (some ⟨t, some d, R⟩) (some pid0) (some sp)
      = some
        (if R = 2 ∧ d.getD 0 0 * 256 + d.getD 1 0 ≠ 0 then
            (MQTTStatus.MQTTSuccess, some (d.getD 0 0 * 256 + d.getD 1 0), some sp)
          else
            (MQTTStatus.MQTTBadResponse, some (if R = 2 then 0 else pid0), some sp)) := by
  have hdisp : MQTT_DeserializeAck (some ⟨t, some d, R⟩) (some pid0) (some sp)
      = match deserializeSimpleAck ⟨t, some d, R⟩ pid0 with
        | none => none
        | some r => some (r.1, some r.2, some sp) := by
    rcases ht with rfl | rfl | rfl | rfl | rfl <;>
      simp [MQTT_DeserializeAck, MQTT_PACKET_TYPE_CONNACK, MQTT_PACKET_TYPE_SUBACK,
        MQTT_PACKET_TYPE_PINGRESP, MQTT_PACKET_TYPE_UNSUBACK, MQTT_PACKET_TYPE_PUBACK,
        MQTT_PACKET_TYPE_PUBREC, MQTT_PACKET_TYPE_PUBREL, MQTT_PACKET_TYPE_PUBCOMP]
  rw [hdisp]
  unfold deserializeSimpleAck
  simp only [MQTT_PACKET_SIMPLE_ACK_REMAINING_LENGTH]
  by_cases h2 : R = 2
  · have hl := hlen h2
    rw [readByte_some d 0 (by omega), readByte_some d 1 (by omega)]
    have h0 := getD_lt_256 d hbytes 0
    have h1 := getD_lt_256 d hbytes 1
    simp only [uint16_decode_bytes _ _ h0 h1, h2, ne_eq, not_true_eq_false, if_false,
      true_and, if_true]
    generalize d.getD 0 0 * 256 + d.getD 1 0 = v
    by_cases hz : v = 0
    · simp only [hz, if_true, not_true_eq_false, if_false]
    · simp only [hz, if_false, not_false_eq_true, if_true]
  · simp [h2]

theorem deserializeAck_simple_witness :
    ((0x40 = 0x40 ∨ 0x40 = 0x50 ∨ 0x40 = 0x62 ∨ 0x40 = 0x70 ∨ 0x40 = 0xB0)
      ∧ (∀ b ∈ [0x00, 0x2A], b < 256))
    ∧ MQTT_DeserializeAck (some ⟨0x40, some [0x00, 0x2A], 2⟩) (some 0) (some false)
      = some (MQTTStatus.MQTTSuccess, some 42, some false) :=
  ⟨by decide, by
    simpa using deserializeAck_simple 0x40 2 0 false [0x00, 0x2A] (by decide) (by decide)
      (by decide)⟩

/-- C18: a PINGRESP described as type 0xD0, remaining length 0 and no
remaining-data buffer (null pointer) is refused: `MQTT_DeserializeAck` returns
`MQTTBadParameter`, because the explicit null check on the data pointer comes
before the dispatch on the packet type and applies to every type. With a
(zero-length) buffer attached the same packet gives `MQTTSuccess`, and
`MQTTBadResponse` when the remaining length is 1. -/
theorem pingresp_null_data_refused :
    MQTT_DeserializeAck (some ⟨0xD0, none, 0⟩) (some 0) (some false)
      = some (MQTTStatus.MQTTBadParameter, some 0, some false)
    ∧ MQTT_DeserializeAck (some ⟨0xD0, some [], 0⟩) (some 0) (some false)
      = some (MQTTStatus.MQTTSuccess, some 0, some false)
    ∧ MQTT_DeserializeAck (some ⟨0xD0, some [], 1⟩) (some 0) (some false)
      = some (MQTTStatus.MQTTBadResponse, some 0, some false) := by
  decide

/-- C18, amended: for every packet of type PINGRESP (0xD0) passed with
non-null output pointers, `MQTT_DeserializeAck` returns `MQTTBadParameter`
when the remaining-data pointer is null (the null check precedes the dispatch
on the type), and with a non-null data pointer `MQTTSuccess` when the
remaining length is 0 and `MQTTBadResponse` when it is not; the packet
identifier and the session-present flag are left as they were. -/
theorem deserializeAck_pingresp (data : Option (List Nat)) (R pid0 : Nat) (sp : Bool) :
    MQTT_DeserializeAck (some ⟨0xD0, data, R⟩) (some pid0) (some sp)
      = some (if data = none then MQTTStatus.MQTTBadParameter
              else if R = 0 then MQTTStatus.MQTTSuccess
              else MQTTStatus.MQTTBadResponse, some pid0, some sp) := by
  cases data with
  | none => simp [MQTT_DeserializeAck]
  | some d =>
    by_cases hR : R = 0
    · simp +decide [MQTT_DeserializeAck, deserializePingresp, MQTT_PACKET_TYPE_CONNACK,
        MQTT_PACKET_TYPE_SUBACK, MQTT_PACKET_TYPE_PINGRESP,
        MQTT_PACKET_PINGRESP_REMAINING_LENGTH, hR]
    · simp +decide [MQTT_DeserializeAck, deserializePingresp, MQTT_PACKET_TYPE_CONNACK,
        MQTT_PACKET_TYPE_SUBACK, MQTT_PACKET_TYPE_PINGRESP,
        MQTT_PACKET_PINGRESP_REMAINING_LENGTH, hR]

theorem deserializeAck_pingresp_witness :
    MQTT_DeserializeAck (some ⟨0xD0, some [0x2A], 0⟩) (some 5) (some true)
      = some (MQTTStatus.MQTTSuccess, some 5, some true)
    ∧ MQTT_DeserializeAck (some ⟨0xD0, some [0x2A], 1⟩) (some 5) (some true)
      = some (MQTTStatus.MQTTBadResponse, some 5, some true) :=
  ⟨by simpa using deserializeAck_pingresp (some [0x2A]) 0 5 true,
    by simpa using deserializeAck_pingresp (some [0x2A]) 1 5 true⟩

/-! ## Limits of the sizing functions -/

/-- Closed form of `MQTT_GetPublishPacketSize` for non-null arguments and a
non-null, non-empty topic: the limit is applied to the size of the whole
packet. -/
theorem getPublishPacketSize_closed (info : MQTTPublishInfo) (r0 p0 : Nat)
    (ht : info.pTopicName ≠ none) (ht0 : info.topicNameLength ≠ 0)
    (htl : info.topicNameLength < 65536) (hpl : info.payloadLength < SIZE_MOD) :
    MQTT_GetPublishPacketSize (some info) (some r0) (some p0)
      = if 1 + remainingLengthEncodedSize (2 + info.topicNameLength
              + (if info.qos = MQTTQoS.MQTTQoS0 then 0 else 2) + info.payloadLength)
            + (2 + info.topicNameLength
              + (if info.qos = MQTTQoS.MQTTQoS0 then 0 else 2) + info.payloadLength)
            ≤ 268435455
        then (MQTTStatus.MQTTSuccess,
          some (2 + info.topicNameLength
            + (if info.qos = MQTTQoS.MQTTQoS0 then 0 else 2) + info.payloadLength),
          some (1 + remainingLengthEncodedSize (2 + info.topicNameLength
              + (if info.qos = MQTTQoS.MQTTQoS0 then 0 else 2) + info.payloadLength)
            + (2 + info.topicNameLength
              + (if info.qos = MQTTQoS.MQTTQoS0 then 0 else 2) + info.payloadLength)))
        else (MQTTStatus.MQTTBadParameter, some r0, some p0) := by
  unfold MQTT_GetPublishPacketSize
  simp only
  rw [if_neg (by simp [ht, ht0]), calculatePublishPacketSize_closed info r0 p0 htl hpl]
  have e : info.topicNameLength + 2 + (if info.qos = MQTTQoS.MQTTQoS0 then 0 else 2)
      + info.payloadLength
      = 2 + info.topicNameLength + (if info.qos = MQTTQoS.MQTTQoS0 then 0 else 2)
        + info.payloadLength := by omega
  rw [e]
  generalize 2 + info.topicNameLength + (if info.qos = MQTTQoS.MQTTQoS0 then 0 else 2)
      + info.payloadLength = R
  have e2 : R + 1 + remainingLengthEncodedSize R = 1 + remainingLengthEncodedSize R + R := by
    omega
  rw [e2]
  by_cases h : 1 + remainingLengthEncodedSize R + R ≤ 268435455
  · simp [h]
  · simp [h]

/-- Result of `MQTT_GetPublishPacketSize` for a QoS 0 PUBLISH with a topic of
one byte and a payload length of 268,435,448, whatever the payload pointer. -/
theorem getPublishPacketSize_268435448 (payload : Option (List Nat)) :
    MQTT_GetPublishPacketSize
        (some ⟨MQTTQoS.MQTTQoS0, false, false, some [0x61], 1, payload, 268435448⟩)
        (some 0) (some 0)
      = (MQTTStatus.MQTTBadParameter, some 0, some 0) := by
  rw [getPublishPacketSize_closed _ 0 0 (by simp) (by simp) (by simp) (by simp [SIZE_MOD])]
  simp +decide [remainingLengthEncodedSize]

/-- C19: for a QoS 0 PUBLISH with the topic "a" and a payload of 268,435,448
bytes the remaining length is 2 + 1 + 268,435,448 = 268,435,451, which is not
above 268,435,455, and `MQTT_GetPublishPacketSize` returns
`MQTTBadParameter`. -/
theorem getPublishPacketSize_limit_counterexample :
    2 + 1 + 0 + 268435448 ≤ 268435455
    ∧ MQTT_GetPublishPacketSize
        (some ⟨MQTTQoS.MQTTQoS0, false, false, some [0x61], 1,
          some (List.replicate 268435448 0), 268435448⟩)
        (some 0) (some 0)
      = (MQTTStatus.MQTTBadParameter, some 0, some 0) :=
  ⟨by decide, getPublishPacketSize_268435448 _⟩

/-- C19, amended: for non-null arguments, with
R = 2 + len(topic) + (2 if QoS > 0 else 0) + len(payload) and
P = 1 + encoded_size(R) + R, `MQTT_GetPublishPacketSize` returns
`MQTTBadParameter` for a null or empty topic; otherwise it returns
`MQTTSuccess` with (R, P) whenever P <= 268,435,455 and `MQTTBadParameter`,
outputs untouched, exactly when P > 268,435,455: the limit applies to the
packet size, so the remaining lengths 268,435,451 .. 268,435,455 are
refused too. -/
theorem getPublishPacketSize_limit (info : MQTTPublishInfo) (r0 p0 : Nat)
    (htl : info.topicNameLength < 65536) (hpl : info.payloadLength < SIZE_MOD) :
    MQTT_GetPublishPacketSize (some info) (some r0) (some p0)
      = if info.pTopicName = none ∨ info.topicNameLength = 0 then
          (MQTTStatus.MQTTBadParameter, some r0, some p0)
        else if 1 + remainingLengthEncodedSize (2 + info.topicNameLength
              + (if info.qos = MQTTQoS.MQTTQoS0 then 0 else 2) + info.payloadLength)
            + (2 + info.topicNameLength
              + (if info.qos = MQTTQoS.MQTTQoS0 then 0 else 2) + info.payloadLength)
            ≤ 268435455
        then (MQTTStatus.MQTTSuccess,
          some (2 + info.topicNameLength
            + (if info.qos = MQTTQoS.MQTTQoS0 then 0 else 2) + info.payloadLength),
          some (1 + remainingLengthEncodedSize (2 + info.topicNameLength
              + (if info.qos = MQTTQoS.MQTTQoS0 then 0 else 2) + info.payloadLength)
            + (2 + info.topicNameLength
              + (if info.qos = MQTTQoS.MQTTQoS0 then 0 else 2) + info.payloadLength)))
        else (MQTTStatus.MQTTBadParameter, some r0, some p0) := by
  by_cases hbad : info.pTopicName = none ∨ info.topicNameLength = 0
  · rw [if_pos hbad]
    unfold MQTT_GetPublishPacketSize
    simp only
    rw [if_pos hbad]
  · rw [if_neg hbad]
    have hb := not_or.mp hbad
    exact getPublishPacketSize_closed info r0 p0 hb.1 hb.2 htl hpl

theorem getPublishPacketSize_limit_witness :
    ((1 : Nat) < 65536 ∧ 2 < SIZE_MOD)
    ∧ MQTT_GetPublishPacketSize
        (some ⟨MQTTQoS.MQTTQoS1, false, false, some [0x61], 1, some [0x68, 0x69], 2⟩)
        (some 0) (some 0)
      = (MQTTStatus.MQTTSuccess, some 7, some 9) :=
  ⟨by decide, by
    simpa [remainingLengthEncodedSize] using getPublishPacketSize_limit
      ⟨MQTTQoS.MQTTQoS1, false, false, some [0x61], 1, some [0x68, 0x69], 2⟩ 0 0
      (by decide) (by decide)⟩

/-- C20: a CONNECT with the client identifier "a" and a will with the topic
"t" and a payload length of 2^64 - 18 = 18,446,744,073,709,551,598 (whatever
the payload pointer): the exact remaining length is 10 + 3 + 5 + (2^64 - 18)
= 2^64, far above the CONNECT limit, but the `size_t` sum wraps around to 0
and `MQTT_GetConnectPacketSize` returns `MQTTSuccess` with remaining length 0
and packet size 2. -/
theorem getConnectPacketSize_wraps (payload : Option (List Nat)) :
    MQTT_GetConnectPacketSize
        (some ⟨true, 60, some [0x61], 1, none, 0, none, 0⟩)
        (some ⟨MQTTQoS.MQTTQoS0, false, false, some [0x74], 1, payload,
          18446744073709551598⟩)
        (some 7) (some 7)
      = (MQTTStatus.MQTTSuccess, some 0, some 2) := by
  rw [getConnectPacketSize_closed]
  simp only [reduceCtorEq, if_true, if_false]
  have h : (10 + (1 + 2) + (1 + 2 + 18446744073709551598 + 2) + 0 + 0) % SIZE_MOD = 0 := by
    norm_num [SIZE_MOD]
  rw [h]
  decide

/-! ## Layout of the serialized PUBLISH -/

/-- The arguments `MQTT_SerializePublish` accepts: it stores what
`serializePublishCommon` stores with the payload. -/
theorem serializePublish_success (info : MQTTPublishInfo) (packetId R : Nat)
    (buffer : MQTTFixedBuffer)
    (ht : info.pTopicName ≠ none) (ht0 : info.topicNameLength ≠ 0)
    (hid : info.qos ≠ MQTTQoS.MQTTQoS0 → packetId ≠ 0)
    (hcap : addSize (addSize 1 (remainingLengthEncodedSize R)) R ≤ buffer.size) :
    MQTT_SerializePublish (some info) packetId R (some buffer)
      = { status := MQTTStatus.MQTTSuccess,
          written := (serializePublishCommon info R packetId buffer true).bytes,
          assertsHold := (serializePublishCommon info R packetId buffer true).assertsHold } := by
  unfold MQTT_SerializePublish
  simp only
  rw [if_neg (by simp [ht, ht0]), if_neg (by
    intro h
    exact hid h.1 h.2), if_neg (by omega)]

/-- The arguments `MQTT_SerializePublishHeader` accepts: it stores what
`serializePublishCommon` stores without the payload. -/
theorem serializePublishHeader_success (info : MQTTPublishInfo) (packetId R h0 : Nat)
    (buffer : MQTTFixedBuffer)
    (ht : info.pTopicName ≠ none) (ht0 : info.topicNameLength ≠ 0)
    (hid : info.qos ≠ MQTTQoS.MQTTQoS0 → packetId ≠ 0)
    (hcap : subSize (addSize (addSize 1 (remainingLengthEncodedSize R)) R) info.payloadLength
      ≤ buffer.size) :
    MQTT_SerializePublishHeader (some info) packetId R (some buffer) (some h0)
      = ({ status := MQTTStatus.MQTTSuccess,
           written := (serializePublishCommon info R packetId buffer false).bytes,
           assertsHold := (serializePublishCommon info R packetId buffer false).assertsHold },
         some (subSize (addSize (addSize 1 (remainingLengthEncodedSize R)) R)
           info.payloadLength)) := by
  unfold MQTT_SerializePublishHeader
  simp only
  rw [if_neg (by simp [ht, ht0]), if_neg (by
    intro h
    exact hid h.1 h.2), if_neg (by omega)]

/-- The first byte of a PUBLISH as a disjunction of bit fields. -/
theorem publish_first_byte_bits (q : MQTTQoS) (ret dup : Bool) :
    0x30 + (if dup then 8 else 0) + 2 * q.toNat + (if ret then 1 else 0)
      = 0x30 ||| ((if dup then 1 else 0) <<< 3) ||| (q.toNat <<< 1) ||| (if ret then 1 else 0)
    ∧ ¬ ((0x30 ||| ((if dup then 1 else 0) <<< 3) ||| (q.toNat <<< 1)
          ||| (if ret then 1 else 0)).testBit 1 = true
        ∧ (0x30 ||| ((if dup then 1 else 0) <<< 3) ||| (q.toNat <<< 1)
          ||| (if ret then 1 else 0)).testBit 2 = true) := by
  cases q <;> cases ret <;> cases dup <;> decide

/-- C23: for a PUBLISH that `MQTT_GetPublishPacketSize` accepts with (R, P), a
16-bit packet identifier that is non-zero when QoS > 0 and a buffer of
capacity at least P, `MQTT_SerializePublish` returns `MQTTSuccess` and stores,
in this order: the first byte 0x30 | (dup << 3) | (QoS << 1) | retain, in
which the two QoS bits are never both set; the Remaining Length encoding of R;
the topic length as 2 bytes big-endian and the topic; the packet identifier as
2 bytes big-endian exactly when QoS > 0; the payload. -/
theorem serializePublish_layout (info : MQTTPublishInfo) (packetId R P r0 p0 : Nat)
    (buffer : MQTTFixedBuffer)
    (htl : info.topicNameLength < 65536) (hpl : info.payloadLength < SIZE_MOD)
    (hpid : packetId < 65536)
    (hsize : MQTT_GetPublishPacketSize (some info) (some r0) (some p0)
      = (MQTTStatus.MQTTSuccess, some R, some P))
    (hid : info.qos ≠ MQTTQoS.MQTTQoS0 → packetId ≠ 0)
    (hcap : P ≤ buffer.size) :
    (MQTT_SerializePublish (some info) packetId R (some buffer)).status
        = MQTTStatus.MQTTSuccess
    ∧ (MQTT_SerializePublish (some info) packetId R (some buffer)).written
        = [0x30 ||| ((if info.dup then 1 else 0) <<< 3) ||| (info.qos.toNat <<< 1)
            ||| (if info.retain then 1 else 0)]
          ++ encodeRemainingLength [] R
          ++ [info.topicNameLength / 256, info.topicNameLength % 256]
          ++ (info.pTopicName.getD []).take info.topicNameLength
          ++ (if info.qos = MQTTQoS.MQTTQoS0 then [] else [packetId / 256, packetId % 256])
          ++ (info.pPayload.getD []).take info.payloadLength
    ∧ ¬ ((0x30 ||| ((if info.dup then 1 else 0) <<< 3) ||| (info.qos.toNat <<< 1)
          ||| (if info.retain then 1 else 0)).testBit 1 = true
        ∧ (0x30 ||| ((if info.dup then 1 else 0) <<< 3) ||| (info.qos.toNat <<< 1)
          ||| (if info.retain then 1 else 0)).testBit 2 = true) := by
  obtain ⟨⟨t, ht⟩, htl0, hR, hP, hPmax⟩ :=
    getPublishPacketSize_success info r0 p0 R P htl hpl hsize
  have hb := remainingLengthEncodedSize_bounds R
  have hsz : addSize (addSize 1 (remainingLengthEncodedSize R)) R = P := by
    rw [addSize_eq 1 _ (by simp only [SIZE_MOD]; omega),
      addSize_eq _ _ (by simp only [SIZE_MOD]; omega)]
    omega
  rw [serializePublish_success info packetId R buffer (by simp [ht]) htl0 hid (by omega)]
  refine ⟨rfl, ?_, (publish_first_byte_bits info.qos info.retain info.dup).2⟩
  simp only
  rw [serializePublishCommon_bytes, (publish_first_byte_bits info.qos info.retain info.dup).1,
    uint16_high_byte _ htl, uint16_low_byte, uint16_high_byte _ hpid, uint16_low_byte]
  by_cases hp0 : info.payloadLength > 0
  · simp [hp0, memcpyBytes]
  · have hz : info.payloadLength = 0 := by omega
    simp [hz, memcpyBytes]

theorem serializePublish_layout_witness :
    (MQTT_GetPublishPacketSize
        (some ⟨MQTTQoS.MQTTQoS0, false, false, some [0x61], 1, some [0x68, 0x69], 2⟩)
        (some 0) (some 0) = (MQTTStatus.MQTTSuccess, some 5, some 7)
      ∧ MQTT_GetPublishPacketSize
        (some ⟨MQTTQoS.MQTTQoS1, false, false, some [0x61], 1, some [0x68, 0x69], 2⟩)
        (some 0) (some 0) = (MQTTStatus.MQTTSuccess, some 7, some 9))
    ∧ (MQTT_SerializePublish
        (some ⟨MQTTQoS.MQTTQoS0, false, false, some [0x61], 1, some [0x68, 0x69], 2⟩) 0 5
        (some ⟨List.replicate 7 0, 7⟩)).written
      = [0x30, 0x05, 0x00, 0x01, 0x61, 0x68, 0x69]
    ∧ (MQTT_SerializePublish
        (some ⟨MQTTQoS.MQTTQoS1, false, false, some [0x61], 1, some [0x68, 0x69], 2⟩) 7 7
        (some ⟨List.replicate 9 0, 9⟩)).written
      = [0x32, 0x07, 0x00, 0x01, 0x61, 0x00, 0x07, 0x68, 0x69] := by
  refine ⟨by decide, ?_, ?_⟩
  · rw [(serializePublish_layout
      ⟨MQTTQoS.MQTTQoS0, false, false, some [0x61], 1, some [0x68, 0x69], 2⟩ 0 5 7 0 0
      ⟨List.replicate 7 0, 7⟩ (by decide) (by decide) (by decide) (by decide)
      (fun h => absurd rfl h) (by decide)).2.1, encodeRemainingLength_one [] 5 (by decide)]
    decide
  · rw [(serializePublish_layout
      ⟨MQTTQoS.MQTTQoS1, false, false, some [0x61], 1, some [0x68, 0x69], 2⟩ 7 7 9 0 0
      ⟨List.replicate 9 0, 9⟩ (by decide) (by decide) (by decide) (by decide)
      (fun _ => by decide) (by decide)).2.1, encodeRemainingLength_one [] 7 (by decide)]
    decide

/-- C24: for a PUBLISH that `MQTT_GetPublishPacketSize` accepts with (R, P),
whose topic pointer is valid for the topic length, and a packet identifier
that is non-zero when QoS > 0: `MQTT_SerializePublishHeader` into a buffer of
capacity at least P - len(payload) returns `MQTTSuccess`, reports the header
size P - len(payload) = 1 + encoded_size(R) + 2 + len(topic) + (2 if QoS > 0
else 0) and stores exactly that many bytes; they are the first bytes that
`MQTT_SerializePublish` stores for the same PUBLISH into a buffer of capacity
at least P, whose bytes are the header bytes followed by the payload. -/
theorem serializePublishHeader_refines (info : MQTTPublishInfo)
    (packetId R P r0 p0 h0 : Nat) (headerBuffer fullBuffer : MQTTFixedBuffer)
    (htl : info.topicNameLength < 65536) (hpl : info.payloadLength < SIZE_MOD)
    (htopic : ∀ t, info.pTopicName = some t → info.topicNameLength ≤ t.length)
    (hsize : MQTT_GetPublishPacketSize (some info) (some r0) (some p0)
      = (MQTTStatus.MQTTSuccess, some R, some P))
    (hid : info.qos ≠ MQTTQoS.MQTTQoS0 → packetId ≠ 0)
    (hcapHeader : P - info.payloadLength ≤ headerBuffer.size)
    (hcapFull : P ≤ fullBuffer.size) :
    ∃ header asserts,
      MQTT_SerializePublishHeader (some info) packetId R (some headerBuffer) (some h0)
        = (⟨MQTTStatus.MQTTSuccess, header, asserts⟩, some (P - info.payloadLength))
      ∧ P - info.payloadLength
        = 1 + remainingLengthEncodedSize R + 2 + info.topicNameLength
          + (if info.qos = MQTTQoS.MQTTQoS0 then 0 else 2)
      ∧ header.length = P - info.payloadLength
      ∧ (MQTT_SerializePublish (some info) packetId R (some fullBuffer)).status
        = MQTTStatus.MQTTSuccess
      ∧ (MQTT_SerializePublish (some info) packetId R (some fullBuffer)).written.take
          (P - info.payloadLength) = header
      ∧ (MQTT_SerializePublish (some info) packetId R (some fullBuffer)).written
        = header ++ (info.pPayload.getD []).take info.payloadLength := by
  obtain ⟨⟨t, ht⟩, htl0, hR, hP, hPmax⟩ :=
    getPublishPacketSize_success info r0 p0 R P htl hpl hsize
  have hb := remainingLengthEncodedSize_bounds R
  have hsz : addSize (addSize 1 (remainingLengthEncodedSize R)) R = P := by
    rw [addSize_eq 1 _ (by simp only [SIZE_MOD]; omega),
      addSize_eq _ _ (by simp only [SIZE_MOD]; omega)]
    omega
  have hsub : subSize P info.payloadLength = P - info.payloadLength :=
    subSize_eq _ _ (by omega) (by simp only [SIZE_MOD]; omega)
  have hq : (if info.qos = MQTTQoS.MQTTQoS0 then 0 else 2) ≤ 2 := by
    split_ifs <;> omega
  have hhead : (serializePublishCommon info R packetId headerBuffer false).bytes.length
      = P - info.payloadLength := by
    rw [serializePublishCommon_bytes]
    simp only [List.length_append, List.length_cons, List.length_nil,
      encodeRemainingLength_length R (by omega), ht, memcpyBytes_length t _ (htopic t ht)]
    by_cases hq0 : info.qos = MQTTQoS.MQTTQoS0
    · simp [hq0] at hR ⊢
      omega
    · simp [hq0] at hR ⊢
      omega
  have hfull : (serializePublishCommon info R packetId fullBuffer true).bytes
      = (serializePublishCommon info R packetId headerBuffer false).bytes
        ++ (info.pPayload.getD []).take info.payloadLength := by
    rw [serializePublishCommon_bytes, serializePublishCommon_bytes]
    by_cases hp0 : info.payloadLength > 0
    · simp [hp0, memcpyBytes]
    · have hz : info.payloadLength = 0 := by omega
      simp [hz, memcpyBytes]
  refine ⟨(serializePublishCommon info R packetId headerBuffer false).bytes,
    (serializePublishCommon info R packetId headerBuffer false).assertsHold, ?_, ?_, hhead,
    ?_, ?_, ?_⟩
  · rw [serializePublishHeader_success info packetId R h0 headerBuffer (by simp [ht]) htl0 hid
      (by rw [hsz, hsub]; exact hcapHeader), hsz, hsub]
  · omega
  · rw [serializePublish_success info packetId R fullBuffer (by simp [ht]) htl0 hid
      (by omega)]
  · rw [serializePublish_success info packetId R fullBuffer (by simp [ht]) htl0 hid
      (by omega)]
    simp only
    rw [hfull, ← hhead, List.take_left]
  · rw [serializePublish_success info packetId R fullBuffer (by simp [ht]) htl0 hid
      (by omega)]
    exact hfull

theorem serializePublishHeader_refines_witness :
    MQTT_GetPublishPacketSize
        (some ⟨MQTTQoS.MQTTQoS1, false, false, some [0x61], 1, some [0x68, 0x69], 2⟩)
        (some 0) (some 0) = (MQTTStatus.MQTTSuccess, some 7, some 9)
    ∧ ∃ header asserts,
        MQTT_SerializePublishHeader
            (some ⟨MQTTQoS.MQTTQoS1, false, false, some [0x61], 1, some [0x68, 0x69], 2⟩)
            7 7 (some ⟨List.replicate 7 0, 7⟩) (some 0)
          = (⟨MQTTStatus.MQTTSuccess, header, asserts⟩, some 7)
        ∧ header.length = 7 := by
  refine ⟨by decide, ?_⟩
  obtain ⟨header, asserts, h1, -, h3, -⟩ :=
    serializePublishHeader_refines
      ⟨MQTTQoS.MQTTQoS1, false, false, some [0x61], 1, some [0x68, 0x69], 2⟩ 7 7 9 0 0 0
      ⟨List.replicate 7 0, 7⟩ ⟨List.replicate 9 0, 9⟩ (by decide) (by decide)
      (by intro t h; cases h; decide) (by decide) (fun _ => by decide) (by decide) (by decide)
  exact ⟨header, asserts, h1, h3⟩

/-! ## Layout of the serialized CONNECT -/

/-- The capacity check of `MQTT_SerializeConnect` passes for the values that
`MQTT_GetConnectPacketSize` returned and a buffer of at least the packet
size. -/
theorem getConnectPacketSize_capacity (info : MQTTConnectInfo)
    (will : Option MQTTPublishInfo) (R P r0 p0 : Nat)
    (hsize : MQTT_GetConnectPacketSize (some info) will (some r0) (some p0)
      = (MQTTStatus.MQTTSuccess, some R, some P)) :
    addSize (addSize R (remainingLengthEncodedSize R)) 1 = P := by
  rw [getConnectPacketSize_closed] at hsize
  have key : ∀ S : Nat,
      (if (S + 1 + remainingLengthEncodedSize S) % SIZE_MOD > 327700 then
          (MQTTStatus.MQTTBadParameter, some r0, some p0)
        else (MQTTStatus.MQTTSuccess, some S,
          some ((S + 1 + remainingLengthEncodedSize S) % SIZE_MOD)))
        = (MQTTStatus.MQTTSuccess, some R, some P) →
      addSize (addSize R (remainingLengthEncodedSize R)) 1 = P := by
    intro S hS
    by_cases h : (S + 1 + remainingLengthEncodedSize S) % SIZE_MOD > 327700
    · rw [if_pos h] at hS
      simp at hS
    · rw [if_neg h] at hS
      simp only [Prod.mk.injEq, Option.some.injEq, true_and] at hS
      obtain ⟨h1, h2⟩ := hS
      subst h1
      rw [← h2]
      generalize remainingLengthEncodedSize S = e
      simp only [addSize, SIZE_MOD]
      omega
  exact key _ hsize

/-- C25: for a CONNECT whose 16-bit fields are in range and whose will
payload is at most 65,535 bytes long, with (R, P) from
`MQTT_GetConnectPacketSize` and a buffer of capacity at least P,
`MQTT_SerializeConnect` returns `MQTTSuccess` and stores, in this order: 0x10,
the Remaining Length encoding of R, `00 04 4D 51 54 54`, the protocol level
0x04, the connect flags byte, the keep-alive as 2 bytes big-endian, the
length-prefixed client identifier, then the length-prefixed will topic and the
length-prefixed will payload if a will is given, the length-prefixed user name
if present and the length-prefixed password if present. -/
theorem serializeConnect_layout (info : MQTTConnectInfo) (will : Option MQTTPublishInfo)
    (R P r0 p0 : Nat) (buffer : MQTTFixedBuffer)
    (hka : info.keepAliveSeconds < 65536)
    (hcid : info.clientIdentifierLength < 65536)
    (huser : info.userNameLength < 65536)
    (hpass : info.passwordLength < 65536)
    (hwill : ∀ w, will = some w → w.topicNameLength < 65536 ∧ w.payloadLength < 65536)
    (hsize : MQTT_GetConnectPacketSize (some info) will (some r0) (some p0)
      = (MQTTStatus.MQTTSuccess, some R, some P))
    (hcap : P ≤ buffer.size) :
    (MQTT_SerializeConnect (some info) will R (some buffer)).status = MQTTStatus.MQTTSuccess
    ∧ (MQTT_SerializeConnect (some info) will R (some buffer)).written
      = [0x10] ++ encodeRemainingLength [] R
        ++ [0x00, 0x04, 0x4D, 0x51, 0x54, 0x54]
        ++ [0x04]
        ++ [(if info.cleanSession then 2 else 0)
            + (match will with
               | none => 0
               | some w => 4 + 8 * w.qos.toNat + (if w.retain then 32 else 0))
            + (if info.pPassword = none then 0 else 64)
            + (if info.pUserName = none then 0 else 128)]
        ++ [info.keepAliveSeconds / 256, info.keepAliveSeconds % 256]
        ++ ([info.clientIdentifierLength / 256, info.clientIdentifierLength % 256]
            ++ (info.pClientIdentifier.getD []).take info.clientIdentifierLength)
        ++ (match will with
            | none => []
            | some w =>
              ([w.topicNameLength / 256, w.topicNameLength % 256]
                ++ (w.pTopicName.getD []).take w.topicNameLength)
              ++ ([w.payloadLength / 256, w.payloadLength % 256]
                ++ (w.pPayload.getD []).take w.payloadLength))
        ++ (if info.pUserName = none then []
            else [info.userNameLength / 256, info.userNameLength % 256]
              ++ (info.pUserName.getD []).take info.userNameLength)
        ++ (if info.pPassword = none then []
            else [info.passwordLength / 256, info.passwordLength % 256]
              ++ (info.pPassword.getD []).take info.passwordLength) := by
  have hc := getConnectPacketSize_capacity info will R P r0 p0 hsize
  rw [serializeConnect_success info will R buffer (by omega)]
  refine ⟨rfl, ?_⟩
  simp only
  rw [serializeConnectPacket_bytes, encodeRemainingLength_append R [0x10],
    uint16_high_byte _ hka, uint16_high_byte _ hcid, uint16_high_byte _ huser,
    uint16_high_byte _ hpass]
  simp only [uint16_low_byte, memcpyBytes]
  cases will with
  | none => simp
  | some w =>
    obtain ⟨h1, h2⟩ := hwill w rfl
    simp only [Nat.mod_eq_of_lt h2, uint16_high_byte _ h1, uint16_high_byte _ h2]
    simp

theorem serializeConnect_layout_witness :
    MQTT_GetConnectPacketSize
        (some ⟨true, 60, some [0x74, 0x65, 0x73, 0x74], 4, none, 0, none, 0⟩) none
        (some 0) (some 0) = (MQTTStatus.MQTTSuccess, some 16, some 18)
    ∧ (MQTT_SerializeConnect
        (some ⟨true, 60, some [0x74, 0x65, 0x73, 0x74], 4, none, 0, none, 0⟩) none 16
        (some ⟨List.replicate 18 0, 18⟩)).status = MQTTStatus.MQTTSuccess := by
  have hs : MQTT_GetConnectPacketSize
      (some ⟨true, 60, some [0x74, 0x65, 0x73, 0x74], 4, none, 0, none, 0⟩) none
      (some 0) (some 0) = (MQTTStatus.MQTTSuccess, some 16, some 18) := by
    rw [getConnectPacketSize_closed]
    decide
  exact ⟨hs, (serializeConnect_layout
    ⟨true, 60, some [0x74, 0x65, 0x73, 0x74], 4, none, 0, none, 0⟩ none 16 18 0 0
    ⟨List.replicate 18 0, 18⟩ (by decide) (by decide) (by decide) (by decide)
    (by intro w h; cases h) hs (by decide)).1⟩

/-- The minimal CONNECT of the scenario (client identifier "test", clean
session, keep-alive 60, nothing else) serialized with remaining length 16 into
a buffer of capacity at least 18. -/
theorem serializeConnect_minimal_bytes (buffer : MQTTFixedBuffer) (hcap : 18 ≤ buffer.size) :
    (MQTT_SerializeConnect
        (some ⟨true, 60, some [0x74, 0x65, 0x73, 0x74], 4, none, 0, none, 0⟩) none 16
        (some buffer)).status = MQTTStatus.MQTTSuccess
    ∧ (MQTT_SerializeConnect
        (some ⟨true, 60, some [0x74, 0x65, 0x73, 0x74], 4, none, 0, none, 0⟩) none 16
        (some buffer)).written
      = [0x10, 0x10, 0x00, 0x04, 0x4D, 0x51, 0x54, 0x54, 0x04, 0x02, 0x00, 0x3C,
          0x00, 0x04, 0x74, 0x65, 0x73, 0x74] := by
  have h18 : addSize (addSize 16 (remainingLengthEncodedSize 16)) 1 = 18 := by decide
  rw [serializeConnect_success _ _ _ _ (by rw [h18]; exact hcap)]
  refine ⟨rfl, ?_⟩
  simp only
  rw [serializeConnectPacket_bytes, encodeRemainingLength_one [0x10] 16 (by decide)]
  decide

/-- C26: the 18 bytes stored for the minimal CONNECT are not the bytes
`30 10 00 04 4D 51 54 54 04 02 00 3C 00 04 74 65 73 74`: the first byte is the
CONNECT packet type 0x10, not 0x30. -/
theorem serializeConnect_minimal_counterexample :
    (MQTT_SerializeConnect
        (some ⟨true, 60, some [0x74, 0x65, 0x73, 0x74], 4, none, 0, none, 0⟩) none 16
        (some ⟨List.replicate 18 0, 18⟩)).written
      ≠ [0x30, 0x10, 0x00, 0x04, 0x4D, 0x51, 0x54, 0x54, 0x04, 0x02, 0x00, 0x3C,
          0x00, 0x04, 0x74, 0x65, 0x73, 0x74] := by
  rw [(serializeConnect_minimal_bytes ⟨List.replicate 18 0, 18⟩ (by decide)).2]
  decide

/-- C26, amended: for the client identifier "test" (4 bytes), clean session,
keep-alive 60 and no will, user name or password,
`MQTT_GetConnectPacketSize` returns R = 16 and P = 18, and
`MQTT_SerializeConnect` with R = 16 into a buffer of capacity at least 18
returns `MQTTSuccess` and stores exactly the 18 bytes
`10 10 00 04 4D 51 54 54 04 02 00 3C 00 04 74 65 73 74`. -/
theorem serializeConnect_minimal (buffer : MQTTFixedBuffer) (r0 p0 : Nat)
    (hcap : 18 ≤ buffer.size) :
    MQTT_GetConnectPacketSize
        (some ⟨true, 60, some [0x74, 0x65, 0x73, 0x74], 4, none, 0, none, 0⟩) none
        (some r0) (some p0) = (MQTTStatus.MQTTSuccess, some 16, some 18)
    ∧ (MQTT_SerializeConnect
        (some ⟨true, 60, some [0x74, 0x65, 0x73, 0x74], 4, none, 0, none, 0⟩) none 16
        (some buffer)).status = MQTTStatus.MQTTSuccess
    ∧ (MQTT_SerializeConnect
        (some ⟨true, 60, some [0x74, 0x65, 0x73, 0x74], 4, none, 0, none, 0⟩) none 16
        (some buffer)).written
      = [0x10, 0x10, 0x00, 0x04, 0x4D, 0x51, 0x54, 0x54, 0x04, 0x02, 0x00, 0x3C,
          0x00, 0x04, 0x74, 0x65, 0x73, 0x74]
    ∧ (MQTT_SerializeConnect
        (some ⟨true, 60, some [0x74, 0x65, 0x73, 0x74], 4, none, 0, none, 0⟩) none 16
        (some buffer)).written.length = 18 := by
  have hb := serializeConnect_minimal_bytes buffer hcap
  refine ⟨?_, hb.1, hb.2, ?_⟩
  · rw [getConnectPacketSize_closed]
    simp only [reduceCtorEq, if_false, if_true]
    have hS : (10 + (4 + 2) + 0 + 0 + 0) % SIZE_MOD = 16 := by decide
    have hE : (16 + 1 + remainingLengthEncodedSize 16) % SIZE_MOD = 18 := by decide
    rw [hS, hE, if_neg (by decide)]
  · rw [hb.2]
    rfl

theorem serializeConnect_minimal_witness :
    (18 : Nat) ≤ 18
    ∧ (MQTT_SerializeConnect
        (some ⟨true, 60, some [0x74, 0x65, 0x73, 0x74], 4, none, 0, none, 0⟩) none 16
        (some ⟨List.replicate 18 0, 18⟩)).written
      = [0x10, 0x10, 0x00, 0x04, 0x4D, 0x51, 0x54, 0x54, 0x04, 0x02, 0x00, 0x3C,
          0x00, 0x04, 0x74, 0x65, 0x73, 0x74] :=
  ⟨by decide, (serializeConnect_minimal ⟨List.replicate 18 0, 18⟩ 0 0 (by decide)).2.2.1⟩

/-- Position of the connect flags byte among the bytes of a CONNECT. -/
theorem connect_flags_position (A : List Nat) (a1 a2 a3 a4 a5 a6 a7 x : Nat)
    (r1 r2 r3 r4 r5 r6 : List Nat) :
    (A ++ [a1, a2, a3, a4, a5, a6, a7] ++ [x] ++ r1 ++ r2 ++ r3 ++ r4 ++ r5 ++ r6).getD
      (A.length + 7) 0 = x := by
  have e : A ++ [a1, a2, a3, a4, a5, a6, a7] ++ [x] ++ r1 ++ r2 ++ r3 ++ r4 ++ r5 ++ r6
      = (A ++ [a1, a2, a3, a4, a5, a6, a7]) ++ (x :: (r1 ++ r2 ++ r3 ++ r4 ++ r5 ++ r6)) := by
    simp
  rw [e, List.getD_eq_getElem?_getD, List.getElem?_append_right (by simp)]
  simp

/-- The bits of the connect flags byte as `serializeConnectPacket` builds
it. -/
theorem connect_flags_value_bits (clean : Bool) (will : Option MQTTPublishInfo)
    (pass user : Bool) :
    ((if clean then 2 else 0)
        + (match will with
           | none => 0
           | some w => 4 + 8 * w.qos.toNat + (if w.retain then 32 else 0))
        + (if pass then 64 else 0) + (if user then 128 else 0)).testBit 0 = false
    ∧ ((if clean then 2 else 0)
        + (match will with
           | none => 0
           | some w => 4 + 8 * w.qos.toNat + (if w.retain then 32 else 0))
        + (if pass then 64 else 0) + (if user then 128 else 0)).testBit 1 = clean
    ∧ ((if clean then 2 else 0)
        + (match will with
           | none => 0
           | some w => 4 + 8 * w.qos.toNat + (if w.retain then 32 else 0))
        + (if pass then 64 else 0) + (if user then 128 else 0)).testBit 2 = will.isSome
    ∧ (((if clean then 2 else 0)
        + (match will with
           | none => 0
           | some w => 4 + 8 * w.qos.toNat + (if w.retain then 32 else 0))
        + (if pass then 64 else 0) + (if user then 128 else 0)) / 8) % 4
        = (match will with
           | none => 0
           | some w => w.qos.toNat)
    ∧ ((if clean then 2 else 0)
        + (match will with
           | none => 0
           | some w => 4 + 8 * w.qos.toNat + (if w.retain then 32 else 0))
        + (if pass then 64 else 0) + (if user then 128 else 0)).testBit 5
        = (match will with
           | none => false
           | some w => w.retain)
    ∧ ((if clean then 2 else 0)
        + (match will with
           | none => 0
           | some w => 4 + 8 * w.qos.toNat + (if w.retain then 32 else 0))
        + (if pass then 64 else 0) + (if user then 128 else 0)).testBit 6 = pass
    ∧ ((if clean then 2 else 0)
        + (match will with
           | none => 0
           | some w => 4 + 8 * w.qos.toNat + (if w.retain then 32 else 0))
        + (if pass then 64 else 0) + (if user then 128 else 0)).testBit 7 = user := by
  cases will with
  | none => cases clean <;> cases pass <;> cases user <;> decide
  | some w =>
    obtain ⟨q, ret, dup, wt, wtl, wp, wpl⟩ := w
    cases q <;> cases ret <;> cases clean <;> cases pass <;> cases user <;>
      simp +decide [MQTTQoS.toNat]

/-- C27: the connect flags byte stored by `MQTT_SerializeConnect` (the byte
at offset 1 + encoded_size(R) + 7, after the packet type, the Remaining
Length, the protocol name and the protocol level) has bit 0 clear, bit 1 equal
to the clean-session flag, bit 2 set exactly when a will is given, bits 4..3
equal to the will QoS as a 2-bit number (0 without a will), bit 5 equal to the
will retain flag (0 without a will), bit 6 set exactly when a password is
present and bit 7 set exactly when a user name is present. -/
theorem connect_flags_byte (info : MQTTConnectInfo) (will : Option MQTTPublishInfo)
    (R : Nat) (buffer : MQTTFixedBuffer) (hR : R ≤ 268435455)
    (hcap : 1 + remainingLengthEncodedSize R + R ≤ buffer.size) :
    (MQTT_SerializeConnect (some info) will R (some buffer)).status = MQTTStatus.MQTTSuccess
    ∧ ((MQTT_SerializeConnect (some info) will R (some buffer)).written.getD
        (1 + remainingLengthEncodedSize R + 7) 0).testBit 0 = false
    ∧ ((MQTT_SerializeConnect (some info) will R (some buffer)).written.getD
        (1 + remainingLengthEncodedSize R + 7) 0).testBit 1 = info.cleanSession
    ∧ ((MQTT_SerializeConnect (some info) will R (some buffer)).written.getD
        (1 + remainingLengthEncodedSize R + 7) 0).testBit 2 = will.isSome
    ∧ (((MQTT_SerializeConnect (some info) will R (some buffer)).written.getD
        (1 + remainingLengthEncodedSize R + 7) 0) / 8) % 4
        = (match will with
           | none => 0
           | some w => w.qos.toNat)
    ∧ ((MQTT_SerializeConnect (some info) will R (some buffer)).written.getD
        (1 + remainingLengthEncodedSize R + 7) 0).testBit 5
        = (match will with
           | none => false
           | some w => w.retain)
    ∧ ((MQTT_SerializeConnect (some info) will R (some buffer)).written.getD
        (1 + remainingLengthEncodedSize R + 7) 0).testBit 6 = info.pPassword.isSome
    ∧ ((MQTT_SerializeConnect (some info) will R (some buffer)).written.getD
        (1 + remainingLengthEncodedSize R + 7) 0).testBit 7 = info.pUserName.isSome := by
  have hb := remainingLengthEncodedSize_bounds R
  have hc : addSize (addSize R (remainingLengthEncodedSize R)) 1 ≤ buffer.size := by
    rw [addSize_eq R _ (by simp only [SIZE_MOD]; omega),
      addSize_eq _ _ (by simp only [SIZE_MOD]; omega)]
    omega
  have hlenA : (encodeRemainingLength [0x10] R).length = 1 + remainingLengthEncodedSize R := by
    rw [encodeRemainingLength_append R [0x10], List.length_append,
      encodeRemainingLength_length R hR]
    rfl
  have hflags : (MQTT_SerializeConnect (some info) will R (some buffer)).written.getD
      (1 + remainingLengthEncodedSize R + 7) 0
      = (if info.cleanSession then 2 else 0)
        + (match will with
           | none => 0
           | some w => 4 + 8 * w.qos.toNat + (if w.retain then 32 else 0))
        + (if info.pPassword.isSome then 64 else 0)
        + (if info.pUserName.isSome then 128 else 0) := by
    rw [serializeConnect_success info will R buffer hc]
    simp only
    rw [serializeConnectPacket_bytes, ← hlenA, connect_flags_position]
    cases info.pPassword <;> cases info.pUserName <;> simp
  rw [hflags, serializeConnect_success info will R buffer hc]
  exact ⟨rfl, connect_flags_value_bits info.cleanSession will info.pPassword.isSome
    info.pUserName.isSome⟩

theorem connect_flags_byte_witness :
    ((16 : Nat) ≤ 268435455 ∧ 1 + remainingLengthEncodedSize 16 + 16 ≤ 18)
    ∧ ((MQTT_SerializeConnect
        (some ⟨true, 60, some [0x74, 0x65, 0x73, 0x74], 4, none, 0, none, 0⟩) none 16
        (some ⟨List.replicate 18 0, 18⟩)).written.getD
          (1 + remainingLengthEncodedSize 16 + 7) 0).testBit 1 = true :=
  ⟨by decide, (connect_flags_byte
    ⟨true, 60, some [0x74, 0x65, 0x73, 0x74], 4, none, 0, none, 0⟩ none 16
    ⟨List.replicate 18 0, 18⟩ (by decide) (by decide)).2.2.1⟩

/-! ## Sizing and serialization of SUBSCRIBE and UNSUBSCRIBE -/

/-- The sizing loop over the `n` entries from index `i` on, all inside the
list: the sum of the entry sizes is added to `packetSize` as a `size_t`. -/
theorem calculateSubscriptionPacketSizeLoop_closed (list : List MQTTSubscribeInfo)
    (ty : MQTTSubscriptionType) :
    ∀ n i packetSize, i + n ≤ list.length → packetSize < SIZE_MOD →
      calculateSubscriptionPacketSizeLoop list ty n i packetSize
        = some ((packetSize + (((list.drop i).take n).map (fun s =>
            s.topicFilterLength + 2
              + (if ty = MQTTSubscriptionType.MQTT_SUBSCRIBE then 1 else 0))).sum)
            % SIZE_MOD) := by
  intro n
  induction n with
  | zero =>
    intro i packetSize _ hps
    simp [calculateSubscriptionPacketSizeLoop, Nat.mod_eq_of_lt hps]
  | succ n ih =>
    intro i packetSize hi hps
    have hi' : i < list.length := by omega
    have hget : list.get? i = some list[i] := by
      rw [List.get?_eq_getElem?, List.getElem?_eq_getElem hi']
    unfold calculateSubscriptionPacketSizeLoop
    simp only [hget]
    rw [ih (i + 1) _ (by omega) (by
      split_ifs <;> exact Nat.mod_lt _ (by simp [SIZE_MOD]))]
    rw [List.drop_eq_getElem_cons hi', List.take_succ_cons, List.map_cons, List.sum_cons]
    generalize (List.map (fun s : MQTTSubscribeInfo => s.topicFilterLength + 2
      + (if ty = MQTTSubscriptionType.MQTT_SUBSCRIBE then 1 else 0))
      (List.take n (List.drop (i + 1) list))).sum = rest
    generalize list[i].topicFilterLength = len
    congr 1
    cases ty <;> simp only [addSize, SIZE_MOD, if_true, reduceCtorEq, if_false] <;> omega

/-- Closed form of `calculateSubscriptionPacketSize` when the count is the
length of the list and the exact sum fits a `size_t`. -/
theorem calculateSubscriptionPacketSize_closed (list : List MQTTSubscribeInfo)
    (r0 p0 : Nat) (ty : MQTTSubscriptionType)
    (hsum : 2 + (list.map (fun s => s.topicFilterLength + 2
      + (if ty = MQTTSubscriptionType.MQTT_SUBSCRIBE then 1 else 0))).sum < SIZE_MOD) :
    calculateSubscriptionPacketSize list list.length r0 p0 ty
      = some
        (if 2 + (list.map (fun s => s.topicFilterLength + 2
            + (if ty = MQTTSubscriptionType.MQTT_SUBSCRIBE then 1 else 0))).sum > 268435455
          then (MQTTStatus.MQTTBadParameter, r0, p0)
          else (MQTTStatus.MQTTSuccess,
            2 + (list.map (fun s => s.topicFilterLength + 2
              + (if ty = MQTTSubscriptionType.MQTT_SUBSCRIBE then 1 else 0))).sum,
            2 + (list.map (fun s => s.topicFilterLength + 2
              + (if ty = MQTTSubscriptionType.MQTT_SUBSCRIBE then 1 else 0))).sum
              + 1 + remainingLengthEncodedSize
                (2 + (list.map (fun s => s.topicFilterLength + 2
                  + (if ty = MQTTSubscriptionType.MQTT_SUBSCRIBE then 1 else 0))).sum))) := by
  unfold calculateSubscriptionPacketSize
  have h2 : addSize 0 2 = 2 := by decide
  simp only [h2]
  rw [calculateSubscriptionPacketSizeLoop_closed list ty list.length 0 2 (by omega)
    (by simp [SIZE_MOD])]
  simp only [List.drop_zero, List.take_length]
  generalize (list.map (fun s : MQTTSubscribeInfo => s.topicFilterLength + 2
    + (if ty = MQTTSubscriptionType.MQTT_SUBSCRIBE then 1 else 0))).sum = total at hsum ⊢
  rw [Nat.mod_eq_of_lt hsum]
  simp only [MQTT_MAX_REMAINING_LENGTH]
  by_cases h : 2 + total > 268435455
  · simp only [h, if_true]
  · simp only [h, if_false]
    have hb := remainingLengthEncodedSize_bounds (2 + total)
    rw [addSize_eq 1 _ (by simp only [SIZE_MOD]; omega),
      addSize_eq _ _ (by simp only [SIZE_MOD]; omega)]
    congr 3
    omega

/-- C21: for a non-empty subscription list whose exact sum of sizes fits a
`size_t`, with R = 2 + sum over the filters of (2 + len(filter) + 1),
`MQTT_GetSubscribePacketSize` returns `MQTTSuccess` with R and
P = 1 + encoded_size(R) + R when R <= 268,435,455 and `MQTTBadParameter`,
outputs untouched, when R > 268,435,455; for a count of 0 it returns
`MQTTBadParameter`. -/
theorem getSubscribePacketSize_exact (subs : List MQTTSubscribeInfo) (r0 p0 : Nat)
    (hne : subs ≠ [])
    (hfit : 2 + (subs.map (fun s => 2 + s.topicFilterLength + 1)).sum < SIZE_MOD) :
    MQTT_GetSubscribePacketSize (some subs) subs.length (some r0) (some p0)
      = some
        (if 2 + (subs.map (fun s => 2 + s.topicFilterLength + 1)).sum ≤ 268435455 then
          (MQTTStatus.MQTTSuccess,
            some (2 + (subs.map (fun s => 2 + s.topicFilterLength + 1)).sum),
            some (1 + remainingLengthEncodedSize
                (2 + (subs.map (fun s => 2 + s.topicFilterLength + 1)).sum)
              + (2 + (subs.map (fun s => 2 + s.topicFilterLength + 1)).sum)))
        else (MQTTStatus.MQTTBadParameter, some r0, some p0))
    ∧ MQTT_GetSubscribePacketSize (some subs) 0 (some r0) (some p0)
      = some (MQTTStatus.MQTTBadParameter, some r0, some p0) := by
  have hf : (fun s : MQTTSubscribeInfo => s.topicFilterLength + 2
      + (if MQTTSubscriptionType.MQTT_SUBSCRIBE = MQTTSubscriptionType.MQTT_SUBSCRIBE
          then 1 else 0))
      = (fun s : MQTTSubscribeInfo => 2 + s.topicFilterLength + 1) := by
    funext s
    simp only [if_true]
    omega
  have hlen : subs.length ≠ 0 := by
    intro h
    exact hne (List.length_eq_zero.mp h)
  refine ⟨?_, ?_⟩
  · unfold MQTT_GetSubscribePacketSize
    simp only [hlen, if_false]
    rw [calculateSubscriptionPacketSize_closed subs r0 p0 MQTTSubscriptionType.MQTT_SUBSCRIBE
      (by rw [hf]; exact hfit), hf]
    generalize (subs.map (fun s : MQTTSubscribeInfo => 2 + s.topicFilterLength + 1)).sum
      = total
    by_cases h : 2 + total ≤ 268435455
    · have h' : ¬ 2 + total > 268435455 := by omega
      simp only [h, h', if_true, if_false]
      congr 4
      omega
    · have h' : 2 + total > 268435455 := by omega
      simp only [h, h', if_true, if_false]
  · unfold MQTT_GetSubscribePacketSize
    simp only [if_true]

theorem getSubscribePacketSize_exact_witness :
    ([⟨MQTTQoS.MQTTQoS1, some [0x61, 0x2F, 0x62], 3⟩] : List MQTTSubscribeInfo) ≠ []
    ∧ MQTT_GetSubscribePacketSize (some [⟨MQTTQoS.MQTTQoS1, some [0x61, 0x2F, 0x62], 3⟩]) 1
        (some 0) (some 0)
      = some (MQTTStatus.MQTTSuccess, some 8, some 10) :=
  ⟨by decide, by
    simpa [remainingLengthEncodedSize] using
      (getSubscribePacketSize_exact [⟨MQTTQoS.MQTTQoS1, some [0x61, 0x2F, 0x62], 3⟩] 0 0
        (by decide) (by decide)).1⟩

/-- C22: for the single topic filter "a", `MQTT_GetUnsubscribePacketSize`
returns `MQTTSuccess` with remaining length 6 and packet size 8, the values
`MQTT_GetSubscribePacketSize` returns for the same list: one byte per filter
is counted for a requested QoS that UNSUBSCRIBE does not carry (without it
the remaining length is 2 + (2 + 1) = 5 and the packet size 7). -/
theorem getUnsubscribePacketSize_counts_qos_byte :
    MQTT_GetUnsubscribePacketSize (some [⟨MQTTQoS.MQTTQoS0, some [0x61], 1⟩]) 1
        (some 0) (some 0)
      = some (MQTTStatus.MQTTSuccess, some 6, some 8)
    ∧ MQTT_GetSubscribePacketSize (some [⟨MQTTQoS.MQTTQoS0, some [0x61], 1⟩]) 1
        (some 0) (some 0)
      = some (MQTTStatus.MQTTSuccess, some 6, some 8) := by
  decide

/-- C29: for the single topic filter "a" and the packet identifier 1, with
the remaining length 6 and the packet size 8 that
`MQTT_GetUnsubscribePacketSize` returns, `MQTT_SerializeUnsubscribe` into a
buffer of 8 bytes returns `MQTTSuccess` having stored the 7 bytes
`A2 06 00 01 00 01 61`: one byte less than the packet size, and the
Remaining Length on the wire says 6 where 5 bytes follow. -/
theorem serializeUnsubscribe_remaining_length_off :
    MQTT_GetUnsubscribePacketSize (some [⟨MQTTQoS.MQTTQoS0, some [0x61], 1⟩]) 1
        (some 0) (some 0)
      = some (MQTTStatus.MQTTSuccess, some 6, some 8)
    ∧ MQTT_SerializeUnsubscribe (some [⟨MQTTQoS.MQTTQoS0, some [0x61], 1⟩]) 1 1 6
        (some ⟨List.replicate 8 0, 8⟩)
      = some ⟨MQTTStatus.MQTTSuccess, [0xA2, 0x06, 0x00, 0x01, 0x00, 0x01, 0x61], true⟩ := by
  refine ⟨by decide, ?_⟩
  simp +decide [MQTT_SerializeUnsubscribe, validateSubscriptionSerializeParams,
    MQTT_SerializeUnsubscribeLoop, encodeString, encodeRemainingLength_one, addSize,
    remainingLengthEncodedSize, SIZE_MOD, UINT16_HIGH_BYTE, UINT16_LOW_BYTE, memcpyBytes,
    MQTT_PACKET_TYPE_UNSUBSCRIBE]

/-- The loop of `MQTT_SerializeSubscribe` over the `n` entries from index `i`
on, all inside the list. -/
theorem serializeSubscribeLoop_closed (list : List MQTTSubscribeInfo) :
    ∀ n i pre, i + n ≤ list.length →
      MQTT_SerializeSubscribeLoop list n i pre
        = some (pre ++ ((list.drop i).take n).flatMap (fun s =>
            [UINT16_HIGH_BYTE s.topicFilterLength, UINT16_LOW_BYTE s.topicFilterLength]
              ++ memcpyBytes s.pTopicFilter s.topicFilterLength
              ++ [s.qos.toNat % 256])) := by
  intro n
  induction n with
  | zero =>
    intro i pre _
    simp [MQTT_SerializeSubscribeLoop]
  | succ n ih =>
    intro i pre hi
    have hi' : i < list.length := by omega
    have hget : list.get? i = some list[i] := by
      rw [List.get?_eq_getElem?, List.getElem?_eq_getElem hi']
    unfold MQTT_SerializeSubscribeLoop
    simp only [hget]
    rw [ih (i + 1) _ (by omega), List.drop_eq_getElem_cons hi', List.take_succ_cons,
      List.flatMap_cons]
    simp [encodeString]

/-- Status of `validateSubscriptionSerializeParams` for non-null pointers. -/
theorem validateSubscriptionSerializeParams_closed (subs : List MQTTSubscribeInfo)
    (count packetId R : Nat) (buffer : MQTTFixedBuffer) (hR : R ≤ 268435455) :
    validateSubscriptionSerializeParams (some subs) count packetId R (some buffer)
      = if count = 0 ∨ packetId = 0 then MQTTStatus.MQTTBadParameter
        else if buffer.size < 1 + remainingLengthEncodedSize R + R then
          MQTTStatus.MQTTNoMemory
        else MQTTStatus.MQTTSuccess := by
  have hb := remainingLengthEncodedSize_bounds R
  unfold validateSubscriptionSerializeParams
  simp only
  rw [addSize_eq 1 _ (by simp only [SIZE_MOD]; omega),
    addSize_eq _ _ (by simp only [SIZE_MOD]; omega)]
  by_cases hc : count = 0
  · simp [hc]
  · by_cases hp : packetId = 0
    · simp [hc, hp]
    · simp [hc, hp]

/-- Two functions that agree on the members of a list give the same
concatenation. -/
theorem flatMap_congr_mem {α β : Type} (l : List α) (f g : α → List β)
    (h : ∀ a ∈ l, f a = g a) : l.flatMap f = l.flatMap g := by
  induction l with
  | nil => rfl
  | cons a t ih =>
    simp only [List.flatMap_cons]
    rw [h a (List.mem_cons_self _ _), ih (fun b hb => h b (List.mem_cons_of_mem _ hb))]

/-- Length of a concatenation whose pieces have known lengths. -/
theorem flatMap_length_sum {α β : Type} (l : List α) (f : α → List β) (k : α → Nat)
    (h : ∀ a ∈ l, (f a).length = k a) : (l.flatMap f).length = (l.map k).sum := by
  induction l with
  | nil => rfl
  | cons a t ih =>
    simp only [List.flatMap_cons, List.length_append, List.map_cons, List.sum_cons]
    rw [h a (List.mem_cons_self _ _), ih (fun b hb => h b (List.mem_cons_of_mem _ hb))]

/-- C28: `MQTT_SerializeSubscribe` with non-null list and buffer, a 16-bit
packet identifier and filters whose pointers are valid for their 16-bit
lengths.  With a non-empty list, a non-zero packet identifier, (R, P) from
`MQTT_GetSubscribePacketSize` and a capacity of at least P it returns
`MQTTSuccess` and stores exactly P bytes: 0x82, the Remaining Length encoding
of R, the packet identifier big-endian, then for each filter in list order
its 2-byte big-endian length, its bytes and the requested QoS.  For a count of
0 or a packet identifier of 0 it returns `MQTTBadParameter` whatever the
capacity, and otherwise, for a remaining length R2 <= 268,435,455,
`MQTTNoMemory` when the capacity is below 1 + encoded_size(R2) + R2. -/
theorem serializeSubscribe_result (subs : List MQTTSubscribeInfo)
    (packetId R P r0 p0 : Nat) (buffer : MQTTFixedBuffer)
    (hpid : packetId < 65536)
    (hlen : ∀ s ∈ subs, s.topicFilterLength < 65536)
    (hvalid : ∀ s ∈ subs, ∃ f, s.pTopicFilter = some f ∧ s.topicFilterLength ≤ f.length)
    (hfit : 2 + (subs.map (fun s => 2 + s.topicFilterLength + 1)).sum < SIZE_MOD) :
    (subs ≠ [] → packetId ≠ 0 →
      MQTT_GetSubscribePacketSize (some subs) subs.length (some r0) (some p0)
        = some (MQTTStatus.MQTTSuccess, some R, some P) →
      P ≤ buffer.size →
      ∃ out, MQTT_SerializeSubscribe (some subs) subs.length packetId R (some buffer) = some out
        ∧ out.status = MQTTStatus.MQTTSuccess
        ∧ out.written.length = P
        ∧ out.written = [0x82] ++ encodeRemainingLength [] R
            ++ [packetId / 256, packetId % 256]
            ++ subs.flatMap (fun s =>
                [s.topicFilterLength / 256, s.topicFilterLength % 256]
                  ++ (s.pTopicFilter.getD []).take s.topicFilterLength
                  ++ [s.qos.toNat]))
    ∧ (∀ count R2, count = 0 ∨ packetId = 0 →
        MQTT_SerializeSubscribe (some subs) count packetId R2 (some buffer)
          = some ⟨MQTTStatus.MQTTBadParameter, [], true⟩)
    ∧ (∀ count R2, count ≠ 0 → packetId ≠ 0 → R2 ≤ 268435455 →
        buffer.size < 1 + remainingLengthEncodedSize R2 + R2 →
        MQTT_SerializeSubscribe (some subs) count packetId R2 (some buffer)
          = some ⟨MQTTStatus.MQTTNoMemory, [], true⟩) := by
  refine ⟨?_, ?_, ?_⟩
  · intro hne hp0 hsize hcap
    have hf : (fun s : MQTTSubscribeInfo => s.topicFilterLength + 2
        + (if MQTTSubscriptionType.MQTT_SUBSCRIBE = MQTTSubscriptionType.MQTT_SUBSCRIBE
            then 1 else 0))
        = (fun s : MQTTSubscribeInfo => 2 + s.topicFilterLength + 1) := by
      funext s
      simp only [if_true]
      omega
    have hcount : subs.length ≠ 0 := fun h => hne (List.length_eq_zero.mp h)
    -- the values the sizing call returned
    have hRP : R = 2 + (subs.map (fun s => 2 + s.topicFilterLength + 1)).sum
        ∧ P = 1 + remainingLengthEncodedSize R + R ∧ R ≤ 268435455 := by
      unfold MQTT_GetSubscribePacketSize at hsize
      simp only [hcount, if_false] at hsize
      rw [calculateSubscriptionPacketSize_closed subs r0 p0
        MQTTSubscriptionType.MQTT_SUBSCRIBE (by rw [hf]; exact hfit), hf] at hsize
      generalize (subs.map (fun s : MQTTSubscribeInfo => 2 + s.topicFilterLength + 1)).sum
        = total at hsize ⊢
      by_cases h : 2 + total > 268435455
      · rw [if_pos h] at hsize
        simp at hsize
      · rw [if_neg h] at hsize
        simp only [Option.some.injEq, Prod.mk.injEq, true_and] at hsize
        obtain ⟨h1, h2⟩ := hsize
        refine ⟨h1.symm, ?_, by omega⟩
        rw [← h2, ← h1]
        omega
    obtain ⟨hR, hP, hRmax⟩ := hRP
    have hval : validateSubscriptionSerializeParams (some subs) subs.length packetId R
        (some buffer) = MQTTStatus.MQTTSuccess := by
      rw [validateSubscriptionSerializeParams_closed subs _ packetId R buffer hRmax]
      simp only [hcount, hp0, or_self, if_false]
      rw [if_neg (by omega)]
    have hbody : ∀ s ∈ subs,
        [UINT16_HIGH_BYTE s.topicFilterLength, UINT16_LOW_BYTE s.topicFilterLength]
          ++ memcpyBytes s.pTopicFilter s.topicFilterLength ++ [s.qos.toNat % 256]
        = [s.topicFilterLength / 256, s.topicFilterLength % 256]
          ++ (s.pTopicFilter.getD []).take s.topicFilterLength ++ [s.qos.toNat] := by
      intro s hs
      have hq : s.qos.toNat % 256 = s.qos.toNat := by
        cases s.qos <;> rfl
      rw [uint16_high_byte _ (hlen s hs), uint16_low_byte, hq]
      rfl
    have hflat : subs.flatMap (fun s =>
          [UINT16_HIGH_BYTE s.topicFilterLength, UINT16_LOW_BYTE s.topicFilterLength]
            ++ memcpyBytes s.pTopicFilter s.topicFilterLength ++ [s.qos.toNat % 256])
        = subs.flatMap (fun s =>
          [s.topicFilterLength / 256, s.topicFilterLength % 256]
            ++ (s.pTopicFilter.getD []).take s.topicFilterLength ++ [s.qos.toNat]) :=
      flatMap_congr_mem subs _ _ hbody
    have hfl : (subs.flatMap (fun s =>
          [s.topicFilterLength / 256, s.topicFilterLength % 256]
            ++ (s.pTopicFilter.getD []).take s.topicFilterLength ++ [s.qos.toNat])).length
        = (subs.map (fun s => 2 + s.topicFilterLength + 1)).sum := by
      apply flatMap_length_sum
      intro s hs
      obtain ⟨f, hf1, hf2⟩ := hvalid s hs
      simp only [hf1, Option.getD_some, List.length_append, List.length_cons, List.length_nil,
        List.length_take]
      omega
    refine ⟨⟨MQTTStatus.MQTTSuccess, [0x82] ++ encodeRemainingLength [] R
        ++ [packetId / 256, packetId % 256]
        ++ subs.flatMap (fun s =>
            [s.topicFilterLength / 256, s.topicFilterLength % 256]
              ++ (s.pTopicFilter.getD []).take s.topicFilterLength
              ++ [s.qos.toNat]), true⟩, ?_, rfl, ?_, rfl⟩
    · unfold MQTT_SerializeSubscribe
      simp only [hval, if_true, Option.getD_some]
      rw [serializeSubscribeLoop_closed subs subs.length 0 _ (by omega)]
      simp only [List.drop_zero, List.take_length]
      rw [hflat, uint16_high_byte packetId hpid, uint16_low_byte packetId,
        encodeRemainingLength_append R]
      simp [MQTT_PACKET_TYPE_SUBSCRIBE]
    · simp only [List.length_append, List.length_cons, List.length_nil, hfl,
        encodeRemainingLength_length R hRmax]
      omega
  · intro count R2 h
    unfold MQTT_SerializeSubscribe validateSubscriptionSerializeParams
    rcases h with h | h
    · simp [h]
    · by_cases hc : count = 0
      · simp [hc]
      · simp [h, hc]
  · intro count R2 hc hp hR2 hcap
    unfold MQTT_SerializeSubscribe
    rw [validateSubscriptionSerializeParams_closed subs count packetId R2 buffer hR2]
    simp [hc, hp, hcap]


theorem serializeSubscribe_result_witness :
    ((1 : Nat) < 65536
      ∧ ([⟨MQTTQoS.MQTTQoS1, some [0x61, 0x2F, 0x62], 3⟩] : List MQTTSubscribeInfo) ≠ []
      ∧ MQTT_GetSubscribePacketSize (some [⟨MQTTQoS.MQTTQoS1, some [0x61, 0x2F, 0x62], 3⟩]) 1
          (some 0) (some 0) = some (MQTTStatus.MQTTSuccess, some 8, some 10))
    ∧ ∃ out,
        MQTT_SerializeSubscribe (some [⟨MQTTQoS.MQTTQoS1, some [0x61, 0x2F, 0x62], 3⟩]) 1 1 8
            (some ⟨List.replicate 10 0, 10⟩) = some out
        ∧ out.status = MQTTStatus.MQTTSuccess
        ∧ out.written = [0x82, 0x08, 0x00, 0x01, 0x00, 0x03, 0x61, 0x2F, 0x62, 0x01] := by
  refine ⟨by decide, ?_⟩
  obtain ⟨out, h1, h2, -, h4⟩ :=
    (serializeSubscribe_result [⟨MQTTQoS.MQTTQoS1, some [0x61, 0x2F, 0x62], 3⟩] 1 8 10 0 0
      ⟨List.replicate 10 0, 10⟩ (by decide) (by decide)
      (by
        intro s hs
        rw [List.mem_singleton] at hs
        subst hs
        exact ⟨[0x61, 0x2F, 0x62], rfl, by decide⟩)
      (by decide)).1 (by decide) (by decide) (by decide) (by decide)
  refine ⟨out, h1, h2, ?_⟩
  rw [h4, encodeRemainingLength_one [] 8 (by decide)]
  decide

/-! ## Serialization of the publish acknowledgements -/

/-- C30: `MQTT_SerializeAck` with a non-null buffer, a packet type that is a
byte and a 16-bit packet identifier: `MQTTNoMemory` for a capacity below 4,
whatever the packet type; for a capacity of at least 4, `MQTTSuccess` and
exactly the four bytes type, 0x02, id >> 8, id & 0xFF for the types 0x40,
0x50, 0x62 and 0x70, and `MQTTBadParameter` with nothing stored for every
other type. -/
theorem serializeAck_result (buffer : MQTTFixedBuffer) (packetType packetId : Nat)
    (hid : packetId < 65536) :
    MQTT_SerializeAck (some buffer) packetType packetId
      = if buffer.size < 4 then
          { status := MQTTStatus.MQTTNoMemory, written := [], assertsHold := true }
        else if packetType = 0x40 ∨ packetType = 0x50 ∨ packetType = 0x62
            ∨ packetType = 0x70 then
          { status := MQTTStatus.MQTTSuccess,
            written := [packetType, 0x02, packetId >>> 8, packetId &&& 0xFF],
            assertsHold := true }
        else
          { status := MQTTStatus.MQTTBadParameter, written := [], assertsHold := true } := by
  have hhi : UINT16_HIGH_BYTE packetId = packetId >>> 8 := by
    rw [uint16_high_byte packetId hid, Nat.shiftRight_eq_div_pow]
  have hlo : UINT16_LOW_BYTE packetId = packetId &&& 0xFF := by
    rw [uint16_low_byte]
    have h := Nat.and_pow_two_sub_one_eq_mod packetId 8
    have e : (2 : Nat) ^ 8 - 1 = 0xFF := by norm_num
    rw [e] at h
    rw [h]
  unfold MQTT_SerializeAck
  simp only [MQTT_PUBLISH_ACK_PACKET_SIZE, MQTT_PACKET_TYPE_PUBACK, MQTT_PACKET_TYPE_PUBREC,
    MQTT_PACKET_TYPE_PUBREL, MQTT_PACKET_TYPE_PUBCOMP, MQTT_PACKET_SIMPLE_ACK_REMAINING_LENGTH,
    hhi, hlo]

theorem serializeAck_result_witness :
    (7 : Nat) < 65536
    ∧ MQTT_SerializeAck (some ⟨[0, 0, 0, 0], 4⟩) 0x62 7
      = { status := MQTTStatus.MQTTSuccess, written := [0x62, 0x02, 0x00, 0x07],
          assertsHold := true } :=
  ⟨by decide, by
    simpa using serializeAck_result ⟨[0, 0, 0, 0], 4⟩ 0x62 7 (by decide)⟩

/-! ## DISCONNECT, PINGREQ and the acknowledgement round trip -/

/-- C35: `MQTT_SerializeDisconnect` returns `MQTTBadParameter` for a null
buffer, `MQTTNoMemory` for a capacity below 2 and otherwise `MQTTSuccess`
with the two bytes `E0 00`; `MQTT_SerializePingreq` does the same with the two
bytes `C0 00`; `MQTT_GetDisconnectPacketSize` returns `MQTTSuccess` and the
size 2 whatever the output variable held. -/
theorem disconnect_pingreq_result (buffer : MQTTFixedBuffer) (p0 : Nat) :
    MQTT_SerializeDisconnect (some buffer)
      = (if buffer.size < 2 then
          { status := MQTTStatus.MQTTNoMemory, written := [], assertsHold := true }
        else
          { status := MQTTStatus.MQTTSuccess, written := [0xE0, 0x00], assertsHold := true })
    ∧ MQTT_SerializePingreq (some buffer)
      = (if buffer.size < 2 then
          { status := MQTTStatus.MQTTNoMemory, written := [], assertsHold := true }
        else
          { status := MQTTStatus.MQTTSuccess, written := [0xC0, 0x00], assertsHold := true })
    ∧ MQTT_SerializeDisconnect none
      = { status := MQTTStatus.MQTTBadParameter, written := [], assertsHold := true }
    ∧ MQTT_SerializePingreq none
      = { status := MQTTStatus.MQTTBadParameter, written := [], assertsHold := true }
    ∧ MQTT_GetDisconnectPacketSize (some p0) = some (MQTTStatus.MQTTSuccess, 2) := by
  refine ⟨?_, ?_, rfl, rfl, rfl⟩
  · simp only [MQTT_SerializeDisconnect, MQTT_GetDisconnectPacketSize,
      MQTT_DISCONNECT_PACKET_SIZE, MQTT_PACKET_TYPE_DISCONNECT,
      MQTT_DISCONNECT_REMAINING_LENGTH, if_true]
  · simp only [MQTT_SerializePingreq, MQTT_PACKET_PINGREQ_SIZE, MQTT_PACKET_TYPE_PINGREQ]

/-- C31: for the packet types PUBACK, PUBREC, PUBREL, PUBCOMP (0x40, 0x50,
0x62, 0x70), every non-zero 16-bit packet identifier and a buffer of capacity
at least 4: the four bytes stored by `MQTT_SerializeAck`, presented as a
packet (type = byte 0, remaining length = byte 1, data = bytes 2..3), make
`MQTT_DeserializeAck` return `MQTTSuccess` with the same packet identifier,
and byte 0 passes `incomingPacketValid`. -/
theorem ack_roundtrip (buffer : MQTTFixedBuffer) (packetType packetId pid0 : Nat)
    (sessionPresent : Bool)
    (ht : packetType = 0x40 ∨ packetType = 0x50 ∨ packetType = 0x62 ∨ packetType = 0x70)
    (hid : packetId < 65536) (hid0 : packetId ≠ 0) (hcap : 4 ≤ buffer.size) :
    (MQTT_SerializeAck (some buffer) packetType packetId).status = MQTTStatus.MQTTSuccess
    ∧ (MQTT_SerializeAck (some buffer) packetType packetId).written.length = 4
    ∧ MQTT_DeserializeAck
        (some ⟨(MQTT_SerializeAck (some buffer) packetType packetId).written.getD 0 0,
          some ((MQTT_SerializeAck (some buffer) packetType packetId).written.drop 2),
          (MQTT_SerializeAck (some buffer) packetType packetId).written.getD 1 0⟩)
        (some pid0) (some sessionPresent)
      = some (MQTTStatus.MQTTSuccess, some packetId, some sessionPresent)
    ∧ incomingPacketValid
        ((MQTT_SerializeAck (some buffer) packetType packetId).written.getD 0 0) = true := by
  have hser : MQTT_SerializeAck (some buffer) packetType packetId
      = { status := MQTTStatus.MQTTSuccess,
          written := [packetType, 2, UINT16_HIGH_BYTE packetId, UINT16_LOW_BYTE packetId],
          assertsHold := true } := by
    unfold MQTT_SerializeAck
    simp only [MQTT_PUBLISH_ACK_PACKET_SIZE, MQTT_PACKET_TYPE_PUBACK, MQTT_PACKET_TYPE_PUBREC,
      MQTT_PACKET_TYPE_PUBREL, MQTT_PACKET_TYPE_PUBCOMP,
      MQTT_PACKET_SIMPLE_ACK_REMAINING_LENGTH]
    rw [if_neg (by omega), if_pos ht]
  rw [hser]
  refine ⟨rfl, rfl, ?_, ?_⟩
  · have hdec : UINT16_DECODE (UINT16_HIGH_BYTE packetId) (UINT16_LOW_BYTE packetId)
        = packetId := uint16_decode_encode packetId hid
    rcases ht with rfl | rfl | rfl | rfl <;>
      simp [MQTT_DeserializeAck, MQTT_PACKET_TYPE_CONNACK, MQTT_PACKET_TYPE_SUBACK,
        MQTT_PACKET_TYPE_PINGRESP, MQTT_PACKET_TYPE_UNSUBACK, MQTT_PACKET_TYPE_PUBACK,
        MQTT_PACKET_TYPE_PUBREC, MQTT_PACKET_TYPE_PUBREL, MQTT_PACKET_TYPE_PUBCOMP,
        deserializeSimpleAck, MQTT_PACKET_SIMPLE_ACK_REMAINING_LENGTH, readByte, hdec, hid0]
  · rcases ht with rfl | rfl | rfl | rfl
    · exact (by decide : incomingPacketValid 0x40 = true)
    · exact (by decide : incomingPacketValid 0x50 = true)
    · exact (by decide : incomingPacketValid 0x62 = true)
    · exact (by decide : incomingPacketValid 0x70 = true)

theorem ack_roundtrip_witness :
    ((0x62 = 0x40 ∨ 0x62 = 0x50 ∨ 0x62 = 0x62 ∨ 0x62 = 0x70) ∧ (7 : Nat) < 65536
      ∧ (7 : Nat) ≠ 0)
    ∧ MQTT_DeserializeAck
        (some ⟨(MQTT_SerializeAck (some ⟨[0, 0, 0, 0], 4⟩) 0x62 7).written.getD 0 0,
          some ((MQTT_SerializeAck (some ⟨[0, 0, 0, 0], 4⟩) 0x62 7).written.drop 2),
          (MQTT_SerializeAck (some ⟨[0, 0, 0, 0], 4⟩) 0x62 7).written.getD 1 0⟩)
        (some 0) (some false)
      = some (MQTTStatus.MQTTSuccess, some 7, some false) :=
  ⟨by decide, (ack_roundtrip ⟨[0, 0, 0, 0], 4⟩ 0x62 7 0 false (by decide) (by decide)
    (by decide) (by decide)).2.2.1⟩

/-! ## Validation order and failure behaviour of the serializers -/

/-- C33: `MQTT_SerializePublish` for a QoS 0 PUBLISH with topic "a" and
payload "hi", called with the remaining length 2^64 - 1 and a buffer of
capacity 4: the `size_t` sum 1 + 4 + (2^64 - 1) of the capacity check wraps to
4, so the call is not refused with `MQTTNoMemory` although the capacity is far
below 1 + encoded_size(R) + R; it returns `MQTTSuccess` having stored 16 bytes
into the 4-byte buffer, and the end-of-serialization assertion of
`serializePublishCommon` fails. -/
theorem serializePublish_capacity_check_wraps :
    (4 : Nat) < 1 + remainingLengthEncodedSize 18446744073709551615 + 18446744073709551615
    ∧ addSize (addSize 1 (remainingLengthEncodedSize 18446744073709551615))
        18446744073709551615 = 4
    ∧ MQTT_SerializePublish
        (some ⟨MQTTQoS.MQTTQoS0, false, false, some [0x61], 1, some [0x68, 0x69], 2⟩) 0
        18446744073709551615 (some ⟨[0, 0, 0, 0], 4⟩)
      = ⟨MQTTStatus.MQTTSuccess,
          [0x30, 0xFF, 0xFF, 0xFF, 0xFF, 0xFF, 0xFF, 0xFF, 0xFF, 0xFF, 0x01,
            0x00, 0x01, 0x61, 0x68, 0x69], false⟩ := by
  have henc : encodeRemainingLength [] 18446744073709551615
      = [0xFF, 0xFF, 0xFF, 0xFF, 0xFF, 0xFF, 0xFF, 0xFF, 0xFF, 0x01] := by
    rw [encodeRemainingLength_step _ _ (by norm_num)]
    norm_num
    rw [encodeRemainingLength_step _ _ (by norm_num)]
    norm_num
    rw [encodeRemainingLength_step _ _ (by norm_num)]
    norm_num
    rw [encodeRemainingLength_step _ _ (by norm_num)]
    norm_num
    rw [encodeRemainingLength_step _ _ (by norm_num)]
    norm_num
    rw [encodeRemainingLength_step _ _ (by norm_num)]
    norm_num
    rw [encodeRemainingLength_step _ _ (by norm_num)]
    norm_num
    rw [encodeRemainingLength_step _ _ (by norm_num)]
    norm_num
    rw [encodeRemainingLength_step _ _ (by norm_num)]
    norm_num
    rw [encodeRemainingLength_one _ _ (by norm_num)]
    rfl
  have hsz : addSize (addSize 1 (remainingLengthEncodedSize 18446744073709551615))
      18446744073709551615 = 4 := by
    norm_num [addSize, remainingLengthEncodedSize, SIZE_MOD]
  refine ⟨by norm_num [remainingLengthEncodedSize], hsz, ?_⟩
  rw [serializePublish_success _ _ _ _ (by simp) (by simp) (by simp) (by rw [hsz])]
  have hb := serializePublishCommon_bytes
    ⟨MQTTQoS.MQTTQoS0, false, false, some [0x61], 1, some [0x68, 0x69], 2⟩
    18446744073709551615 0 ⟨[0, 0, 0, 0], 4⟩ true
  rw [henc] at hb
  have hbytes : (serializePublishCommon
      ⟨MQTTQoS.MQTTQoS0, false, false, some [0x61], 1, some [0x68, 0x69], 2⟩
      18446744073709551615 0 ⟨[0, 0, 0, 0], 4⟩ true).bytes
      = [0x30, 0xFF, 0xFF, 0xFF, 0xFF, 0xFF, 0xFF, 0xFF, 0xFF, 0xFF, 0x01,
          0x00, 0x01, 0x61, 0x68, 0x69] := by
    rw [hb]
    decide
  have hassert : (serializePublishCommon
      ⟨MQTTQoS.MQTTQoS0, false, false, some [0x61], 1, some [0x68, 0x69], 2⟩
      18446744073709551615 0 ⟨[0, 0, 0, 0], 4⟩ true).assertsHold
      = (decide (MQTTQoS.MQTTQoS0 = MQTTQoS.MQTTQoS0 ∨ (0 : Nat) ≠ 0)
          && decide (false = false ∨ MQTTQoS.MQTTQoS0.toNat > MQTTQoS.MQTTQoS0.toNat)
          && decide ((serializePublishCommon
              ⟨MQTTQoS.MQTTQoS0, false, false, some [0x61], 1, some [0x68, 0x69], 2⟩
              18446744073709551615 0 ⟨[0, 0, 0, 0], 4⟩ true).bytes.length ≤ 4)) := rfl
  rw [hassert, hbytes]
  decide

/-- The end-of-serialization assertion of `serializeConnectPacket` compares
the number of bytes stored with the capacity. -/
theorem serializeConnectPacket_assert (info : MQTTConnectInfo) (will : Option MQTTPublishInfo)
    (R : Nat) (buffer : MQTTFixedBuffer) :
    (serializeConnectPacket info will R buffer).assertsHold
      = decide ((serializeConnectPacket info will R buffer).bytes.length ≤ buffer.size) :=
  rfl

/-- C32: `MQTT_SerializePublish` for a QoS 0 PUBLISH with topic "a" and
payload "hi", called with the remaining length 0 and a buffer of capacity 2,
returns `MQTTSuccess` having stored the 7 bytes `30 00 00 01 61 68 69`, five
more than the capacity, and the end-of-serialization assertion of
`serializePublishCommon` fails; `MQTT_SerializeConnect` for the client
identifier "test", called with the remaining length 0 and a buffer of capacity
2, returns `MQTTSuccess` having stored 18 bytes, and the assertion of
`serializeConnectPacket` fails. -/
theorem serializers_overrun_small_remaining_length :
    MQTT_SerializePublish
        (some ⟨MQTTQoS.MQTTQoS0, false, false, some [0x61], 1, some [0x68, 0x69], 2⟩) 0 0
        (some ⟨[0, 0], 2⟩)
      = ⟨MQTTStatus.MQTTSuccess, [0x30, 0x00, 0x00, 0x01, 0x61, 0x68, 0x69], false⟩
    ∧ (MQTT_SerializeConnect
        (some ⟨true, 60, some [0x74, 0x65, 0x73, 0x74], 4, none, 0, none, 0⟩) none 0
        (some ⟨[0, 0], 2⟩)).status = MQTTStatus.MQTTSuccess
    ∧ (MQTT_SerializeConnect
        (some ⟨true, 60, some [0x74, 0x65, 0x73, 0x74], 4, none, 0, none, 0⟩) none 0
        (some ⟨[0, 0], 2⟩)).written
      = [0x10, 0x00, 0x00, 0x04, 0x4D, 0x51, 0x54, 0x54, 0x04, 0x02, 0x00, 0x3C,
          0x00, 0x04, 0x74, 0x65, 0x73, 0x74]
    ∧ (MQTT_SerializeConnect
        (some ⟨true, 60, some [0x74, 0x65, 0x73, 0x74], 4, none, 0, none, 0⟩) none 0
        (some ⟨[0, 0], 2⟩)).assertsHold = false := by
  have hbytes : (serializeConnectPacket
      ⟨true, 60, some [0x74, 0x65, 0x73, 0x74], 4, none, 0, none, 0⟩ none 0 ⟨[0, 0], 2⟩).bytes
      = [0x10, 0x00, 0x00, 0x04, 0x4D, 0x51, 0x54, 0x54, 0x04, 0x02, 0x00, 0x3C,
          0x00, 0x04, 0x74, 0x65, 0x73, 0x74] := by
    rw [serializeConnectPacket_bytes, encodeRemainingLength_one [0x10] 0 (by decide)]
    decide
  refine ⟨?_, ?_, ?_, ?_⟩
  · simp +decide [MQTT_SerializePublish, serializePublishCommon, encodeString,
      encodeRemainingLength_one, addSize, remainingLengthEncodedSize, SIZE_MOD, UINT8_SET_BIT,
      UINT16_HIGH_BYTE, UINT16_LOW_BYTE, memcpyBytes, MQTTQoS.toNat, MQTT_PACKET_TYPE_PUBLISH,
      MQTT_PUBLISH_FLAG_QOS1, MQTT_PUBLISH_FLAG_QOS2, MQTT_PUBLISH_FLAG_RETAIN,
      MQTT_PUBLISH_FLAG_DUP]
  · rw [serializeConnect_success _ _ _ _ (by decide)]
  · rw [serializeConnect_success _ _ _ _ (by decide)]
    exact hbytes
  · rw [serializeConnect_success _ _ _ _ (by decide)]
    simp only
    rw [serializeConnectPacket_assert, hbytes]
    decide

/-- C39: whenever one of the eight serializers returns a status other than
`MQTTSuccess`, it has stored no byte, so the buffer region is as before the
call, and `MQTT_SerializePublishHeader` leaves `*pHeaderSize` as it was. -/
theorem serializers_no_store_on_failure :
    (∀ info will R buffer,
      (MQTT_SerializeConnect info will R buffer).status ≠ MQTTStatus.MQTTSuccess →
      (MQTT_SerializeConnect info will R buffer).written = [])
    ∧ (∀ info packetId R buffer,
      (MQTT_SerializePublish info packetId R buffer).status ≠ MQTTStatus.MQTTSuccess →
      (MQTT_SerializePublish info packetId R buffer).written = [])
    ∧ (∀ info packetId R buffer headerSize,
      (MQTT_SerializePublishHeader info packetId R buffer headerSize).1.status
        ≠ MQTTStatus.MQTTSuccess →
      (MQTT_SerializePublishHeader info packetId R buffer headerSize).1.written = []
      ∧ (MQTT_SerializePublishHeader info packetId R buffer headerSize).2 = headerSize)
    ∧ (∀ list count packetId R buffer out,
      MQTT_SerializeSubscribe list count packetId R buffer = some out →
      out.status ≠ MQTTStatus.MQTTSuccess → out.written = [])
    ∧ (∀ list count packetId R buffer out,
      MQTT_SerializeUnsubscribe list count packetId R buffer = some out →
      out.status ≠ MQTTStatus.MQTTSuccess → out.written = [])
    ∧ (∀ buffer packetType packetId,
      (MQTT_SerializeAck buffer packetType packetId).status ≠ MQTTStatus.MQTTSuccess →
      (MQTT_SerializeAck buffer packetType packetId).written = [])
    ∧ (∀ buffer,
      (MQTT_SerializeDisconnect buffer).status ≠ MQTTStatus.MQTTSuccess →
      (MQTT_SerializeDisconnect buffer).written = [])
    ∧ (∀ buffer,
      (MQTT_SerializePingreq buffer).status ≠ MQTTStatus.MQTTSuccess →
      (MQTT_SerializePingreq buffer).written = [])
    ∧ (∀ buffer : MQTTFixedBuffer, bufferAfter buffer [] = buffer.pBuffer) := by
  refine ⟨?_, ?_, ?_, ?_, ?_, ?_, ?_, ?_, ?_⟩
  · intro info will R buffer h
    unfold MQTT_SerializeConnect at h ⊢
    cases info <;> cases buffer <;> simp only at h ⊢
    split_ifs at h ⊢
    · rfl
    · exact absurd rfl h
  · intro info packetId R buffer h
    unfold MQTT_SerializePublish at h ⊢
    cases info <;> cases buffer <;> simp only at h ⊢
    split_ifs at h ⊢
    · rfl
    · rfl
    · rfl
    · exact absurd rfl h
  · intro info packetId R buffer headerSize h
    unfold MQTT_SerializePublishHeader at h ⊢
    cases info <;> cases buffer <;> cases headerSize <;> simp only at h ⊢
    all_goals first
      | exact ⟨trivial, trivial⟩
      | (split_ifs at h ⊢ <;>
          first
            | exact ⟨trivial, trivial⟩
            | exact ⟨rfl, rfl⟩
            | exact absurd rfl h)
  · intro list count packetId R buffer out hout h
    unfold MQTT_SerializeSubscribe at hout
    simp only at hout
    by_cases hv : validateSubscriptionSerializeParams list count packetId R buffer
        = MQTTStatus.MQTTSuccess
    · rw [if_pos hv] at hout
      split at hout
      · exact absurd hout (by simp)
      · simp only [Option.some.injEq] at hout
        subst hout
        exact absurd hv h
    · rw [if_neg hv] at hout
      simp only [Option.some.injEq] at hout
      subst hout
      rfl
  · intro list count packetId R buffer out hout h
    unfold MQTT_SerializeUnsubscribe at hout
    simp only at hout
    by_cases hv : validateSubscriptionSerializeParams list count packetId R buffer
        = MQTTStatus.MQTTSuccess
    · rw [if_pos hv] at hout
      split at hout
      · exact absurd hout (by simp)
      · simp only [Option.some.injEq] at hout
        subst hout
        exact absurd hv h
    · rw [if_neg hv] at hout
      simp only [Option.some.injEq] at hout
      subst hout
      rfl
  · intro buffer packetType packetId h
    unfold MQTT_SerializeAck at h ⊢
    cases buffer <;> simp only at h ⊢
    split_ifs at h ⊢
    · rfl
    · exact absurd rfl h
    · rfl
  · intro buffer h
    unfold MQTT_SerializeDisconnect MQTT_GetDisconnectPacketSize at h ⊢
    cases buffer <;> simp only [if_true] at h ⊢
    split_ifs at h ⊢
    · rfl
    · exact absurd rfl h
  · intro buffer h
    unfold MQTT_SerializePingreq at h ⊢
    cases buffer <;> simp only at h ⊢
    split_ifs at h ⊢
    · rfl
    · exact absurd rfl h
  · intro buffer
    simp [bufferAfter]

theorem serializers_no_store_on_failure_witness :
    (MQTT_SerializePingreq (some ⟨[9], 1⟩)).status ≠ MQTTStatus.MQTTSuccess
    ∧ (MQTT_SerializePingreq (some ⟨[9], 1⟩)).written = [] :=
  ⟨by decide, serializers_no_store_on_failure.2.2.2.2.2.2.2.1 (some ⟨[9], 1⟩) (by decide)⟩

/-! ## Framer output and type dispatch -/

/-- C34: the framer reads the type byte 0x30 and the Remaining Length byte
0x05 into a record whose data pointer held three bytes before the call: it
returns `MQTTSuccess` with type 0x30 and remaining length 5, and the data
pointer is still the one the record held, not null. -/
theorem framer_keeps_data_pointer_counterexample :
    (MQTT_GetIncomingPacketTypeAndLength scriptedRecv ⟨deliver [0x30, 0x05], []⟩
        ⟨0, some [1, 2, 3], 0⟩).1 = MQTTStatus.MQTTSuccess
    ∧ (MQTT_GetIncomingPacketTypeAndLength scriptedRecv ⟨deliver [0x30, 0x05], []⟩
        ⟨0, some [1, 2, 3], 0⟩).2.1 = ⟨0x30, some [1, 2, 3], 5⟩
    ∧ (MQTT_GetIncomingPacketTypeAndLength scriptedRecv ⟨deliver [0x30, 0x05], []⟩
        ⟨0, some [1, 2, 3], 0⟩).2.1.pRemainingData ≠ none := by
  simp only [deliver, List.map_cons, List.map_nil]
  rw [framer_scripted 0x30 (by decide) (by decide),
    getRemainingLength_one_byte 5 (by decide)]
  simp [MQTT_REMAINING_LENGTH_INVALID]

/-- C34, amended: for every reader and every record, the framer leaves the
remaining-data pointer of the record as it was before the call (on every
outcome: the pointer is null afterwards only if it was null before); whenever
it returns `MQTTSuccess`, the type of the record is the byte the first read
delivered and the remaining length is the value `getRemainingLength`
decoded. -/
theorem framer_output_record {σ : Type} (readFunc : MQTTTransportRecvFunc σ)
    (net : Network σ) (pIncomingPacket : MQTTPacketInfo) :
    (MQTT_GetIncomingPacketTypeAndLength readFunc net pIncomingPacket).2.1.pRemainingData
      = pIncomingPacket.pRemainingData
    ∧ ((MQTT_GetIncomingPacketTypeAndLength readFunc net pIncomingPacket).1
        = MQTTStatus.MQTTSuccess →
      (MQTT_GetIncomingPacketTypeAndLength readFunc net pIncomingPacket).2.1.type
        = (readFunc net.context pIncomingPacket.type 1).2.1 % 256
      ∧ (MQTT_GetIncomingPacketTypeAndLength readFunc net pIncomingPacket).2.1.remainingLength
        = (getRemainingLength readFunc (recvCall readFunc net pIncomingPacket.type 1).2.2).1)
    := by
  unfold MQTT_GetIncomingPacketTypeAndLength
  simp only
  split_ifs <;> simp [recvCall]

theorem framer_output_record_witness :
    (MQTT_GetIncomingPacketTypeAndLength scriptedRecv ⟨deliver [0x30, 0x05], []⟩
        ⟨0, some [1, 2, 3], 0⟩).1 = MQTTStatus.MQTTSuccess
    ∧ (MQTT_GetIncomingPacketTypeAndLength scriptedRecv ⟨deliver [0x30, 0x05], []⟩
        ⟨0, some [1, 2, 3], 0⟩).2.1.type
      = (scriptedRecv (deliver [0x30, 0x05]) 0 1).2.1 % 256 := by
  have h : (MQTT_GetIncomingPacketTypeAndLength scriptedRecv ⟨deliver [0x30, 0x05], []⟩
      ⟨0, some [1, 2, 3], 0⟩).1 = MQTTStatus.MQTTSuccess := by
    simp only [deliver, List.map_cons, List.map_nil]
    rw [framer_scripted 0x30 (by decide) (by decide),
      getRemainingLength_one_byte 5 (by decide)]
    simp [MQTT_REMAINING_LENGTH_INVALID]
  exact ⟨h, ((framer_output_record scriptedRecv ⟨deliver [0x30, 0x05], []⟩
    ⟨0, some [1, 2, 3], 0⟩).2 h).1⟩

/-- C40: the type bytes 0x21, 0x41, 0x66, 0x91 and 0xD1 pass
`incomingPacketValid`, and `MQTT_DeserializeAck` returns `MQTTBadResponse`
for each of them on the data that gives `MQTTSuccess` with the type byte 0x20,
0x40, 0x62, 0x90 and 0xD0: its switch compares the whole type byte. -/
theorem deserializeAck_flag_bits_counterexample :
    (incomingPacketValid 0x21 = true ∧ incomingPacketValid 0x41 = true
      ∧ incomingPacketValid 0x66 = true ∧ incomingPacketValid 0x91 = true
      ∧ incomingPacketValid 0xD1 = true)
    ∧ MQTT_DeserializeAck (some ⟨0x21, some [0x00, 0x00], 2⟩) (some 0) (some false)
      = some (MQTTStatus.MQTTBadResponse, some 0, some false)
    ∧ MQTT_DeserializeAck (some ⟨0x20, some [0x00, 0x00], 2⟩) (some 0) (some false)
      = some (MQTTStatus.MQTTSuccess, some 0, some false)
    ∧ MQTT_DeserializeAck (some ⟨0x41, some [0x00, 0x07], 2⟩) (some 0) (some false)
      = some (MQTTStatus.MQTTBadResponse, some 0, some false)
    ∧ MQTT_DeserializeAck (some ⟨0x40, some [0x00, 0x07], 2⟩) (some 0) (some false)
      = some (MQTTStatus.MQTTSuccess, some 7, some false)
    ∧ MQTT_DeserializeAck (some ⟨0x66, some [0x00, 0x07], 2⟩) (some 0) (some false)
      = some (MQTTStatus.MQTTBadResponse, some 0, some false)
    ∧ MQTT_DeserializeAck (some ⟨0x62, some [0x00, 0x07], 2⟩) (some 0) (some false)
      = some (MQTTStatus.MQTTSuccess, some 7, some false)
    ∧ MQTT_DeserializeAck (some ⟨0xD1, some [], 0⟩) (some 0) (some false)
      = some (MQTTStatus.MQTTBadResponse, some 0, some false)
    ∧ MQTT_DeserializeAck (some ⟨0xD0, some [], 0⟩) (some 0) (some false)
      = some (MQTTStatus.MQTTSuccess, some 0, some false)
    ∧ MQTT_DeserializeAck (some ⟨0x91, some [0x00, 0x07, 0x01], 3⟩) (some 0) (some false)
      = some (MQTTStatus.MQTTBadResponse, some 0, some false) := by
  refine ⟨by decide, by decide, by decide, by decide, by decide, by decide, by decide,
    by decide, by decide, by decide⟩

/-- C40, amended: a type byte with high nibble 3 is never refused with
`MQTTBadParameter` by `MQTT_DeserializePublish` (on a packet whose data has
the declared length).  `MQTT_DeserializeAck`, given a non-null data pointer,
hands the packet to `deserializeConnack` for the type byte 0x20, to
`deserializeSuback` for 0x90, to `deserializePingresp` for 0xD0 and to
`deserializeSimpleAck` for 0x40, 0x50, 0x62, 0x70 and 0xB0; for every other
type byte, among them all the other bytes that `incomingPacketValid` accepts
outside the high nibble 3 (0x21, 0x41, 0x66, 0x91, 0xD1, ...), it returns
`MQTTBadResponse` and leaves the outputs as they were. -/
theorem deserializer_type_dispatch (t R pid0 : Nat) (sp : Bool) (out0 : MQTTPublishInfo)
    (data d : List Nat) (hbytes : ∀ b ∈ d, b < 256) (hR : d.length < SIZE_MOD) :
    ((t &&& 0xF0) = 0x30 →
      ∃ st pid out,
        MQTT_DeserializePublish (some ⟨t, some d, d.length⟩) (some pid0) (some out0)
          = some (st, some pid, some out)
        ∧ st ≠ MQTTStatus.MQTTBadParameter)
    ∧ MQTT_DeserializeAck (some ⟨0x20, some data, R⟩) (some pid0) (some sp)
      = (deserializeConnack ⟨0x20, some data, R⟩ sp).map
          (fun r => (r.1, some pid0, some r.2))
    ∧ MQTT_DeserializeAck (some ⟨0x90, some data, R⟩) (some pid0) (some sp)
      = (deserializeSuback ⟨0x90, some data, R⟩ pid0).map
          (fun r => (r.1, some r.2, some sp))
    ∧ MQTT_DeserializeAck (some ⟨0xD0, some data, R⟩) (some pid0) (some sp)
      = some (deserializePingresp ⟨0xD0, some data, R⟩, some pid0, some sp)
    ∧ (t = 0x40 ∨ t = 0x50 ∨ t = 0x62 ∨ t = 0x70 ∨ t = 0xB0 →
      MQTT_DeserializeAck (some ⟨t, some data, R⟩) (some pid0) (some sp)
        = (deserializeSimpleAck ⟨t, some data, R⟩ pid0).map
            (fun r => (r.1, some r.2, some sp)))
    ∧ (t ≠ 0x20 → t ≠ 0x40 → t ≠ 0x50 → t ≠ 0x62 → t ≠ 0x70 → t ≠ 0x90 → t ≠ 0xB0
        → t ≠ 0xD0 →
      MQTT_DeserializeAck (some ⟨t, some data, R⟩) (some pid0) (some sp)
        = some (MQTTStatus.MQTTBadResponse, some pid0, some sp)) := by
  refine ⟨?_, ?_, ?_, ?_, ?_, ?_⟩
  · intro hn
    rw [deserializePublish_dispatch t d.length pid0 out0 (some d) hn,
      deserializePublish_closed t pid0 out0 d hbytes hR]
    split_ifs <;> exact ⟨_, _, _, rfl, by simp⟩
  · simp only [MQTT_DeserializeAck, MQTT_PACKET_TYPE_CONNACK, reduceCtorEq, if_false, if_true]
    cases deserializeConnack ⟨0x20, some data, R⟩ sp <;> rfl
  · have h : (0x90 : Nat) ≠ 0x20 := by decide
    simp only [MQTT_DeserializeAck, MQTT_PACKET_TYPE_CONNACK, MQTT_PACKET_TYPE_SUBACK,
      reduceCtorEq, if_false, if_true, h]
    cases deserializeSuback ⟨0x90, some data, R⟩ pid0 <;> rfl
  · simp [MQTT_DeserializeAck, MQTT_PACKET_TYPE_CONNACK, MQTT_PACKET_TYPE_SUBACK,
      MQTT_PACKET_TYPE_PINGRESP]
  · intro ht
    rcases ht with rfl | rfl | rfl | rfl | rfl <;>
      (simp only [MQTT_DeserializeAck, MQTT_PACKET_TYPE_CONNACK, MQTT_PACKET_TYPE_SUBACK,
        MQTT_PACKET_TYPE_PINGRESP, MQTT_PACKET_TYPE_UNSUBACK, MQTT_PACKET_TYPE_PUBACK,
        MQTT_PACKET_TYPE_PUBREC, MQTT_PACKET_TYPE_PUBREL, MQTT_PACKET_TYPE_PUBCOMP]
       simp only [reduceCtorEq, if_false, Nat.reduceEqDiff, or_true, true_or, or_false,
         false_or, if_true]
       cases deserializeSimpleAck _ pid0 <;> rfl)
  · intro h1 h2 h3 h4 h5 h6 h7 h8
    simp [MQTT_DeserializeAck, MQTT_PACKET_TYPE_CONNACK, MQTT_PACKET_TYPE_SUBACK,
      MQTT_PACKET_TYPE_PINGRESP, MQTT_PACKET_TYPE_UNSUBACK, MQTT_PACKET_TYPE_PUBACK,
      MQTT_PACKET_TYPE_PUBREC, MQTT_PACKET_TYPE_PUBREL, MQTT_PACKET_TYPE_PUBCOMP,
      h1, h2, h3, h4, h5, h6, h7, h8]

theorem deserializer_type_dispatch_witness :
    ((0x21 : Nat) ≠ 0x20 ∧ (∀ b ∈ ([] : List Nat), b < 256))
    ∧ MQTT_DeserializeAck (some ⟨0x21, some [0x00, 0x00], 2⟩) (some 0) (some false)
      = some (MQTTStatus.MQTTBadResponse, some 0, some false) :=
  ⟨⟨by decide, by simp⟩,
    (deserializer_type_dispatch 0x21 2 0 false ⟨MQTTQoS.MQTTQoS0, false, false, none, 0, none, 0⟩
      [0x00, 0x00] [] (by simp) (by decide)).2.2.2.2.2 (by decide) (by decide) (by decide)
      (by decide) (by decide) (by decide) (by decide) (by decide)⟩

/-! ## The two payload limits of the PUBLISH sizing -/

/-- C36: `calculatePublishPacketSize`, with H = 2 + len(topic) + (2 if
QoS > 0 else 0) and R = H + len(payload).  The function compares the payload
length with the limit 268,435,455 - H - 1 and then with that limit less
encoded_size(R); neither `size_t` subtraction wraps below zero; the second
comparison implies the first; and the function succeeds, with outputs R and
1 + encoded_size(R) + R, exactly when 1 + encoded_size(R) + R <=
268,435,455. -/
theorem calculatePublishPacketSize_limits (info : MQTTPublishInfo) (r0 p0 H R : Nat)
    (htl : info.topicNameLength < 65536) (hpl : info.payloadLength < SIZE_MOD)
    (hH : H = 2 + info.topicNameLength + (if info.qos = MQTTQoS.MQTTQoS0 then 0 else 2))
    (hR : R = H + info.payloadLength) :
    calculatePublishPacketSize info r0 p0
      = (if info.payloadLength > subSize (subSize MQTT_MAX_REMAINING_LENGTH H) 1 then
          (false, r0, p0)
        else if info.payloadLength
            > subSize (subSize (subSize MQTT_MAX_REMAINING_LENGTH H) 1)
                (remainingLengthEncodedSize (addSize H info.payloadLength)) then
          (false, r0, p0)
        else
          (true, addSize H info.payloadLength,
            addSize (addSize H info.payloadLength)
              (addSize 1 (remainingLengthEncodedSize (addSize H info.payloadLength)))))
    ∧ (H + 1 ≤ 268435455
      ∧ subSize (subSize MQTT_MAX_REMAINING_LENGTH H) 1 = 268435455 - H - 1)
    ∧ (info.payloadLength ≤ 268435455 - H - 1 →
        addSize H info.payloadLength = R
        ∧ remainingLengthEncodedSize R ≤ 268435455 - H - 1
        ∧ subSize (subSize (subSize MQTT_MAX_REMAINING_LENGTH H) 1)
            (remainingLengthEncodedSize (addSize H info.payloadLength))
          = 268435455 - H - 1 - remainingLengthEncodedSize R)
    ∧ (info.payloadLength ≤ 268435455 - H - 1 - remainingLengthEncodedSize R →
        info.payloadLength ≤ 268435455 - H - 1)
    ∧ calculatePublishPacketSize info r0 p0
      = (if 1 + remainingLengthEncodedSize R + R ≤ 268435455 then
          (true, R, 1 + remainingLengthEncodedSize R + R)
        else (false, r0, p0)) := by
  obtain ⟨qos, retain, dup, topic, tl, payload, pl⟩ := info
  simp only at htl hpl hH hR ⊢
  have hHb : H ≤ 65539 := by
    subst hH; split_ifs <;> omega
  have hpl' : pl < 18446744073709551616 := hpl
  have hb := remainingLengthEncodedSize_bounds R
  have e1 : (if qos.toNat > MQTTQoS.MQTTQoS0.toNat
      then addSize (addSize 0 (addSize tl 2)) 2 else addSize 0 (addSize tl 2)) = H := by
    subst hH
    rw [addSize_eq tl 2 (by simp only [SIZE_MOD]; omega),
      addSize_eq 0 _ (by simp only [SIZE_MOD]; omega),
      addSize_eq _ 2 (by simp only [SIZE_MOD]; omega)]
    cases qos <;> simp [MQTTQoS.toNat] <;> omega
  have e2 : subSize (subSize MQTT_MAX_REMAINING_LENGTH H) 1 = 268435455 - H - 1 := by
    rw [subSize_eq _ H (by simp only [MQTT_MAX_REMAINING_LENGTH]; omega)
      (by simp only [MQTT_MAX_REMAINING_LENGTH, SIZE_MOD]; omega),
      subSize_eq _ 1 (by simp only [MQTT_MAX_REMAINING_LENGTH]; omega)
      (by simp only [MQTT_MAX_REMAINING_LENGTH, SIZE_MOD]; omega)]
    simp only [MQTT_MAX_REMAINING_LENGTH]
  have e3 : pl ≤ 268435455 - H - 1 → addSize H pl = R := by
    intro h
    rw [addSize_eq _ _ (by simp only [SIZE_MOD]; omega)]
    exact hR.symm
  have e4 : pl ≤ 268435455 - H - 1 →
      subSize (subSize (subSize MQTT_MAX_REMAINING_LENGTH H) 1)
          (remainingLengthEncodedSize (addSize H pl))
        = 268435455 - H - 1 - remainingLengthEncodedSize R := by
    intro h
    rw [e2, e3 h]
    exact subSize_eq _ _ (by omega) (by simp only [SIZE_MOD]; omega)
  have hdef : calculatePublishPacketSize ⟨qos, retain, dup, topic, tl, payload, pl⟩ r0 p0
      = (if pl > subSize (subSize MQTT_MAX_REMAINING_LENGTH H) 1 then (false, r0, p0)
        else if pl > subSize (subSize (subSize MQTT_MAX_REMAINING_LENGTH H) 1)
            (remainingLengthEncodedSize (addSize H pl)) then (false, r0, p0)
        else (true, addSize H pl,
          addSize (addSize H pl) (addSize 1 (remainingLengthEncodedSize (addSize H pl))))) := by
    unfold calculatePublishPacketSize
    simp only [e1]
  refine ⟨hdef, ⟨by omega, e2⟩, ?_, by omega, ?_⟩
  · intro h
    exact ⟨e3 h, by omega, e4 h⟩
  · rw [hdef, e2]
    by_cases h1 : pl > 268435455 - H - 1
    · rw [if_pos h1, if_neg (by omega)]
    · rw [if_neg h1]
      have h1' : pl ≤ 268435455 - H - 1 := by omega
      have e4' := e4 h1'
      rw [e2] at e4'
      rw [e4', e3 h1']
      by_cases h2 : pl > 268435455 - H - 1 - remainingLengthEncodedSize R
      · rw [if_pos h2, if_neg (by omega)]
      · rw [if_neg h2, if_pos (by omega),
          addSize_eq 1 _ (by simp only [SIZE_MOD]; omega),
          addSize_eq _ _ (by simp only [SIZE_MOD]; omega)]
        have e : R + (1 + remainingLengthEncodedSize R)
            = 1 + remainingLengthEncodedSize R + R := by omega
        rw [e]

theorem calculatePublishPacketSize_limits_witness :
    ((1 : Nat) < 65536 ∧ 268435448 < SIZE_MOD)
    ∧ calculatePublishPacketSize
        ⟨MQTTQoS.MQTTQoS0, false, false, some [0x61], 1, none, 268435448⟩ 0 0
      = (if 1 + remainingLengthEncodedSize 268435451 + 268435451 ≤ 268435455 then
          (true, 268435451, 1 + remainingLengthEncodedSize 268435451 + 268435451)
        else (false, 0, 0)) := by
  have h1 : (1 : Nat) < 65536 := by norm_num
  have h2 : 268435448 < SIZE_MOD := by norm_num [SIZE_MOD]
  have h3 : (3 : Nat) = 2 + 1 + (if MQTTQoS.MQTTQoS0 = MQTTQoS.MQTTQoS0 then 0 else 2) := by
    simp
  have h4 : (268435451 : Nat) = 3 + 268435448 := by norm_num
  exact ⟨⟨h1, h2⟩,
    (calculatePublishPacketSize_limits
      ⟨MQTTQoS.MQTTQoS0, false, false, some [0x61], 1, none, 268435448⟩ 0 0 3 268435451
      h1 h2 h3 h4).2.2.2.2⟩

/-! ## Slices returned by the PUBLISH deserializer -/

/-- C37: `MQTT_DeserializePublish` on a packet whose remaining data has the
declared length R.  The call never reads a byte outside the data (it has a
result on every outcome).  Whenever it returns `MQTTSuccess`, the topic
pointer is the data from offset 2 on and the topic length the big-endian
value of bytes 0..1, so the topic slice is bytes [2, 2 + topic length); the
payload pointer is the data from offset 2 + topic length (+ 2 when QoS > 0)
on; and 2 + topic length + (2 if QoS > 0 else 0) + payload length = R, so the
payload slice runs up to R and the payload-length subtraction did not wrap. -/
theorem deserializePublish_slices (t pid0 : Nat) (out0 : MQTTPublishInfo) (d : List Nat)
    (hbytes : ∀ b ∈ d, b < 256) (hR : d.length < SIZE_MOD) :
    (∃ r, MQTT_DeserializePublish (some ⟨t, some d, d.length⟩) (some pid0) (some out0)
      = some r)
    ∧ ∀ pid out,
        MQTT_DeserializePublish (some ⟨t, some d, d.length⟩) (some pid0) (some out0)
          = some (MQTTStatus.MQTTSuccess, some pid, some out) →
        out.topicNameLength = d.getD 0 0 * 256 + d.getD 1 0
        ∧ out.pTopicName = some (d.drop 2)
        ∧ 2 + out.topicNameLength + (if out.qos = MQTTQoS.MQTTQoS0 then 0 else 2)
            + out.payloadLength = d.length
        ∧ out.pPayload
          = some (d.drop (2 + out.topicNameLength
              + (if out.qos = MQTTQoS.MQTTQoS0 then 0 else 2)))
        ∧ (d.drop 2).take out.topicNameLength
          = (d.take (2 + out.topicNameLength)).drop 2 := by
  by_cases hn : (t &&& 0xF0) = 0x30
  · rw [deserializePublish_dispatch t d.length pid0 out0 (some d) hn,
      deserializePublish_closed t pid0 out0 d hbytes hR]
    generalize d.getD 0 0 * 256 + d.getD 1 0 = tl
    generalize d.getD (2 + tl) 0 * 256 + d.getD (3 + tl) 0 = pidv
    generalize UINT8_CHECK_BIT (t &&& 0x0F) 2 = q2
    generalize UINT8_CHECK_BIT (t &&& 0x0F) 1 = q1
    generalize UINT8_CHECK_BIT (t &&& 0x0F) 0 = q0
    have htake : ∀ n, (d.drop 2).take n = (d.take (2 + n)).drop 2 := by
      intro n
      rw [List.drop_take]
      simp
    cases q2 <;> cases q1 <;>
      simp only [Bool.false_eq_true, Bool.true_eq_false, and_self, and_false, false_and,
        and_true, true_and, if_true, if_false, eq_self_iff_true, not_true_eq_false,
        not_false_eq_true] <;>
      refine ⟨?_, ?_⟩
    all_goals try (first | exact ⟨_, rfl⟩ | (split_ifs <;> exact ⟨_, rfl⟩))
    all_goals
      intro pid out h
      first
        | (split_ifs at h <;>
            simp only [Option.some.injEq, Prod.mk.injEq, reduceCtorEq, false_and,
              true_and] at h)
        | simp only [Option.some.injEq, Prod.mk.injEq, reduceCtorEq, false_and,
            true_and] at h
      all_goals
        obtain ⟨-, rfl⟩ := h
        refine ⟨rfl, rfl, ?_, ?_, htake _⟩
        · simp only [reduceCtorEq, ↓reduceIte]
          omega
        · simp [List.drop_drop, Nat.add_comm, Nat.add_left_comm]
  · refine ⟨?_, ?_⟩
    · simp [MQTT_DeserializePublish, MQTT_PACKET_TYPE_PUBLISH, hn]
    · intro pid out h
      simp [MQTT_DeserializePublish, MQTT_PACKET_TYPE_PUBLISH, hn] at h


theorem deserializePublish_slices_witness :
    (∀ b ∈ [0x00, 0x01, 0x61, 0x00, 0x07, 0x68, 0x69], b < 256)
    ∧ 2 + 1 + (if MQTTQoS.MQTTQoS1 = MQTTQoS.MQTTQoS0 then 0 else 2) + 2
      = [0x00, 0x01, 0x61, 0x00, 0x07, 0x68, 0x69].length :=
  ⟨by decide,
    ((deserializePublish_slices 0x32 0 ⟨MQTTQoS.MQTTQoS0, false, false, none, 0, none, 0⟩
      [0x00, 0x01, 0x61, 0x00, 0x07, 0x68, 0x69] (by decide) (by decide)).2 7
      ⟨MQTTQoS.MQTTQoS1, false, false, some [0x61, 0x00, 0x07, 0x68, 0x69], 1,
        some [0x68, 0x69], 2⟩ (by decide)).2.2.1⟩

/-! ## The length bytes the framer accepts -/

theorem loop_empty_scripted (rl m bd eb : Nat) (hm : 0 < m) (reqs : List Nat)
    (h : m ≤ 2097152) :
    getRemainingLengthLoop scriptedRecv rl m bd eb hm ⟨[], reqs⟩
      = (MQTT_REMAINING_LENGTH_INVALID, bd, ⟨[], reqs ++ [1]⟩) := by
  have hr : (recvCall scriptedRecv ⟨[], reqs⟩ eb 1).1 ≠ 1 := by
    show (0 : Int) ≠ 1
    decide
  rw [loop_fail scriptedRecv rl m bd eb hm ⟨[], reqs⟩ h hr]
  rfl

/-- When the loop of `getRemainingLength` ends with the invalid marker, so
does `getRemainingLength`. -/
theorem getRemainingLength_invalid_of_loop {σ : Type} (recvFunc : MQTTTransportRecvFunc σ)
    (net : Network σ) (x : Nat × Nat × Network σ)
    (h : getRemainingLengthLoop recvFunc 0 1 0 0 (by decide) net = x)
    (hx : x.1 = MQTT_REMAINING_LENGTH_INVALID) :
    (getRemainingLength recvFunc net).1 = MQTT_REMAINING_LENGTH_INVALID := by
  unfold getRemainingLength
  rw [h]
  simp [hx]

/-- What `getRemainingLength` returns on a scripted transport: either the
invalid marker, or a value R of at most 268,435,455 after consuming exactly
the entries that deliver the bytes `encodeRemainingLength` produces for R. -/
theorem getRemainingLength_scripted (s : List (Int × Nat)) (reqs : List Nat)
    (hs : ∀ e ∈ s, e.2 < 256) :
    (getRemainingLength scriptedRecv ⟨s, reqs⟩).1 = MQTT_REMAINING_LENGTH_INVALID
    ∨ ∃ R rest, R ≤ 268435455
        ∧ s = deliver (encodeRemainingLength [] R) ++ rest
        ∧ (getRemainingLength scriptedRecv ⟨s, reqs⟩).1 = R
        ∧ (getRemainingLength scriptedRecv ⟨s, reqs⟩).2.context = rest := by
  rcases s with _ | ⟨⟨r1, a⟩, s⟩
  · left
    have h := loop_empty_scripted 0 1 0 0 (by decide) reqs (by decide)
    exact getRemainingLength_invalid_of_loop _ _ _ h rfl
  have ha' : a < 256 := hs (r1, a) (by simp)
  by_cases hr1 : r1 = 1
  swap
  · left
    have h := loop_fail_scripted 0 1 0 0 a r1 (by decide) s reqs (by decide) hr1
    exact getRemainingLength_invalid_of_loop _ _ _ h rfl
  subst hr1
  by_cases ha : a < 128
  · right
    refine ⟨a, s, by omega, ?_, ?_, ?_⟩
    · rw [encodeRemainingLength_one [] a ha]
      rfl
    · rw [getRemainingLength_one_byte a ha]
    · rw [getRemainingLength_one_byte a ha]
  have ha : 128 ≤ a := by omega
  rcases s with _ | ⟨⟨r2, b⟩, s⟩
  · left
    have h := loop_more_scripted 0 1 0 0 a (by decide) [] reqs (by decide) ha' ha
      (by omega) (by decide) (by decide)
    rw [loop_empty_scripted _ _ _ _ _ _ (by decide)] at h
    exact getRemainingLength_invalid_of_loop _ _ _ h rfl
  have hb' : b < 256 := hs (r2, b) (by simp)
  by_cases hr2 : r2 = 1
  swap
  · left
    have h := loop_more_scripted 0 1 0 0 a (by decide) ((r2, b) :: s) reqs (by decide) ha' ha
      (by omega) (by decide) (by decide)
    rw [loop_fail_scripted _ _ _ _ b r2 _ _ _ (by decide) hr2] at h
    exact getRemainingLength_invalid_of_loop _ _ _ h rfl
  subst hr2
  by_cases hb : b < 128
  · rw [getRemainingLength_two_bytes a b ha ha' hb]
    by_cases hsz : remainingLengthEncodedSize (a % 128 + 128 * b) = 2
    · right
      have hrange : 128 ≤ a % 128 + 128 * b ∧ a % 128 + 128 * b < 16384 := by
        unfold remainingLengthEncodedSize at hsz
        split_ifs at hsz <;> omega
      refine ⟨a % 128 + 128 * b, s, by omega, ?_, by simp [hsz], by simp [hsz]⟩
      rw [encodeRemainingLength_closed _ (by omega), if_neg (by omega), if_pos (by omega)]
      have e1 : (a % 128 + 128 * b) % 128 + 128 = a := by omega
      have e2 : (a % 128 + 128 * b) / 128 = b := by omega
      rw [e1, e2]
      rfl
    · left
      simp [hsz]
  have hb : 128 ≤ b := by omega
  rcases s with _ | ⟨⟨r3, c⟩, s⟩
  · left
    have h := loop_more_scripted 0 1 0 0 a (by decide) [(1, b)] reqs (by decide) ha' ha
      (by omega) (by decide) (by decide)
    rw [loop_more_scripted _ _ _ _ _ _ _ _ (by decide) hb' hb
      (by omega) (by decide) (by decide)] at h
    rw [loop_empty_scripted _ _ _ _ _ _ (by decide)] at h
    exact getRemainingLength_invalid_of_loop _ _ _ h rfl
  have hc' : c < 256 := hs (r3, c) (by simp)
  by_cases hr3 : r3 = 1
  swap
  · left
    have h := loop_more_scripted 0 1 0 0 a (by decide) ((1, b) :: (r3, c) :: s) reqs (by decide) ha' ha
      (by omega) (by decide) (by decide)
    rw [loop_more_scripted _ _ _ _ _ _ _ _ (by decide) hb' hb
      (by omega) (by decide) (by decide)] at h
    rw [loop_fail_scripted _ _ _ _ c r3 _ _ _ (by decide) hr3] at h
    exact getRemainingLength_invalid_of_loop _ _ _ h rfl
  subst hr3
  by_cases hc : c < 128
  · rw [getRemainingLength_three_bytes a b c ha ha' hb hb' hc]
    by_cases hsz : remainingLengthEncodedSize (a % 128 + 128 * (b % 128 + 128 * c)) = 3
    · right
      have hrange : 16384 ≤ a % 128 + 128 * (b % 128 + 128 * c)
          ∧ a % 128 + 128 * (b % 128 + 128 * c) < 2097152 := by
        unfold remainingLengthEncodedSize at hsz
        split_ifs at hsz <;> omega
      refine ⟨a % 128 + 128 * (b % 128 + 128 * c), s, by omega, ?_, by simp [hsz],
        by simp [hsz]⟩
      rw [encodeRemainingLength_closed _ (by omega), if_neg (by omega), if_neg (by omega),
        if_pos (by omega)]
      have e1 : (a % 128 + 128 * (b % 128 + 128 * c)) % 128 + 128 = a := by omega
      have e2 : (a % 128 + 128 * (b % 128 + 128 * c)) / 128 % 128 + 128 = b := by omega
      have e3 : (a % 128 + 128 * (b % 128 + 128 * c)) / 128 / 128 = c := by omega
      rw [e1, e2, e3]
      rfl
    · left
      simp [hsz]
  have hc : 128 ≤ c := by omega
  rcases s with _ | ⟨⟨r4, d⟩, s⟩
  · left
    have h := loop_more_scripted 0 1 0 0 a (by decide) [(1, b), (1, c)] reqs (by decide) ha' ha
      (by omega) (by decide) (by decide)
    rw [loop_more_scripted _ _ _ _ _ _ _ _ (by decide) hb' hb
      (by omega) (by decide) (by decide)] at h
    rw [loop_more_scripted _ _ _ _ _ _ _ _ (by decide) hc' hc
      (by omega) (by decide) (by decide)] at h
    rw [loop_empty_scripted _ _ _ _ _ _ (by decide)] at h
    exact getRemainingLength_invalid_of_loop _ _ _ h rfl
  have hd' : d < 256 := hs (r4, d) (by simp)
  by_cases hr4 : r4 = 1
  swap
  · left
    have h := loop_more_scripted 0 1 0 0 a (by decide) ((1, b) :: (1, c) :: (r4, d) :: s) reqs (by decide) ha' ha
      (by omega) (by decide) (by decide)
    rw [loop_more_scripted _ _ _ _ _ _ _ _ (by decide) hb' hb
      (by omega) (by decide) (by decide)] at h
    rw [loop_more_scripted _ _ _ _ _ _ _ _ (by decide) hc' hc
      (by omega) (by decide) (by decide)] at h
    rw [loop_fail_scripted _ _ _ _ d r4 _ _ _ (by decide) hr4] at h
    exact getRemainingLength_invalid_of_loop _ _ _ h rfl
  subst hr4
  by_cases hd : d < 128
  · rw [getRemainingLength_four_bytes a b c d ha ha' hb hb' hc hc' hd]
    by_cases hsz : remainingLengthEncodedSize
        (a % 128 + 128 * (b % 128 + 128 * (c % 128 + 128 * d))) = 4
    · right
      have hrange : 2097152 ≤ a % 128 + 128 * (b % 128 + 128 * (c % 128 + 128 * d)) := by
        unfold remainingLengthEncodedSize at hsz
        split_ifs at hsz <;> omega
      refine ⟨a % 128 + 128 * (b % 128 + 128 * (c % 128 + 128 * d)), s, by omega, ?_,
        by simp [hsz], by simp [hsz]⟩
      rw [encodeRemainingLength_closed _ (by omega), if_neg (by omega), if_neg (by omega),
        if_neg (by omega)]
      have e1 : (a % 128 + 128 * (b % 128 + 128 * (c % 128 + 128 * d))) % 128 + 128 = a := by
        omega
      have e2 : (a % 128 + 128 * (b % 128 + 128 * (c % 128 + 128 * d))) / 128 % 128 + 128
          = b := by omega
      have e3 : (a % 128 + 128 * (b % 128 + 128 * (c % 128 + 128 * d))) / 128 / 128 % 128
          + 128 = c := by omega
      have e4 : (a % 128 + 128 * (b % 128 + 128 * (c % 128 + 128 * d))) / 128 / 128 / 128
          = d := by omega
      rw [e1, e2, e3, e4]
      rfl
    · left
      simp [hsz]
  · left
    rw [getRemainingLength_four_continued a b c d ha ha' hb hb' hc hc' (by omega) hd']

/-- C38: on a scripted transport whose entries deliver bytes, whenever
`MQTT_GetIncomingPacketTypeAndLength` returns `MQTTSuccess` the remaining
length R it stores is at most 268,435,455 (so it is not the invalid marker
268,435,456), and the script consists of the entry that delivered the type
byte, then exactly the entries that deliver the bytes `encodeRemainingLength`
produces for R, then the entries left unread. -/
theorem framer_success_encoding (s : List (Int × Nat)) (reqs : List Nat)
    (pIncomingPacket : MQTTPacketInfo) (hs : ∀ e ∈ s, e.2 < 256)
    (hok : (MQTT_GetIncomingPacketTypeAndLength scriptedRecv ⟨s, reqs⟩ pIncomingPacket).1
      = MQTTStatus.MQTTSuccess) :
    (MQTT_GetIncomingPacketTypeAndLength scriptedRecv ⟨s, reqs⟩
        pIncomingPacket).2.1.remainingLength ≤ 268435455
    ∧ (MQTT_GetIncomingPacketTypeAndLength scriptedRecv ⟨s, reqs⟩
        pIncomingPacket).2.1.remainingLength ≠ MQTT_REMAINING_LENGTH_INVALID
    ∧ s = (1, (MQTT_GetIncomingPacketTypeAndLength scriptedRecv ⟨s, reqs⟩
              pIncomingPacket).2.1.type)
          :: (deliver (encodeRemainingLength []
                (MQTT_GetIncomingPacketTypeAndLength scriptedRecv ⟨s, reqs⟩
                  pIncomingPacket).2.1.remainingLength)
              ++ (MQTT_GetIncomingPacketTypeAndLength scriptedRecv ⟨s, reqs⟩
                  pIncomingPacket).2.2.context) := by
  rcases s with _ | ⟨⟨r, t⟩, s⟩
  · exfalso
    simp [MQTT_GetIncomingPacketTypeAndLength, recvCall, scriptedRecv] at hok
  have ht : t < 256 := hs (r, t) (by simp)
  by_cases hr : r = 1
  swap
  · exfalso
    simp [MQTT_GetIncomingPacketTypeAndLength, recvCall_scripted, hr] at hok
  subst hr
  by_cases hv : incomingPacketValid t = true
  swap
  · exfalso
    simp [MQTT_GetIncomingPacketTypeAndLength, recvCall_scripted, Nat.mod_eq_of_lt ht, hv]
      at hok
  rw [framer_scripted t ht hv] at hok ⊢
  simp only at hok ⊢
  rcases getRemainingLength_scripted s (reqs ++ [1])
    (fun e he => hs e (List.mem_cons_of_mem _ he)) with hinv | ⟨R, rest, hR, hsplit, h1, h2⟩
  · rw [if_pos hinv] at hok
    exact absurd hok (by decide)
  · rw [h1, h2]
    refine ⟨hR, ?_, ?_⟩
    · simp only [MQTT_REMAINING_LENGTH_INVALID]
      omega
    · rw [hsplit]

theorem framer_success_encoding_witness :
    (∀ e ∈ deliver [0x30, 0x05, 0x00], e.2 < 256)
    ∧ (MQTT_GetIncomingPacketTypeAndLength scriptedRecv ⟨deliver [0x30, 0x05, 0x00], []⟩
        ⟨0, none, 0⟩).2.1.remainingLength ≤ 268435455 := by
  have h : (MQTT_GetIncomingPacketTypeAndLength scriptedRecv
      ⟨deliver [0x30, 0x05, 0x00], []⟩ ⟨0, none, 0⟩).1 = MQTTStatus.MQTTSuccess := by
    simp only [deliver, List.map_cons, List.map_nil]
    rw [framer_scripted 0x30 (by decide) (by decide),
      getRemainingLength_one_byte 5 (by decide)]
    simp [MQTT_REMAINING_LENGTH_INVALID]
  exact ⟨by decide, (framer_success_encoding (deliver [0x30, 0x05, 0x00]) []
    ⟨0, none, 0⟩ (by decide) h).1⟩

end CoreMQTT
